import Mathlib

/-!
Loyalty points ledger: a shallow embedding.

The request handlers of `web/routes/pointsRoutes.js` (`/redeem`, `/adjust`) and
of `web/webhooks/orderWebhooks.js` (`handleOrderCreate`, `handleOrderUpdate`)
are embedded as pure functions from a database state to a response and a new
database state.  The schemas of `web/models/Customer.js` and
`web/models/Transaction.js` are embedded as records together with the validation
that `save()` runs.  The balance route of `web/routes/pointsRoutes.js` and the
catalog routes of `web/routes/spinRoutes.js`, with the schema of
`web/models/SpinWheel.js`, are embedded in the same way; the `value` and the
`probability` of a reward are rationals.

Modelling conventions

* Handlers run one at a time: each `await` completes before the next statement.
* A JavaScript number is an exact integer or `NaN` (`JsNum`).  Double arithmetic
  and `parseInt` on a number are exact on the safe integers (magnitude below
  `2 ^ 53`), which is the range point counters live in; fractional numbers,
  infinite numbers and integers beyond that range are not represented.
* A request field that the handler does arithmetic on is a `JsVal`: a JSON
  value, or `undefined` when the field is absent.  An array or object is
  represented by the string its `toString()` yields, which is what every
  operator used by the handlers sees.
* `save()` fails when schema validation fails (a `required` path that is
  missing or empty, `min: 0` on `pointsBalance`, a Number path assigned `NaN`) or
  when an insert violates the unique index; the handler then answers 500 from
  its `catch` block.
-/

namespace Loyalty

/-! ## JavaScript values -/

/-- A JavaScript number: an exact integer, or `NaN`. -/
inductive JsNum where
  | int (n : Int)
  | nan
deriving DecidableEq, Repr

/-- A request value: `undefined` for an absent field, otherwise a JSON value.
`obj prim` is an array or object whose `toString()` is `prim`. -/
inductive JsVal where
  | undefined
  | null
  | bool (b : Bool)
  | num (x : JsNum)
  | str (s : String)
  | obj (prim : String)
deriving DecidableEq, Repr

namespace JsNum

/-- The operator `a + b` on numbers. -/
def add : JsNum → JsNum → JsNum
  | int a, int b => int (a + b)
  | _, _ => nan

/-- The operator `a - b` on numbers. -/
def sub : JsNum → JsNum → JsNum
  | int a, int b => int (a - b)
  | _, _ => nan

/-- The operator `a * b` on numbers. -/
def mul : JsNum → JsNum → JsNum
  | int a, int b => int (a * b)
  | _, _ => nan

/-- The unary operator `-a`. -/
def neg : JsNum → JsNum
  | int a => int (-a)
  | nan => nan

/-- The comparison `a < b` on numbers; it is false as soon as one side is `NaN`. -/
def lt : JsNum → JsNum → Bool
  | int a, int b => decide (a < b)
  | _, _ => false

/-- The idiom `x || d` for a number `x`: `0` and `NaN` are falsy. -/
def orElse (x : JsNum) (d : Int) : Int :=
  match x with
  | int n => if n = 0 then d else n
  | nan => d

/-- The result of `String(x)`. -/
def toStr : JsNum → String
  | int n => toString n
  | nan => "NaN"

/-- The result of `Math.abs(x)`. -/
def abs : JsNum → JsNum
  | int n => int |n|
  | nan => nan

end JsNum

/-- The characters `parseInt` skips at the start of its input (white space and
line terminators). -/
def isStrWhiteSpaceChar (c : Char) : Bool :=
  let n := c.toNat
  n = 9 || n = 10 || n = 11 || n = 12 || n = 13 || n = 32 || n = 160 || n = 5760
    || (8192 ≤ n && n ≤ 8202) || n = 8232 || n = 8233 || n = 8239 || n = 8287
    || n = 12288 || n = 65279

/-- The value of a character as a digit in the given radix, if it is one. -/
def digitValue (radix : Nat) (c : Char) : Option Nat :=
  let n := c.toNat
  let v : Option Nat :=
    if 48 ≤ n ∧ n ≤ 57 then some (n - 48)
    else if 97 ≤ n ∧ n ≤ 122 then some (n - 87)
    else if 65 ≤ n ∧ n ≤ 90 then some (n - 55)
    else none
  match v with
  | some d => if d < radix then some d else none
  | none => none

/-- The longest prefix of digits in the given radix, as digit values. -/
def takeDigits (radix : Nat) : List Char → List Nat
  | [] => []
  | c :: cs =>
    match digitValue radix c with
    | some d => d :: takeDigits radix cs
    | none => []

/-- The function `parseInt(s)` on a string, without a radix argument: leading
white space, an optional sign, an optional `0x` or `0X`, then the longest run of
digits; `NaN` when there is no digit. -/
def parseIntStr (s : String) : JsNum :=
  let cs := s.toList.dropWhile isStrWhiteSpaceChar
  let signed : Int × List Char :=
    match cs with
    | c :: r => if c = Char.ofNat 45 then (-1, r) else if c = Char.ofNat 43 then (1, r) else (1, cs)
    | [] => (1, cs)
  let based : Nat × List Char :=
    match signed.2 with
    | z :: x :: r =>
      if z = Char.ofNat 48 ∧ (x = Char.ofNat 120 ∨ x = Char.ofNat 88) then (16, r) else (10, signed.2)
    | _ => (10, signed.2)
  let ds := takeDigits based.1 based.2
  match ds with
  | [] => JsNum.nan
  | _ :: _ => JsNum.int (signed.1 * (ds.foldl (fun a d => a * based.1 + d) 0 : Nat))

/-- The function `parseInt` applied to an environment variable, which is a
string or `undefined`. -/
def parseIntEnv : Option String → JsNum
  | none => JsNum.nan
  | some s => parseIntStr s

namespace JsVal

/-- The truthiness of a value, as tested by `!v`, `v || d` and `v && w`. -/
def truthy : JsVal → Bool
  | undefined => false
  | null => false
  | bool b => b
  | num (JsNum.int n) => decide (n ≠ 0)
  | num JsNum.nan => false
  | str s => decide (s ≠ "")
  | obj _ => true

/-- The result of `String(v)`, as used by template literals and by `parseInt`. -/
def toStr : JsVal → String
  | undefined => "undefined"
  | null => "null"
  | bool b => if b then "true" else "false"
  | num x => x.toStr
  | str s => s
  | obj prim => prim

/-- The function `parseInt(v)`: it parses `String(v)`.  On an integer number this
returns the number itself. -/
def parseInt : JsVal → JsNum
  | undefined => JsNum.nan
  | null => JsNum.nan
  | bool _ => JsNum.nan
  | num x => x
  | str s => parseIntStr s
  | obj prim => parseIntStr prim

end JsVal

/-! ## The runtime environment -/

/-- What a handler reads from outside the request and the database: the process
environment variables, the clock, the random source, and the library functions
that are taken as given (string-to-number conversion, HMAC-SHA256, base64
decoding). -/
structure Env where
  POINTS_PER_ORDER : Option String
  POINTS_TO_RUPEES_RATIO : Option String
  SHOPIFY_WEBHOOK_SECRET : Option String
  /-- The value of `Date.now()`. -/
  now : Nat
  /-- The value of `Math.random().toString(36).substr(2, 4).toUpperCase()`. -/
  randomSuffix : String
  /-- The numeric value of a string operand (`Number(s)`). -/
  stringToNumber : String → JsNum
  /-- The digest bytes of HMAC-SHA256 for a secret and a payload. -/
  hmacSha256 : String → String → List Nat
  /-- The bytes of `Buffer.from(s, "base64")`. -/
  base64Decode : String → List Nat

/-- The numeric value of an operand of `<`, `-`, `*` or unary `-`. -/
def Env.toNumber (env : Env) : JsVal → JsNum
  | JsVal.undefined => JsNum.nan
  | JsVal.null => JsNum.int 0
  | JsVal.bool b => JsNum.int (if b then 1 else 0)
  | JsVal.num x => x
  | JsVal.str s => env.stringToNumber s
  | JsVal.obj prim => env.stringToNumber prim

/-- The operator `a + v` for a number `a`: string concatenation when `v` is a
string, an array or an object, numeric addition otherwise. -/
def Env.plus (env : Env) (a : Int) (v : JsVal) : JsVal :=
  match v with
  | JsVal.str s => JsVal.str (toString a ++ s)
  | JsVal.obj prim => JsVal.str (toString a ++ prim)
  | _ => JsVal.num (JsNum.add (JsNum.int a) (env.toNumber v))

/-- The cast that a schema path of type Number applies to an assigned value:
`none` is a cast error, which `save()` reports.  (A `null`, `undefined` or empty
string would clear the path; no handler assigns one, and they are treated as
errors here.) -/
def Env.castNumber (env : Env) : JsVal → Option Int
  | JsVal.num (JsNum.int n) => some n
  | JsVal.num JsNum.nan => none
  | JsVal.bool b => some (if b then 1 else 0)
  | JsVal.str s =>
    match env.stringToNumber s with
    | JsNum.int n => if s = "" then none else some n
    | JsNum.nan => none
  | _ => none

/-! ## Data model (`web/models/Customer.js`, `web/models/Transaction.js`) -/

/-- A Customer document.  `email` is optional here because a document under
construction may lack it; `save()` refuses such a document. -/
structure Customer where
  _id : Nat
  shopifyCustomerId : String
  shopDomain : String
  email : Option String
  firstName : Option String
  lastName : Option String
  pointsBalance : Int
  totalPointsEarned : Int
  totalPointsRedeemed : Int
  totalOrders : Int
  lastSpinDate : Option Nat
  isActive : Bool
deriving DecidableEq, Repr

/-- The `enum` of the `type` path of a Transaction. -/
inductive TransactionType where
  | earned
  | redeemed
  | spin_reward
  | adjustment
deriving DecidableEq, Repr

/-- The `metadata` bag of a Transaction, one shape per writer. -/
inductive Metadata where
  | empty
  | redemption (discountAmount : JsNum) (discountType : String)
  | manual (adjustmentType : String) (previousBalance : Int)
  | order (orderTotal : Option String) (orderCurrency : Option String)
deriving DecidableEq, Repr

/-- A Transaction document. -/
structure Transaction where
  customerId : Nat
  shopifyCustomerId : String
  shopDomain : String
  type : TransactionType
  points : Int
  description : String
  orderId : Option String
  orderNumber : Option String
  discountCode : Option String
  spinRewardType : Option String
  balanceAfter : Int
  metadata : Metadata
deriving DecidableEq, Repr

/-- The two collections the handlers read and write.  Transactions are kept in
insertion order. -/
structure Db where
  customers : List Customer
  transactions : List Transaction
deriving DecidableEq, Repr

/-- The `required: true` validator on an optional String path: the value is
present and not the empty string. -/
def present (o : Option String) : Prop := o ≠ none ∧ o ≠ some ""

instance (o : Option String) : Decidable (present o) := by
  unfold present; infer_instance

/-- Schema validation of a Customer: the three required strings and `min: 0` on
`pointsBalance`. -/
def Customer.valid (c : Customer) : Prop :=
  c.shopifyCustomerId ≠ "" ∧ c.shopDomain ≠ "" ∧ present c.email ∧ 0 ≤ c.pointsBalance

instance (c : Customer) : Decidable c.valid := by
  unfold Customer.valid; infer_instance

/-- Schema validation of a Transaction: the required strings.  The required
numbers are present by typing. -/
def Transaction.valid (t : Transaction) : Prop :=
  t.shopifyCustomerId ≠ "" ∧ t.shopDomain ≠ "" ∧ t.description ≠ ""

instance (t : Transaction) : Decidable t.valid := by
  unfold Transaction.valid; infer_instance

/-- The query `Customer.findOne({ shopifyCustomerId, shopDomain })`. -/
def Customer.findOne (db : Db) (shopifyCustomerId shopDomain : String) : Option Customer :=
  db.customers.find? (fun c =>
    decide (c.shopifyCustomerId = shopifyCustomerId ∧ c.shopDomain = shopDomain))

/-- A document identifier not yet used in the collection. -/
def Db.freshId (db : Db) : Nat :=
  db.customers.foldr (fun c m => max (c._id + 1) m) 0

/-- The stored documents after an update of the document whose `_id` is that of
`c`. -/
def replaceById (l : List Customer) (c : Customer) : List Customer :=
  l.map (fun d => if d._id = c._id then c else d)

/-- The call `customer.save()`.  It validates the document; a new document is
inserted unless the unique index on `shopifyCustomerId` already holds its key; a
loaded document overwrites the stored one with the same `_id`.  `none` is a
rejected promise. -/
def Customer.save (db : Db) (isNew : Bool) (c : Customer) : Option Db :=
  if ¬ c.valid then none
  else if isNew then
    if db.customers.any (fun d => decide (d.shopifyCustomerId = c.shopifyCustomerId)) then none
    else some { db with customers := db.customers ++ [c] }
  else some { db with customers := replaceById db.customers c }

/-- The call `transaction.save()` on a new Transaction. -/
def Transaction.save (db : Db) (t : Transaction) : Option Db :=
  if t.valid then some { db with transactions := db.transactions ++ [t] } else none

/-! ## Responses -/

/-- The body of a response, one constructor per shape the handlers send. -/
inductive Body where
  | error (error : String)
  | insufficient (error : String) (available : Int) (requested : JsVal)
  | negative (error : String) (currentBalance : Int) (requestedChange : JsNum)
  | redeemed (discountCode : String) (discountAmount : JsNum) (pointsRedeemed : JsVal)
      (remainingBalance : Int) (message : String)
  | adjusted (customerId : String) (pointsAdjusted : JsNum) (previousBalance : Int)
      (newBalance : Int) (message : String)
  | text (text : String)
deriving DecidableEq, Repr

/-- A response: HTTP status and body. -/
structure Response where
  status : Nat
  body : Body
deriving DecidableEq, Repr

/-- The answer of every `catch` block of the points routes. -/
def internalError : Response := ⟨500, Body.error "Internal server error"⟩

/-! ## The write sequence shared by the ledger handlers -/

/-- The tail of each of the four ledger handlers: `await customer.save()`, then
`new Transaction({...})` and `await transaction.save()`, then the success
response.  `transaction` is `none` when a Number path of the new Transaction
fails to cast.  A rejected save lands in the `catch` block, which answers `err`;
the Customer write is not undone when the Transaction write is rejected. -/
def commit (db : Db) (isNew : Bool) (customer : Customer) (transaction : Option Transaction)
    (ok err : Response) : Response × Db :=
  match Customer.save db isNew customer with
  | none => (err, db)
  | some db1 =>
    match transaction with
    | none => (err, db1)
    | some t =>
      match Transaction.save db1 t with
      | none => (err, db1)
      | some db2 => (ok, db2)

/-! ## `POST /redeem` (`web/routes/pointsRoutes.js`) -/

/-- The fields the redeem route reads from `req.body`. -/
structure RedeemBody where
  customerId : Option String
  pointsToRedeem : JsVal
  shopDomain : Option String

/-- The expression `parseInt(process.env.POINTS_TO_RUPEES_RATIO) || 1`. -/
def pointsToRupeesRatio (env : Env) : Int :=
  (parseIntEnv env.POINTS_TO_RUPEES_RATIO).orElse 1

/-- The value of `discountAmount`: `pointsToRedeem * pointsToRupeesRatio`. -/
def discountAmount (env : Env) (pointsToRedeem : JsVal) : JsNum :=
  (env.toNumber pointsToRedeem).mul (JsNum.int (pointsToRupeesRatio env))

/-- The generated discount code: `LOYALTY`, the clock, the random suffix. -/
def discountCode (env : Env) : String :=
  "LOYALTY" ++ toString env.now ++ env.randomSuffix

/-- The Transaction that the redeem route records; `points` is the cast value
of `-pointsToRedeem`. -/
def redeemTransaction (env : Env) (customerId shopDomain : String) (pointsToRedeem : JsVal)
    (customer : Customer) (points : Int) : Transaction :=
  { customerId := customer._id
    shopifyCustomerId := customerId
    shopDomain := shopDomain
    type := TransactionType.redeemed
    points := points
    description := "Redeemed " ++ (pointsToRedeem.toStr ++ (" points for ₹"
      ++ ((discountAmount env pointsToRedeem).toStr ++ " discount")))
    orderId := none
    orderNumber := none
    discountCode := some (discountCode env)
    spinRewardType := none
    balanceAfter := customer.pointsBalance
    metadata := Metadata.redemption (discountAmount env pointsToRedeem) "fixed_amount" }

/-- The success response of the redeem route. -/
def redeemResponse (env : Env) (pointsToRedeem : JsVal) (customer : Customer) : Response :=
  ⟨200, Body.redeemed (discountCode env) (discountAmount env pointsToRedeem) pointsToRedeem
    customer.pointsBalance
    ("Successfully redeemed " ++ (pointsToRedeem.toStr ++ (" points for ₹"
      ++ ((discountAmount env pointsToRedeem).toStr ++ " discount"))))⟩

/-- The handler of `router.post("/redeem")`. -/
def redeem (env : Env) (db : Db) (body : RedeemBody) : Response × Db :=
  match body.customerId, body.shopDomain with
  | some customerId, some shopDomain =>
    if customerId = "" ∨ body.pointsToRedeem.truthy = false ∨ shopDomain = "" then
      (⟨400, Body.error "Customer ID, points to redeem, and shop domain required"⟩, db)
    else if (env.toNumber body.pointsToRedeem).lt (JsNum.int 1) then
      (⟨400, Body.error "Must redeem at least 1 point"⟩, db)
    else
      match Customer.findOne db customerId shopDomain with
      | none => (⟨404, Body.error "Customer not found"⟩, db)
      | some customer =>
        if (JsNum.int customer.pointsBalance).lt (env.toNumber body.pointsToRedeem) then
          (⟨400, Body.insufficient "Insufficient points balance" customer.pointsBalance
            body.pointsToRedeem⟩, db)
        else
          match env.castNumber (JsVal.num
                  ((JsNum.int customer.pointsBalance).sub (env.toNumber body.pointsToRedeem))),
                env.castNumber (env.plus customer.totalPointsRedeemed body.pointsToRedeem) with
          | some balance, some redeemedTotal =>
            let customer1 : Customer :=
              { customer with pointsBalance := balance, totalPointsRedeemed := redeemedTotal }
            commit db false customer1
              ((env.castNumber (JsVal.num (env.toNumber body.pointsToRedeem).neg)).map
                (redeemTransaction env customerId shopDomain body.pointsToRedeem customer1))
              (redeemResponse env body.pointsToRedeem customer1) internalError
          | _, _ => (internalError, db)
  | _, _ => (⟨400, Body.error "Customer ID, points to redeem, and shop domain required"⟩, db)

/-! ## `POST /adjust` (`web/routes/pointsRoutes.js`) -/

/-- The fields the adjust route reads from `req.body`. -/
structure AdjustBody where
  customerId : Option String
  points : JsVal
  reason : Option String
  shopDomain : Option String

/-- The text `${pointsChange > 0 ? "added" : "removed"} ${Math.abs(pointsChange)} points`. -/
def changeText (pointsChange : JsNum) : String :=
  (if (JsNum.int 0).lt pointsChange then "added" else "removed") ++ (" "
    ++ (pointsChange.abs.toStr ++ " points"))

/-- The expression `reason || "Admin adjustment: ..."`: an absent or empty
reason gives the default text. -/
def adjustDescription (reason : Option String) (pointsChange : JsNum) : String :=
  match reason with
  | some r => if r = "" then "Admin adjustment: " ++ changeText pointsChange else r
  | none => "Admin adjustment: " ++ changeText pointsChange

/-- The Transaction that the adjust route records; `points` is the cast value of
`pointsChange`. -/
def adjustTransaction (customerId shopDomain : String) (reason : Option String)
    (pointsChange : JsNum) (oldBalance : Int) (customer : Customer) (points : Int) : Transaction :=
  { customerId := customer._id
    shopifyCustomerId := customerId
    shopDomain := shopDomain
    type := TransactionType.adjustment
    points := points
    description := adjustDescription reason pointsChange
    orderId := none
    orderNumber := none
    discountCode := none
    spinRewardType := none
    balanceAfter := customer.pointsBalance
    metadata := Metadata.manual "manual" oldBalance }

/-- The success response of the adjust route. -/
def adjustResponse (customerId : String) (pointsChange : JsNum) (oldBalance : Int)
    (customer : Customer) : Response :=
  ⟨200, Body.adjusted customerId pointsChange oldBalance customer.pointsBalance
    ("Successfully " ++ changeText pointsChange)⟩

/-- The handler of `router.post("/adjust")`. -/
def adjust (env : Env) (db : Db) (body : AdjustBody) : Response × Db :=
  match body.customerId, body.shopDomain with
  | some customerId, some shopDomain =>
    if customerId = "" ∨ body.points = JsVal.undefined ∨ shopDomain = "" then
      (⟨400, Body.error "Customer ID, points adjustment, and shop domain required"⟩, db)
    else
      match Customer.findOne db customerId shopDomain with
      | none => (⟨404, Body.error "Customer not found"⟩, db)
      | some customer =>
        let oldBalance := customer.pointsBalance
        let pointsChange := body.points.parseInt
        if ((JsNum.int oldBalance).add pointsChange).lt (JsNum.int 0) then
          (⟨400, Body.negative "Adjustment would result in negative balance" oldBalance
            pointsChange⟩, db)
        else
          match env.castNumber (JsVal.num ((JsNum.int customer.pointsBalance).add pointsChange)),
                (if (JsNum.int 0).lt pointsChange then
                  env.castNumber
                    (JsVal.num ((JsNum.int customer.totalPointsEarned).add pointsChange))
                else some customer.totalPointsEarned) with
          | some balance, some earnedTotal =>
            let customer1 : Customer :=
              { customer with pointsBalance := balance, totalPointsEarned := earnedTotal }
            commit db false customer1
              ((env.castNumber (JsVal.num pointsChange)).map
                (adjustTransaction customerId shopDomain body.reason pointsChange oldBalance
                  customer1))
              (adjustResponse customerId pointsChange oldBalance customer1) internalError
          | _, _ => (internalError, db)
  | _, _ => (⟨400, Body.error "Customer ID, points adjustment, and shop domain required"⟩, db)

/-! ## Order webhooks (`web/webhooks/orderWebhooks.js`) -/

/-- The `customer` object of an order payload. -/
structure OrderCustomer where
  id : Int
  email : Option String
  first_name : Option String
  last_name : Option String

/-- The fields of an order payload that the webhooks read. -/
structure Order where
  id : Int
  order_number : Int
  customer : Option OrderCustomer
  cancelled_at : Option String
  total_price : Option String
  currency : Option String

/-- An inbound webhook request: the raw payload, the two headers the handlers
read, and the parsed payload. -/
structure WebhookRequest where
  rawBody : String
  hmacHeader : Option String
  shopDomainHeader : String
  body : Order

/-- The function `verifyWebhook`.  `none` is a thrown exception: `Buffer.from`
throws on an absent signature and `crypto.timingSafeEqual` throws when the two
buffers differ in length. -/
def verifyWebhook (env : Env) (rawBody : String) (signature : Option String) (secret : String) :
    Option Bool :=
  let calculatedSignature := env.hmacSha256 secret rawBody
  match signature with
  | none => none
  | some sig =>
    if (env.base64Decode sig).length = calculatedSignature.length then
      some (decide (env.base64Decode sig = calculatedSignature))
    else none

/-- The expression `process.env.SHOPIFY_WEBHOOK_SECRET || "webhook_secret"`. -/
def webhookSecret (env : Env) : String :=
  match env.SHOPIFY_WEBHOOK_SECRET with
  | some s => if s = "" then "webhook_secret" else s
  | none => "webhook_secret"

/-- The expression `parseInt(process.env.POINTS_PER_ORDER) || 50`. -/
def pointsPerOrder (env : Env) : Int :=
  (parseIntEnv env.POINTS_PER_ORDER).orElse 50

/-- The answer of the `catch` block of the webhooks. -/
def webhookError : Response := ⟨500, Body.text "Internal Server Error"⟩

/-- The document built by `new Customer({...})` in `handleOrderCreate`, with the
schema defaults filled in. -/
def newCustomer (db : Db) (customerId shopDomain : String) (orderCustomer : OrderCustomer) :
    Customer :=
  { _id := db.freshId
    shopifyCustomerId := customerId
    shopDomain := shopDomain
    email := orderCustomer.email
    firstName := orderCustomer.first_name
    lastName := orderCustomer.last_name
    pointsBalance := 0
    totalPointsEarned := 0
    totalPointsRedeemed := 0
    totalOrders := 0
    lastSpinDate := none
    isActive := true }

/-- The Transaction that `handleOrderCreate` records. -/
def earnedTransaction (customerId shopDomain : String) (order : Order) (pointsToAward : Int)
    (customer : Customer) : Transaction :=
  { customerId := customer._id
    shopifyCustomerId := customerId
    shopDomain := shopDomain
    type := TransactionType.earned
    points := pointsToAward
    description := "Earned " ++ (toString pointsToAward ++ (" points for order #"
      ++ toString order.order_number))
    orderId := some (toString order.id)
    orderNumber := some (toString order.order_number)
    discountCode := none
    spinRewardType := none
    balanceAfter := customer.pointsBalance
    metadata := Metadata.order order.total_price order.currency }

/-- The handler `handleOrderCreate`. -/
def handleOrderCreate (env : Env) (db : Db) (req : WebhookRequest) : Response × Db :=
  match verifyWebhook env req.rawBody req.hmacHeader (webhookSecret env) with
  | none => (webhookError, db)
  | some false => (⟨401, Body.text "Unauthorized"⟩, db)
  | some true =>
    let order := req.body
    let shopDomain := req.shopDomainHeader
    match order.customer with
    | none => (⟨200, Body.text "OK - Guest order"⟩, db)
    | some orderCustomer =>
      let customerId := toString orderCustomer.id
      let pointsToAward := pointsPerOrder env
      let found := Customer.findOne db customerId shopDomain
      let customer : Customer :=
        match found with
        | some c => c
        | none => newCustomer db customerId shopDomain orderCustomer
      let customer1 : Customer :=
        { customer with
          pointsBalance := customer.pointsBalance + pointsToAward
          totalPointsEarned := customer.totalPointsEarned + pointsToAward
          totalOrders := customer.totalOrders + 1 }
      commit db found.isNone customer1
        (some (earnedTransaction customerId shopDomain order pointsToAward customer1))
        ⟨200, Body.text "OK"⟩ webhookError

/-- The Transaction that `handleOrderUpdate` records for a cancelled order. -/
def reversalTransaction (customerId shopDomain : String) (order : Order) (pointsToReverse : Int)
    (customer : Customer) : Transaction :=
  { customerId := customer._id
    shopifyCustomerId := customerId
    shopDomain := shopDomain
    type := TransactionType.adjustment
    points := -pointsToReverse
    description := "Points reversed for cancelled order #" ++ toString order.order_number
    orderId := some (toString order.id)
    orderNumber := some (toString order.order_number)
    discountCode := none
    spinRewardType := none
    balanceAfter := customer.pointsBalance
    metadata := Metadata.empty }

/-- The handler `handleOrderUpdate`. -/
def handleOrderUpdate (env : Env) (db : Db) (req : WebhookRequest) : Response × Db :=
  match verifyWebhook env req.rawBody req.hmacHeader (webhookSecret env) with
  | none => (webhookError, db)
  | some false => (⟨401, Body.text "Unauthorized"⟩, db)
  | some true =>
    let order := req.body
    let shopDomain := req.shopDomainHeader
    match order.customer with
    | some orderCustomer =>
      if present order.cancelled_at then
        let customerId := toString orderCustomer.id
        let pointsToReverse := pointsPerOrder env
        match Customer.findOne db customerId shopDomain with
        | some customer =>
          if pointsToReverse ≤ customer.pointsBalance then
            let customer1 : Customer :=
              { customer with
                pointsBalance := customer.pointsBalance - pointsToReverse
                totalOrders := customer.totalOrders - 1 }
            commit db false customer1
              (some (reversalTransaction customerId shopDomain order pointsToReverse customer1))
              ⟨200, Body.text "OK"⟩ webhookError
          else (⟨200, Body.text "OK"⟩, db)
        | none => (⟨200, Body.text "OK"⟩, db)
      else (⟨200, Body.text "OK"⟩, db)
    | none => (⟨200, Body.text "OK"⟩, db)


/-! ## Sequences of requests -/

/-- A ledger request, with the runtime environment it is served in. -/
inductive Request where
  | redeem (env : Env) (body : RedeemBody)
  | adjust (env : Env) (body : AdjustBody)
  | orderCreate (env : Env) (req : WebhookRequest)
  | orderUpdate (env : Env) (req : WebhookRequest)

/-- Serving one request. -/
def handle (db : Db) : Request → Response × Db
  | Request.redeem env body => redeem env db body
  | Request.adjust env body => adjust env db body
  | Request.orderCreate env req => handleOrderCreate env db req
  | Request.orderUpdate env req => handleOrderUpdate env db req

/-- Serving a sequence of requests, one after the other. -/
def run (db : Db) : List Request → Db
  | [] => db
  | r :: rs => run (handle db r).2 rs

/-- The Transactions recorded for one customer of one shop, oldest first: the
filter of `Transaction.find({ shopifyCustomerId, shopDomain })`. -/
def transactionsOf (db : Db) (shopifyCustomerId shopDomain : String) : List Transaction :=
  db.transactions.filter (fun t =>
    decide (t.shopifyCustomerId = shopifyCustomerId ∧ t.shopDomain = shopDomain))

/-- The sum of the `points` fields of a list of Transactions. -/
def sumPoints (ts : List Transaction) : Int :=
  (ts.map (fun t => t.points)).sum

/-- Every Transaction of the list carries, as `balanceAfter`, the sum of `start`
and of the `points` of the Transactions up to and including it. -/
def replayOk (start : Int) : List Transaction → Prop
  | [] => True
  | t :: ts => t.balanceAfter = start + t.points ∧ replayOk (start + t.points) ts


/-- The store invariant that `save()` maintains: every stored Customer passes
schema validation and no two stored Customers share an `_id`. -/
def Db.wf (db : Db) : Prop :=
  (∀ c ∈ db.customers, c.valid) ∧ (db.customers.map (fun c => c._id)).Nodup

instance (db : Db) : Decidable db.wf := by
  unfold Db.wf; infer_instance

/-! ## Sample data -/

/-- A runtime environment in which no variable is set, so that every default
applies.  The signature `sig-ok` decodes to the digest of every payload. -/
def sampleEnv : Env :=
  { POINTS_PER_ORDER := none
    POINTS_TO_RUPEES_RATIO := none
    SHOPIFY_WEBHOOK_SECRET := none
    now := 1700000000000
    randomSuffix := "K3ZQ"
    stringToNumber := fun _ => JsNum.nan
    hmacSha256 := fun _ _ => [1, 2, 3]
    base64Decode := fun s => if s = "sig-ok" then [1, 2, 3] else [9, 9, 9] }

/-- A customer of `demo.myshopify.com` who has earned 50 points with one order. -/
def sampleCustomer : Customer :=
  { _id := 1
    shopifyCustomerId := "7001"
    shopDomain := "demo.myshopify.com"
    email := some "ada@example.com"
    firstName := some "Ada"
    lastName := none
    pointsBalance := 50
    totalPointsEarned := 50
    totalPointsRedeemed := 0
    totalOrders := 1
    lastSpinDate := none
    isActive := true }

/-- A database holding `sampleCustomer` and the Transaction of that one order. -/
def sampleDb : Db :=
  { customers := [sampleCustomer]
    transactions :=
      [{ customerId := 1
         shopifyCustomerId := "7001"
         shopDomain := "demo.myshopify.com"
         type := TransactionType.earned
         points := 50
         description := "Earned 50 points for order #1001"
         orderId := some "9001"
         orderNumber := some "1001"
         discountCode := none
         spinRewardType := none
         balanceAfter := 50
         metadata := Metadata.order (some "499.00") (some "INR") }] }

/-- The empty database. -/
def emptyDb : Db := { customers := [], transactions := [] }

/-- A signed order payload for customer 7001 of `demo.myshopify.com`. -/
def sampleOrder (email cancelledAt : Option String) : WebhookRequest :=
  { rawBody := "payload"
    hmacHeader := some "sig-ok"
    shopDomainHeader := "demo.myshopify.com"
    body :=
      { id := 9001
        order_number := 1001
        customer := some { id := 7001, email := email, first_name := some "Ada", last_name := none }
        cancelled_at := cancelledAt
        total_price := some "499.00"
        currency := some "INR" } }

/-! ## The shape of a ledger step -/

/-- The database `db1` results from `db` by an update of a stored Customer
together with the append of one Transaction of that customer, whose `points` is
the change of the balance and whose `balanceAfter` is the new balance. -/
def StepUpdate (db db1 : Db) : Prop :=
  ∃ (c0 c1 : Customer) (t : Transaction),
    Customer.findOne db c1.shopifyCustomerId c1.shopDomain = some c0 ∧
    c1._id = c0._id ∧ c1.valid ∧
    t.shopifyCustomerId = c1.shopifyCustomerId ∧ t.shopDomain = c1.shopDomain ∧
    t.balanceAfter = c1.pointsBalance ∧ c1.pointsBalance = c0.pointsBalance + t.points ∧
    db1 = { customers := replaceById db.customers c1, transactions := db.transactions ++ [t] }

/-- The database `db1` results from `db` by the insert of a new Customer together
with the append of the Transaction that gives the customer its first points. -/
def StepInsert (db db1 : Db) : Prop :=
  ∃ (c1 : Customer) (t : Transaction),
    Customer.findOne db c1.shopifyCustomerId c1.shopDomain = none ∧
    c1._id = db.freshId ∧ c1.valid ∧
    t.shopifyCustomerId = c1.shopifyCustomerId ∧ t.shopDomain = c1.shopDomain ∧
    t.balanceAfter = c1.pointsBalance ∧ c1.pointsBalance = t.points ∧
    db1 = { customers := db.customers ++ [c1], transactions := db.transactions ++ [t] }

/-- The three outcomes of a request on the database. -/
def Step (db db1 : Db) : Prop :=
  db1 = db ∨ StepUpdate db db1 ∨ StepInsert db db1

/-- The replay invariant for the customer `k` of shop `s`: the recorded
Transactions carry the running sums, the stored balance is their total, and a
customer without a record has no Transaction. -/
def Replay (db : Db) (k s : String) : Prop :=
  replayOk 0 (transactionsOf db k s) ∧
  (∀ c, Customer.findOne db k s = some c → c.pointsBalance = sumPoints (transactionsOf db k s)) ∧
  (Customer.findOne db k s = none → transactionsOf db k s = [])

/-- A customer of `demo.myshopify.com` as it is right after creation: every
counter is zero. -/
def freshCustomer : Customer :=
  { sampleCustomer with
    pointsBalance := 0
    totalPointsEarned := 0
    totalOrders := 0 }

/-- A database holding `freshCustomer` and no Transaction. -/
def freshDb : Db := { customers := [freshCustomer], transactions := [] }

/-- A sequence of requests on customer 7001: an order award of 50, a redeem of
30, a redeem of 50 (refused), an adjustment by -5, an adjustment by -100
(refused), a cancellation (refused, the balance is below 50), a second award and
a cancellation. -/
def sampleRequests : List Request :=
  [ Request.orderCreate sampleEnv (sampleOrder (some "ada@example.com") none),
    Request.redeem sampleEnv
      ⟨some "7001", JsVal.num (JsNum.int 30), some "demo.myshopify.com"⟩,
    Request.redeem sampleEnv
      ⟨some "7001", JsVal.num (JsNum.int 50), some "demo.myshopify.com"⟩,
    Request.adjust sampleEnv
      ⟨some "7001", JsVal.num (JsNum.int (-5)), some "goodwill", some "demo.myshopify.com"⟩,
    Request.adjust sampleEnv
      ⟨some "7001", JsVal.str "-100", none, some "demo.myshopify.com"⟩,
    Request.orderUpdate sampleEnv (sampleOrder (some "ada@example.com") (some "2024-05-01")),
    Request.orderCreate sampleEnv (sampleOrder (some "ada@example.com") none),
    Request.orderUpdate sampleEnv (sampleOrder (some "ada@example.com") (some "2024-05-01")) ]

/-! ## Further sample data -/

/-- The sample order without the signature header. -/
def unsignedOrder (cancelledAt : Option String) : WebhookRequest :=
  { sampleOrder (some "ada@example.com") cancelledAt with hmacHeader := none }

/-- The sample order with a signature other than the expected one. -/
def forgedOrder (cancelledAt : Option String) : WebhookRequest :=
  { sampleOrder (some "ada@example.com") cancelledAt with hmacHeader := some "sig-bad" }

/-- The sample environment, except that a signature other than the expected one
decodes to two bytes while the digest has three. -/
def shortSignatureEnv : Env :=
  { sampleEnv with base64Decode := fun s => if s = "sig-ok" then [1, 2, 3] else [9, 9] }

/-- The sample order for customer 7001, delivered for another shop. -/
def otherShopOrder : WebhookRequest :=
  { sampleOrder (some "ada@example.com") none with shopDomainHeader := "other.myshopify.com" }

/-- The sample environment with `POINTS_TO_RUPEES_RATIO` set to `0`. -/
def zeroRatioEnv : Env := { sampleEnv with POINTS_TO_RUPEES_RATIO := some "0" }

/-- The sample environment with `POINTS_TO_RUPEES_RATIO` set to `3`. -/
def tripleRatioEnv : Env := { sampleEnv with POINTS_TO_RUPEES_RATIO := some "3" }

/-- The sample environment with `POINTS_PER_ORDER` set to `0`. -/
def zeroPointsEnv : Env := { sampleEnv with POINTS_PER_ORDER := some "0" }

/-- The sample environment with `POINTS_PER_ORDER` set to `75`. -/
def seventyFiveEnv : Env := { sampleEnv with POINTS_PER_ORDER := some "75" }

/-! ## The unique index and rejected writes -/

/-- The unique index of the Customer collection, declared by `unique: true` on
`shopifyCustomerId`: no two stored Customers share a `shopifyCustomerId`. -/
def Db.uniqueCustomerIds (db : Db) : Prop :=
  (db.customers.map (fun c => c.shopifyCustomerId)).Nodup

instance (db : Db) : Decidable db.uniqueCustomerIds := by
  unfold Db.uniqueCustomerIds; infer_instance

/-- The write sequence of `commit` against a database that may reject the insert
of the Transaction for a reason outside the document (a lost connection, a write
error): with `transactionRejected` set, `transaction.save()` rejects.  The
`catch` block answers `err`; no statement undoes the Customer write that came
before. -/
def commitOn (transactionRejected : Bool) (db : Db) (isNew : Bool) (customer : Customer)
    (transaction : Option Transaction) (ok err : Response) : Response × Db :=
  match Customer.save db isNew customer with
  | none => (err, db)
  | some db1 =>
    match transaction with
    | none => (err, db1)
    | some t =>
      if transactionRejected then (err, db1)
      else
        match Transaction.save db1 t with
        | none => (err, db1)
        | some db2 => (ok, db2)

/-! ## The reward catalog (`web/models/SpinWheel.js`) -/

/-- The `enum` of the `type` path of a reward. -/
inductive RewardType where
  | points
  | discount_percentage
  | discount_fixed
  | free_shipping
deriving DecidableEq, Repr

/-- A stored reward of a catalog.  The two Number paths hold rationals. -/
structure Reward where
  id : String
  type : RewardType
  value : ℚ
  label : String
  probability : ℚ
  color : String
  isActive : Bool
deriving DecidableEq, Repr

/-- The `settings` of a catalog. -/
structure SpinSettings where
  spinsPerDay : Int
  minimumOrdersRequired : Int
  isActive : Bool
deriving DecidableEq, Repr

/-- A SpinWheel document: the catalog of one shop. -/
structure SpinWheel where
  shopDomain : String
  rewards : List Reward
  settings : SpinSettings
deriving DecidableEq, Repr

/-! ## The spin resolver (specification, section 4.4) -/

/-- Modelled from the spec: the cumulative-weight table of `resolveSpin`, step 2.
`web/routes/spinRoutes.js` holds the catalog routes only; the routes
`/api/spin/check` and `/api/spin/play` that `SpinWheel.jsx` calls have no handler
in it.  The table lists the active rewards in catalog order, each with its
cumulative upper bound, starting from `acc`. -/
def cumulativeTable (acc : ℚ) : List Reward → List (Reward × ℚ)
  | [] => []
  | r :: rs =>
    if r.isActive then (r, acc + r.probability) :: cumulativeTable (acc + r.probability) rs
    else cumulativeTable acc rs

/-- Modelled from the spec: `totalWeight` of `resolveSpin`, the sum of the
probabilities of the active rewards. -/
def totalWeight (rewards : List Reward) : ℚ :=
  ((rewards.filter (fun r => r.isActive)).map (fun r => r.probability)).sum

/-- Modelled from the spec: the selection of `resolveSpin`, step 2: the first
entry of the table whose cumulative upper bound exceeds the draw. -/
def selectEntry (rewards : List Reward) (draw : ℚ) : Option (Reward × ℚ) :=
  (cumulativeTable 0 rewards).find? (fun e => decide (draw < e.2))

/-- Modelled from the spec: the outcome of `resolveSpin`: one of its two
failures, or the selected reward (none for a draw beyond the table, which the
spec does not have) with the customer as updated by step 3. -/
inductive SpinResult where
  | notEligible
  | noRewardsConfigured
  | resolved (reward : Option Reward) (customer : Customer)
deriving DecidableEq, Repr

/-- Modelled from the spec: `checkEligibility` of section 4.4.  `dayOf` gives
the calendar day of a timestamp under the one timezone policy in force. -/
def checkEligibility (dayOf : Nat → Nat) (now : Nat) (minimumOrdersRequired : Int)
    (customer : Customer) : Bool :=
  (match customer.lastSpinDate with
    | none => true
    | some d => decide (dayOf d < dayOf now))
  && decide (minimumOrdersRequired ≤ customer.totalOrders)

/-- Modelled from the spec: steps 1 to 3 of `resolveSpin`: the eligibility check,
the weighted draw over the active rewards, and the update of `lastSpinDate`.
The consequences of the reward (step 4) are not part of this definition. -/
def resolveSpin (dayOf : Nat → Nat) (now : Nat) (catalog : SpinWheel) (draw : ℚ)
    (customer : Customer) : SpinResult :=
  if checkEligibility dayOf now catalog.settings.minimumOrdersRequired customer = false then
    SpinResult.notEligible
  else if totalWeight catalog.rewards = 0 then SpinResult.noRewardsConfigured
  else
    SpinResult.resolved ((selectEntry catalog.rewards draw).map (fun e => e.1))
      { customer with lastSpinDate := some now }

/-- The six rewards that the config route creates for a shop without a catalog
(`web/routes/spinRoutes.js`). -/
def defaultRewards : List Reward :=
  [ { id := "points_50", type := RewardType.points, value := 50, label := "50 Points",
      probability := 30, color := "#3b82f6", isActive := true },
    { id := "points_100", type := RewardType.points, value := 100, label := "100 Points",
      probability := 20, color := "#10b981", isActive := true },
    { id := "discount_10", type := RewardType.discount_percentage, value := 10,
      label := "10% Off", probability := 25, color := "#f59e0b", isActive := true },
    { id := "discount_15", type := RewardType.discount_percentage, value := 15,
      label := "15% Off", probability := 15, color := "#ef4444", isActive := true },
    { id := "free_shipping", type := RewardType.free_shipping, value := 1,
      label := "Free Shipping", probability := 8, color := "#8b5cf6", isActive := true },
    { id := "better_luck", type := RewardType.points, value := 0,
      label := "Better Luck Next Time", probability := 2, color := "#6b7280",
      isActive := true } ]

/-- The catalog that the config route creates for the sample shop. -/
def sampleCatalog : SpinWheel :=
  { shopDomain := "demo.myshopify.com"
    rewards := defaultRewards
    settings := { spinsPerDay := 1, minimumOrdersRequired := 0, isActive := true } }

/-- The calendar day of a timestamp in milliseconds, in UTC. -/
def utcDay (t : Nat) : Nat := t / 86400000

/-! ## `GET /balance/:customerId` (`web/routes/pointsRoutes.js`) -/

/-- The body of an answer of the balance route: an error, the zeroed snapshot
sent for a customer without a record, or the snapshot of a stored Customer. -/
inductive BalanceBody where
  | error (error : String)
  | unknown (customerId : String) (pointsBalance totalPointsEarned totalOrders : Int)
      (isNew : Bool)
  | known (customerId : String) (pointsBalance totalPointsEarned totalPointsRedeemed
      totalOrders : Int) (lastSpinDate : Option Nat) (isNew : Bool)
deriving DecidableEq, Repr

/-- The handler of `router.get("/balance/:customerId")`: the status and body it
sends, and the database afterwards (the handler writes nothing).  `customerId` is
the route parameter, `shop` the query parameter `shop`. -/
def getBalance (db : Db) (customerId : String) (shop : Option String) :
    (Nat × BalanceBody) × Db :=
  match shop with
  | none => ((400, BalanceBody.error "Shop domain required"), db)
  | some shopDomain =>
    if shopDomain = "" then ((400, BalanceBody.error "Shop domain required"), db)
    else
      match Customer.findOne db customerId shopDomain with
      | none => ((200, BalanceBody.unknown customerId 0 0 0 true), db)
      | some customer =>
        ((200, BalanceBody.known customer.shopifyCustomerId customer.pointsBalance
          customer.totalPointsEarned customer.totalPointsRedeemed customer.totalOrders
          customer.lastSpinDate false), db)

/-! ## The amount checks of `POST /redeem` on fractional amounts -/

/-- The two checks that the redeem route makes in front of the database lookup
(`!customerId || !pointsToRedeem || !shopDomain`, then `pointsToRedeem < 1`), for
a `pointsToRedeem` that is a JSON number, fractions included: the answer the
route sends, or `none` when it goes on to the lookup. -/
def redeemAmountCheck (customerId : Option String) (pointsToRedeem : ℚ)
    (shopDomain : Option String) : Option Response :=
  if customerId = none ∨ customerId = some "" ∨ pointsToRedeem = 0 ∨ shopDomain = none
      ∨ shopDomain = some "" then
    some ⟨400, Body.error "Customer ID, points to redeem, and shop domain required"⟩
  else if pointsToRedeem < 1 then some ⟨400, Body.error "Must redeem at least 1 point"⟩
  else none

/-- A signed order payload of a guest checkout: the order carries no customer. -/
def guestOrder : WebhookRequest :=
  { sampleOrder none none with
    body := { (sampleOrder none none).body with customer := none } }

/-! ## Counter consistency and the order count -/

/-- Counter consistency of a Customer: the balance and the points redeemed do
not exceed the points earned. -/
def Customer.consistent (c : Customer) : Prop :=
  c.pointsBalance + c.totalPointsRedeemed ≤ c.totalPointsEarned

instance (c : Customer) : Decidable c.consistent := by
  unfold Customer.consistent; infer_instance

/-- A request as the application's own callers send it: the `pointsToRedeem` of
a redeem is a JSON number, and the webhooks run under a positive
`pointsPerOrder`. -/
def Request.typed : Request → Prop
  | Request.redeem _ body => ∃ x, body.pointsToRedeem = JsVal.num x
  | Request.adjust _ _ => True
  | Request.orderCreate env _ => 0 < pointsPerOrder env
  | Request.orderUpdate env _ => 0 < pointsPerOrder env

/-- A request that does not credit points outside an order, under the setting
`p` of `pointsPerOrder`: an adjust does not add points, and the webhooks run
under `pointsPerOrder = p`. -/
def Request.orderBound (p : Int) : Request → Prop
  | Request.redeem _ _ => True
  | Request.adjust _ body => ∀ d, body.points.parseInt = JsNum.int d → d ≤ 0
  | Request.orderCreate env _ => pointsPerOrder env = p
  | Request.orderUpdate env _ => pointsPerOrder env = p

/-- The sample environment with a string-to-number conversion that reads the
decimal strings `5` and `105`. -/
def decimalEnv : Env :=
  { sampleEnv with
    stringToNumber := fun s =>
      if s = "5" then JsNum.int 5 else if s = "105" then JsNum.int 105 else JsNum.nan }

/-- A customer of `demo.myshopify.com` who has earned 60 points and redeemed 10. -/
def returningCustomer : Customer :=
  { sampleCustomer with
    pointsBalance := 50
    totalPointsEarned := 60
    totalPointsRedeemed := 10 }

/-- A database holding `returningCustomer`. -/
def returningDb : Db := { customers := [returningCustomer], transactions := [] }

/-! ## The catalog routes (`web/routes/spinRoutes.js`) -/

/-- A value of the `value` or `probability` field of a request body: a JSON
value whose numbers are rationals, or `undefined` when the field is absent.
`obj prim` is an array or object whose `toString()` is `prim`. -/
inductive FieldVal where
  | undefined
  | null
  | bool (b : Bool)
  | num (q : ℚ)
  | str (s : String)
  | obj (prim : String)
deriving DecidableEq, Repr

/-- The truthiness of a field value, as tested by `!v`. -/
def FieldVal.truthy : FieldVal → Bool
  | FieldVal.undefined => false
  | FieldVal.null => false
  | FieldVal.bool b => b
  | FieldVal.num q => decide (q ≠ 0)
  | FieldVal.str s => decide (s ≠ "")
  | FieldVal.obj _ => true

/-- What the catalog routes read from outside the request and the store: the
clock and the function `parseFloat` on strings (`none` is `NaN`). -/
structure CatalogEnv where
  /-- The value of `Date.now()`. -/
  now : Nat
  /-- The value of `parseFloat(s)` for a string `s`. -/
  parseFloatStr : String → Option ℚ

/-- The function `parseFloat(v)`: it parses `String(v)`; `none` is `NaN`.  On a
number this returns the number itself. -/
def CatalogEnv.parseFloat (env : CatalogEnv) : FieldVal → Option ℚ
  | FieldVal.undefined => none
  | FieldVal.null => none
  | FieldVal.bool _ => none
  | FieldVal.num q => some q
  | FieldVal.str s => env.parseFloatStr s
  | FieldVal.obj prim => env.parseFloatStr prim

/-- The member of the `enum` of the `type` path that a string names, if any. -/
def RewardType.ofString (s : String) : Option RewardType :=
  if s = "points" then some RewardType.points
  else if s = "discount_percentage" then some RewardType.discount_percentage
  else if s = "discount_fixed" then some RewardType.discount_fixed
  else if s = "free_shipping" then some RewardType.free_shipping
  else none

/-- The validators of the reward sub-schema on a stored reward: `id` and `label`
are required, `probability` has `min: 0` and `max: 100`.  There is no validator
on the sign of `value`. -/
def Reward.valid (r : Reward) : Prop :=
  r.id ≠ "" ∧ r.label ≠ "" ∧ 0 ≤ r.probability ∧ r.probability ≤ 100

instance (r : Reward) : Decidable r.valid := by
  unfold Reward.valid; infer_instance

/-- Schema validation of a SpinWheel document: `shopDomain` is required and every
reward passes its validators. -/
def SpinWheel.valid (w : SpinWheel) : Prop :=
  w.shopDomain ≠ "" ∧ ∀ r ∈ w.rewards, r.valid

instance (w : SpinWheel) : Decidable w.valid := by
  unfold SpinWheel.valid; infer_instance

/-- The reward sub-document that the schema builds from the fields of the object
assigned to it: `id`, `type` and `label` have to be present, `type` has to be a
member of the enum, `value` and `probability` have to be numbers.  `none` is a
sub-document that `save()` rejects. -/
def castReward (id : Option String) (type : Option String) (value : Option ℚ)
    (label : Option String) (probability : Option ℚ) (color : String) (isActive : Bool) :
    Option Reward :=
  match id, type.bind RewardType.ofString, value, label, probability with
  | some i, some t, some v, some l, some p =>
    some { id := i, type := t, value := v, label := l, probability := p, color := color,
           isActive := isActive }
  | _, _, _, _, _ => none

/-- The query `SpinWheel.findOne({ shopDomain })` on the stored catalogs. -/
def SpinWheel.findOne (store : List SpinWheel) (shopDomain : String) : Option SpinWheel :=
  store.find? (fun w => decide (w.shopDomain = shopDomain))

/-- The stored catalogs after an update of the document that `findOne` returned
for the shop of `w`: the first one of that shop. -/
def replaceWheel : List SpinWheel → SpinWheel → List SpinWheel
  | [], _ => []
  | v :: vs, w => if v.shopDomain = w.shopDomain then w :: vs else v :: replaceWheel vs w

/-- The call `spinWheel.save()`: it validates the document, then inserts a new
one or overwrites the loaded one.  `none` is a rejected promise. -/
def SpinWheel.save (store : List SpinWheel) (isNew : Bool) (w : SpinWheel) :
    Option (List SpinWheel) :=
  if ¬ w.valid then none
  else if isNew then some (store ++ [w])
  else some (replaceWheel store w)

/-- The body of an answer of the catalog routes. -/
inductive CatalogBody where
  | error (error : String)
  | config (rewards : List Reward) (settings : SpinSettings)
  | saved (reward : Reward)
deriving DecidableEq, Repr

/-- The answer of every `catch` block of the catalog routes. -/
def catalogError : Nat × CatalogBody := (500, CatalogBody.error "Internal server error")

/-- The settings that the routes give a catalog they create. -/
def defaultSettings : SpinSettings :=
  { spinsPerDay := 1, minimumOrdersRequired := 0, isActive := true }

/-- The handler of `router.get("/config")`; `shop` is the query parameter. -/
def getConfig (store : List SpinWheel) (shop : Option String) :
    (Nat × CatalogBody) × List SpinWheel :=
  match shop with
  | none => ((400, CatalogBody.error "Shop domain required"), store)
  | some shopDomain =>
    if shopDomain = "" then ((400, CatalogBody.error "Shop domain required"), store)
    else
      match SpinWheel.findOne store shopDomain with
      | some spinWheel => ((200, CatalogBody.config spinWheel.rewards spinWheel.settings), store)
      | none =>
        let spinWheel : SpinWheel :=
          { shopDomain := shopDomain, rewards := defaultRewards, settings := defaultSettings }
        match SpinWheel.save store true spinWheel with
        | none => (catalogError, store)
        | some store1 =>
          ((200, CatalogBody.config spinWheel.rewards spinWheel.settings), store1)

/-- The fields the reward routes read from `req.body`. -/
structure RewardBody where
  shopDomain : Option String
  type : Option String
  value : FieldVal
  label : Option String
  probability : FieldVal
  color : Option String

/-- The expression `color || fallback`. -/
def colorOr (color : Option String) (fallback : String) : String :=
  match color with
  | some c => if c = "" then fallback else c
  | none => fallback

/-- The handler of `router.post("/config/reward")`. -/
def addReward (env : CatalogEnv) (store : List SpinWheel) (body : RewardBody) :
    (Nat × CatalogBody) × List SpinWheel :=
  match body.shopDomain, body.type, body.label with
  | some shopDomain, some type, some label =>
    if shopDomain = "" ∨ type = "" ∨ body.value = FieldVal.undefined ∨ label = ""
        ∨ body.probability.truthy = false then
      ((400, CatalogBody.error "All fields are required"), store)
    else
      let found := SpinWheel.findOne store shopDomain
      let spinWheel : SpinWheel :=
        match found with
        | some w => w
        | none => { shopDomain := shopDomain, rewards := [], settings := defaultSettings }
      match castReward (some (type ++ ("_" ++ toString env.now))) (some type)
          (env.parseFloat body.value) (some label) (env.parseFloat body.probability)
          (colorOr body.color "#3b82f6") true with
      | none => (catalogError, store)
      | some newReward =>
        match SpinWheel.save store found.isNone
            { spinWheel with rewards := spinWheel.rewards ++ [newReward] } with
        | none => (catalogError, store)
        | some store1 => ((200, CatalogBody.saved newReward), store1)
  | _, _, _ => ((400, CatalogBody.error "All fields are required"), store)

/-- The rewards after the assignment `rewards[rewardIndex] = r`, where
`rewardIndex` is the first index whose reward has the id `rewardId`. -/
def replaceReward : List Reward → String → Reward → List Reward
  | [], _, _ => []
  | q :: qs, rewardId, r =>
    if q.id = rewardId then r :: qs else q :: replaceReward qs rewardId r

/-- The handler of `router.put("/config/reward/:rewardId")`.  The object assigned
to `rewards[rewardIndex]` is the spread of the stored sub-document followed by
the five fields taken from the body.  The schema paths of a sub-document are
accessors, not own properties, so the spread contributes none of them: the
object has no `id`, and `isActive` takes its schema default.  The fallback of
`color` reads `rewards[rewardIndex].color` through the accessor.  A request
without `shopDomain` finds no catalog. -/
def updateReward (env : CatalogEnv) (store : List SpinWheel) (rewardId : String)
    (body : RewardBody) : (Nat × CatalogBody) × List SpinWheel :=
  match body.shopDomain.bind (SpinWheel.findOne store) with
  | none => ((404, CatalogBody.error "Spin wheel configuration not found"), store)
  | some spinWheel =>
    match spinWheel.rewards.find? (fun r => decide (r.id = rewardId)) with
    | none => ((404, CatalogBody.error "Reward not found"), store)
    | some old =>
      match castReward none body.type (env.parseFloat body.value) body.label
          (env.parseFloat body.probability) (colorOr body.color old.color) true with
      | none => (catalogError, store)
      | some reward =>
        match SpinWheel.save store false
            { spinWheel with rewards := replaceReward spinWheel.rewards rewardId reward } with
        | none => (catalogError, store)
        | some store1 => ((200, CatalogBody.saved reward), store1)

/-- A catalog environment whose `parseFloat` reads the strings `0` and `25`. -/
def sampleCatalogEnv : CatalogEnv :=
  { now := 1700000000000
    parseFloatStr := fun s => if s = "0" then some 0 else if s = "25" then some 25 else none }

/-- The body of a request that adds a points reward with the given value and
probability for the sample shop. -/
def sampleRewardBody (value probability : FieldVal) : RewardBody :=
  { shopDomain := some "demo.myshopify.com"
    type := some "points"
    value := value
    label := some "Bonus"
    probability := probability
    color := none }

/-! ## Auxiliary lemmas -/

theorem append_ne_empty (a b : String) (h : a ≠ "") : a ++ b ≠ "" := by
  intro heq
  apply h
  have h1 : (a ++ b).length = 0 := by rw [heq]; rfl
  rw [String.length_append] at h1
  have h2 : a.length = 0 := by omega
  cases a with
  | mk l =>
    cases l with
    | nil => rfl
    | cons x xs => simp [String.length] at h2

theorem findOne_mem {db : Db} {k s : String} {c : Customer}
    (h : Customer.findOne db k s = some c) : c ∈ db.customers :=
  List.mem_of_find?_eq_some h

theorem findOne_key {db : Db} {k s : String} {c : Customer}
    (h : Customer.findOne db k s = some c) : c.shopifyCustomerId = k ∧ c.shopDomain = s := by
  have := List.find?_some h
  simpa using this

theorem find_replace (l : List Customer) (p : Customer → Bool) (c c1 : Customer)
    (hf : l.find? p = some c) (hid : c1._id = c._id) (hp : p c1 = true)
    (hnd : (l.map (fun c => c._id)).Nodup) :
    (replaceById l c1).find? p = some c1 := by
  unfold replaceById
  induction l with
  | nil => simp at hf
  | cons d ds ih =>
    simp only [List.map_cons, List.nodup_cons] at hnd
    by_cases hd : p d = true
    · have hdc : d = c := by simpa [List.find?_cons, hd] using hf
      subst hdc
      simp [List.find?_cons, hid, hp]
    · have hf1 : ds.find? p = some c := by simpa [List.find?_cons, hd] using hf
      have hmem : c ∈ ds := List.mem_of_find?_eq_some hf1
      have hne : d._id ≠ c1._id := by
        intro heq
        apply hnd.1
        rw [heq, hid]
        exact List.mem_map_of_mem (fun c => c._id) hmem
      simp only [List.map_cons, hne, if_false, List.find?_cons]
      simp only [Bool.not_eq_true] at hd
      rw [hd]
      exact ih hf1 hnd.2

@[simp] theorem castNumber_int (env : Env) (n : Int) :
    env.castNumber (JsVal.num (JsNum.int n)) = some n := rfl

@[simp] theorem castNumber_nan (env : Env) :
    env.castNumber (JsVal.num JsNum.nan) = none := rfl

theorem commit_invalid (db : Db) (isNew : Bool) (c : Customer) (t : Option Transaction)
    (ok err : Response) (h : ¬ c.valid) : commit db isNew c t ok err = (err, db) := by
  simp [commit, Customer.save, h]

theorem commit_update (db : Db) (c : Customer) (t : Transaction) (ok err : Response)
    (hc : c.valid) (ht : t.valid) :
    commit db false c (some t) ok err =
      (ok, { customers := replaceById db.customers c, transactions := db.transactions ++ [t] }) := by
  simp [commit, Customer.save, Transaction.save, hc, ht]

theorem commit_insert (db : Db) (c : Customer) (t : Transaction) (ok err : Response)
    (hc : c.valid) (ht : t.valid)
    (hu : ∀ d ∈ db.customers, d.shopifyCustomerId ≠ c.shopifyCustomerId) :
    commit db true c (some t) ok err =
      (ok, { customers := db.customers ++ [c], transactions := db.transactions ++ [t] }) := by
  have hany : db.customers.any (fun d => decide (d.shopifyCustomerId = c.shopifyCustomerId))
      = false := by
    simpa [List.any_eq_false] using hu
  simp [commit, Customer.save, Transaction.save, hc, ht, hany]

theorem commit_duplicate (db : Db) (c : Customer) (t : Option Transaction) (ok err : Response)
    (d : Customer) (hd : d ∈ db.customers) (hk : d.shopifyCustomerId = c.shopifyCustomerId) :
    commit db true c t ok err = (err, db) := by
  have hany : db.customers.any (fun d => decide (d.shopifyCustomerId = c.shopifyCustomerId))
      = true := by
    simp only [List.any_eq_true, decide_eq_true_eq]
    exact ⟨d, hd, hk⟩
  by_cases hc : c.valid <;> simp [commit, Customer.save, hc, hany]

theorem redeemTransaction_valid (env : Env) (customerId shopDomain : String) (p : JsVal)
    (c : Customer) (n : Int) (h1 : customerId ≠ "") (h2 : shopDomain ≠ "") :
    (redeemTransaction env customerId shopDomain p c n).valid :=
  ⟨h1, h2, append_ne_empty _ _ (by decide)⟩

theorem redeem_cases (env : Env) (db : Db) (rb : RedeemBody) :
    ((redeem env db rb).2 = db ∧ (redeem env db rb).1.status ≠ 200) ∨
    ∃ customerId shopDomain customer n redeemedTotal,
      rb.customerId = some customerId ∧ rb.shopDomain = some shopDomain ∧
      customerId ≠ "" ∧ shopDomain ≠ "" ∧
      Customer.findOne db customerId shopDomain = some customer ∧
      env.toNumber rb.pointsToRedeem = JsNum.int n ∧ 1 ≤ n ∧ n ≤ customer.pointsBalance ∧
      env.castNumber (env.plus customer.totalPointsRedeemed rb.pointsToRedeem)
        = some redeemedTotal ∧
      ∃ c1 : Customer,
        c1 = { customer with pointsBalance := customer.pointsBalance - n,
                             totalPointsRedeemed := redeemedTotal } ∧
        c1.valid ∧
        redeem env db rb = (redeemResponse env rb.pointsToRedeem c1,
          { customers := replaceById db.customers c1,
            transactions := db.transactions ++
              [redeemTransaction env customerId shopDomain rb.pointsToRedeem c1 (-n)] }) := by
  obtain ⟨cid, p, shop⟩ := rb
  cases cid with
  | none => left; simp [redeem]
  | some customerId =>
  cases shop with
  | none => left; simp [redeem]
  | some shopDomain =>
  by_cases h1 : customerId = "" ∨ p.truthy = false ∨ shopDomain = ""
  · left; simp [redeem, h1]
  by_cases h2 : (env.toNumber p).lt (JsNum.int 1) = true
  · left; simp [redeem, h1, h2]
  cases hf : Customer.findOne db customerId shopDomain with
  | none => left; simp [redeem, h1, h2, hf]
  | some customer =>
  by_cases h3 : (JsNum.int customer.pointsBalance).lt (env.toNumber p) = true
  · left; simp [redeem, h1, h2, hf, h3]
  cases hn : env.toNumber p with
  | nan =>
    left
    rw [hn] at h2 h3
    simp [redeem, h1, h2, hf, h3, hn, JsNum.sub, internalError]
  | int n =>
  rw [hn] at h2 h3
  have hn1 : 1 ≤ n := by simpa [JsNum.lt] using h2
  have hn2 : n ≤ customer.pointsBalance := by simpa [JsNum.lt] using h3
  cases hr : env.castNumber (env.plus customer.totalPointsRedeemed p) with
  | none => left; simp [redeem, h1, h2, hf, h3, hn, hr, JsNum.sub, internalError]
  | some redeemedTotal =>
  by_cases hv : Customer.valid { customer with pointsBalance := customer.pointsBalance - n, totalPointsRedeemed := redeemedTotal }
  · right
    simp only [not_or] at h1
    refine ⟨customerId, shopDomain, customer, n, redeemedTotal, rfl, rfl, h1.1, h1.2.2, hf, rfl,
      hn1, hn2, hr, _, rfl, hv, ?_⟩
    simp only [redeem, h1, h2, hf, h3, hn, hr, JsNum.sub, JsNum.neg, castNumber_int, or_self,
      if_false, Option.map_some']
    exact commit_update _ _ _ _ _ hv (redeemTransaction_valid _ _ _ _ _ _ h1.1 h1.2.2)
  · left
    simp [redeem, h1, h2, hf, h3, hn, hr, JsNum.sub, internalError, commit_invalid, hv]

theorem adjustDescription_ne (reason : Option String) (x : JsNum) :
    adjustDescription reason x ≠ "" := by
  unfold adjustDescription
  cases reason with
  | none => exact append_ne_empty _ _ (by decide)
  | some r =>
    by_cases hr : r = ""
    · simp only [hr, if_true]; exact append_ne_empty _ _ (by decide)
    · simp only [hr, if_false]; exact hr

theorem adjustTransaction_valid (customerId shopDomain : String) (reason : Option String)
    (x : JsNum) (b : Int) (c : Customer) (n : Int) (h1 : customerId ≠ "") (h2 : shopDomain ≠ "") :
    (adjustTransaction customerId shopDomain reason x b c n).valid :=
  ⟨h1, h2, adjustDescription_ne reason x⟩

theorem adjust_cases (env : Env) (db : Db) (ab : AdjustBody) :
    ((adjust env db ab).2 = db ∧ (adjust env db ab).1.status ≠ 200) ∨
    ∃ customerId shopDomain customer d,
      ab.customerId = some customerId ∧ ab.shopDomain = some shopDomain ∧
      customerId ≠ "" ∧ shopDomain ≠ "" ∧
      Customer.findOne db customerId shopDomain = some customer ∧
      ab.points.parseInt = JsNum.int d ∧ 0 ≤ customer.pointsBalance + d ∧
      ∃ c1 : Customer,
        c1 = { customer with
                pointsBalance := customer.pointsBalance + d,
                totalPointsEarned :=
                  if 0 < d then customer.totalPointsEarned + d else customer.totalPointsEarned } ∧
        c1.valid ∧
        adjust env db ab = (adjustResponse customerId (JsNum.int d) customer.pointsBalance c1,
          { customers := replaceById db.customers c1,
            transactions := db.transactions ++
              [adjustTransaction customerId shopDomain ab.reason (JsNum.int d)
                customer.pointsBalance c1 d] }) := by
  obtain ⟨cid, p, reason, shop⟩ := ab
  cases cid with
  | none => left; simp [adjust]
  | some customerId =>
  cases shop with
  | none => left; simp [adjust]
  | some shopDomain =>
  by_cases h1 : customerId = "" ∨ p = JsVal.undefined ∨ shopDomain = ""
  · left; simp [adjust, h1]
  cases hf : Customer.findOne db customerId shopDomain with
  | none => left; simp [adjust, h1, hf]
  | some customer =>
  cases hn : p.parseInt with
  | nan => left; simp [adjust, h1, hf, hn, JsNum.add, JsNum.lt, internalError]
  | int d =>
  by_cases h3 : customer.pointsBalance + d < 0
  · left; simp [adjust, h1, hf, hn, JsNum.add, JsNum.lt, h3]
  by_cases hd : 0 < d
  · by_cases hv : Customer.valid { customer with pointsBalance := customer.pointsBalance + d, totalPointsEarned := customer.totalPointsEarned + d }
    · right
      simp only [not_or] at h1
      refine ⟨customerId, shopDomain, customer, d, rfl, rfl, h1.1, h1.2.2, hf, rfl, by omega,
        _, rfl, ?_⟩
      simp only [hd, if_true]
      refine ⟨hv, ?_⟩
      simp only [adjust, h1, hf, hn, JsNum.add, JsNum.lt, h3, hd, castNumber_int, or_self,
        if_false, if_true, decide_True, decide_False, Option.map_some']
      exact commit_update _ _ _ _ _ hv (adjustTransaction_valid _ _ _ _ _ _ _ h1.1 h1.2.2)
    · left
      simp [adjust, h1, hf, hn, JsNum.add, JsNum.lt, h3, hd, internalError, commit_invalid, hv]
  · by_cases hv : Customer.valid { customer with pointsBalance := customer.pointsBalance + d, totalPointsEarned := customer.totalPointsEarned }
    · right
      simp only [not_or] at h1
      refine ⟨customerId, shopDomain, customer, d, rfl, rfl, h1.1, h1.2.2, hf, rfl, by omega,
        _, rfl, ?_⟩
      simp only [hd, if_false]
      refine ⟨hv, ?_⟩
      simp only [adjust, h1, hf, hn, JsNum.add, JsNum.lt, h3, hd, castNumber_int, or_self,
        if_false, if_true, decide_True, decide_False, Option.map_some']
      exact commit_update _ _ _ _ _ hv (adjustTransaction_valid _ _ _ _ _ _ _ h1.1 h1.2.2)
    · left
      simp [adjust, h1, hf, hn, JsNum.add, JsNum.lt, h3, hd, internalError, commit_invalid, hv]


theorem earnedTransaction_valid (customerId shopDomain : String) (order : Order) (n : Int)
    (c : Customer) (h1 : customerId ≠ "") (h2 : shopDomain ≠ "") :
    (earnedTransaction customerId shopDomain order n c).valid :=
  ⟨h1, h2, append_ne_empty _ _ (by decide)⟩

theorem reversalTransaction_valid (customerId shopDomain : String) (order : Order) (n : Int)
    (c : Customer) (h1 : customerId ≠ "") (h2 : shopDomain ≠ "") :
    (reversalTransaction customerId shopDomain order n c).valid :=
  ⟨h1, h2, append_ne_empty _ _ (by decide)⟩

/-- An order-create event for a customer that has a Customer record. -/
theorem handleOrderCreate_existing (env : Env) (db : Db) (req : WebhookRequest)
    (oc : OrderCustomer) (c : Customer)
    (hv : verifyWebhook env req.rawBody req.hmacHeader (webhookSecret env) = some true)
    (hoc : req.body.customer = some oc)
    (hf : Customer.findOne db (toString oc.id) req.shopDomainHeader = some c) :
    handleOrderCreate env db req =
      commit db false
        { c with pointsBalance := c.pointsBalance + pointsPerOrder env
                 totalPointsEarned := c.totalPointsEarned + pointsPerOrder env
                 totalOrders := c.totalOrders + 1 }
        (some (earnedTransaction (toString oc.id) req.shopDomainHeader req.body (pointsPerOrder env)
          { c with pointsBalance := c.pointsBalance + pointsPerOrder env
                   totalPointsEarned := c.totalPointsEarned + pointsPerOrder env
                   totalOrders := c.totalOrders + 1 }))
        ⟨200, Body.text "OK"⟩ webhookError := by
  simp only [handleOrderCreate, hv, hoc, hf]
  rfl

/-- An order-create event for a customer that has no Customer record. -/
theorem handleOrderCreate_new (env : Env) (db : Db) (req : WebhookRequest)
    (oc : OrderCustomer)
    (hv : verifyWebhook env req.rawBody req.hmacHeader (webhookSecret env) = some true)
    (hoc : req.body.customer = some oc)
    (hf : Customer.findOne db (toString oc.id) req.shopDomainHeader = none) :
    handleOrderCreate env db req =
      commit db true
        { newCustomer db (toString oc.id) req.shopDomainHeader oc with
          pointsBalance := 0 + pointsPerOrder env
          totalPointsEarned := 0 + pointsPerOrder env
          totalOrders := 0 + 1 }
        (some (earnedTransaction (toString oc.id) req.shopDomainHeader req.body (pointsPerOrder env)
          { newCustomer db (toString oc.id) req.shopDomainHeader oc with
            pointsBalance := 0 + pointsPerOrder env
            totalPointsEarned := 0 + pointsPerOrder env
            totalOrders := 0 + 1 }))
        ⟨200, Body.text "OK"⟩ webhookError := by
  simp only [handleOrderCreate, hv, hoc, hf]
  rfl

theorem handleOrderCreate_skipped (env : Env) (db : Db) (req : WebhookRequest)
    (h : verifyWebhook env req.rawBody req.hmacHeader (webhookSecret env) ≠ some true ∨
      req.body.customer = none) :
    (handleOrderCreate env db req).2 = db := by
  unfold handleOrderCreate
  cases hv : verifyWebhook env req.rawBody req.hmacHeader (webhookSecret env) with
  | none => rfl
  | some b =>
    cases b with
    | false => rfl
    | true =>
      rcases h with h | h
      · exact absurd hv h
      · simp only [h]

/-- An order-update event that reverses the points of a cancelled order. -/
theorem handleOrderUpdate_reversed (env : Env) (db : Db) (req : WebhookRequest)
    (oc : OrderCustomer) (c : Customer)
    (hv : verifyWebhook env req.rawBody req.hmacHeader (webhookSecret env) = some true)
    (hoc : req.body.customer = some oc) (hcan : present req.body.cancelled_at)
    (hf : Customer.findOne db (toString oc.id) req.shopDomainHeader = some c)
    (hb : pointsPerOrder env ≤ c.pointsBalance) :
    handleOrderUpdate env db req =
      commit db false
        { c with pointsBalance := c.pointsBalance - pointsPerOrder env
                 totalOrders := c.totalOrders - 1 }
        (some (reversalTransaction (toString oc.id) req.shopDomainHeader req.body
          (pointsPerOrder env)
          { c with pointsBalance := c.pointsBalance - pointsPerOrder env
                   totalOrders := c.totalOrders - 1 }))
        ⟨200, Body.text "OK"⟩ webhookError := by
  simp only [handleOrderUpdate, hv, hoc, hcan, hf, hb, if_true]

theorem handleOrderUpdate_cases (env : Env) (db : Db) (req : WebhookRequest) :
    (handleOrderUpdate env db req).2 = db ∨
    ∃ oc c,
      verifyWebhook env req.rawBody req.hmacHeader (webhookSecret env) = some true ∧
      req.body.customer = some oc ∧ present req.body.cancelled_at ∧
      Customer.findOne db (toString oc.id) req.shopDomainHeader = some c ∧
      pointsPerOrder env ≤ c.pointsBalance := by
  cases hv : verifyWebhook env req.rawBody req.hmacHeader (webhookSecret env) with
  | none => left; simp [handleOrderUpdate, hv]
  | some b =>
  cases b with
  | false => left; simp [handleOrderUpdate, hv]
  | true =>
  cases hoc : req.body.customer with
  | none => left; simp [handleOrderUpdate, hv, hoc]
  | some oc =>
  by_cases hcan : present req.body.cancelled_at
  · cases hf : Customer.findOne db (toString oc.id) req.shopDomainHeader with
    | none => left; simp [handleOrderUpdate, hv, hoc, hcan, hf]
    | some c =>
      by_cases hb : pointsPerOrder env ≤ c.pointsBalance
      · right; exact ⟨oc, c, rfl, rfl, hcan, hf, hb⟩
      · left; simp [handleOrderUpdate, hv, hoc, hcan, hf, hb]
  · left; simp [handleOrderUpdate, hv, hoc, hcan]

theorem nat_repr_ne (n : Nat) : Nat.repr n ≠ "" := by
  have h : Nat.toDigits 10 n ≠ [] := by
    unfold Nat.toDigits
    simp only [Nat.toDigitsCore]
    split
    · simp
    · intro h0
      have := Nat.toDigitsCore_lens_eq 10 n (n / 10) (Nat.digitChar (n % 10)) []
      rw [h0] at this
      simp at this
  intro heq
  apply h
  have h1 : (Nat.repr n).data = [] := by rw [heq]
  simpa [Nat.repr, List.asString] using h1

theorem int_toString_ne (n : Int) : toString n ≠ "" := by
  cases n with
  | ofNat m => exact nat_repr_ne m
  | negSucc m => exact append_ne_empty _ _ (by decide)

theorem wf_found {db : Db} {k s : String} {c : Customer} (hwf : db.wf)
    (hf : Customer.findOne db k s = some c) :
    c.valid ∧ c.shopifyCustomerId = k ∧ c.shopDomain = s ∧ k ≠ "" ∧ s ≠ "" := by
  have hv := hwf.1 c (findOne_mem hf)
  obtain ⟨hk, hs⟩ := findOne_key hf
  exact ⟨hv, hk, hs, hk ▸ hv.1, hs ▸ hv.2.1⟩

theorem findOne_replace {db : Db} {k s : String} {c c1 : Customer} (ts : List Transaction)
    (hwf : db.wf) (hf : Customer.findOne db k s = some c) (hid : c1._id = c._id)
    (hk : c1.shopifyCustomerId = c.shopifyCustomerId) (hs : c1.shopDomain = c.shopDomain) :
    Customer.findOne { customers := replaceById db.customers c1, transactions := ts } k s
      = some c1 := by
  obtain ⟨hk0, hs0⟩ := findOne_key hf
  exact find_replace db.customers _ c c1 hf hid (by simp [hk, hs, hk0, hs0]) hwf.2

/-- A redeem request for an integer amount within the balance of a stored
customer goes through. -/
theorem redeem_int_success (env : Env) (db : Db) (customerId shopDomain : String)
    (customer : Customer) (p : Int) (hwf : db.wf)
    (hf : Customer.findOne db customerId shopDomain = some customer)
    (h1 : 1 ≤ p) (h2 : p ≤ customer.pointsBalance) :
    redeem env db ⟨some customerId, JsVal.num (JsNum.int p), some shopDomain⟩ =
      (redeemResponse env (JsVal.num (JsNum.int p))
        { customer with pointsBalance := customer.pointsBalance - p
                        totalPointsRedeemed := customer.totalPointsRedeemed + p },
       { customers := replaceById db.customers
          { customer with pointsBalance := customer.pointsBalance - p
                          totalPointsRedeemed := customer.totalPointsRedeemed + p }
         transactions := db.transactions ++
          [redeemTransaction env customerId shopDomain (JsVal.num (JsNum.int p))
            { customer with pointsBalance := customer.pointsBalance - p
                            totalPointsRedeemed := customer.totalPointsRedeemed + p } (-p)] }) := by
  obtain ⟨hv, _, _, hk, hs⟩ := wf_found hwf hf
  have hp0 : p ≠ 0 := by omega
  have hl1 : ¬ p < 1 := by omega
  have hl2 : ¬ customer.pointsBalance < p := by omega
  have hv1 : Customer.valid { customer with pointsBalance := customer.pointsBalance - p, totalPointsRedeemed := customer.totalPointsRedeemed + p } :=
    ⟨hv.1, hv.2.1, hv.2.2.1, by show 0 ≤ customer.pointsBalance - p; omega⟩
  simp only [redeem, hf, hk, hs, JsVal.truthy, Env.toNumber, Env.plus, JsNum.lt, JsNum.sub,
    JsNum.add, JsNum.neg, castNumber_int, hp0, hl1, hl2, ne_eq, not_false_eq_true, decide_True,
    decide_False, or_self, if_false, Option.map_some', Bool.true_eq_false, Bool.false_eq_true]
  exact commit_update _ _ _ _ _ hv1 (redeemTransaction_valid _ _ _ _ _ _ hk hs)

/-- A redeem request for an integer amount above the balance is refused. -/
theorem redeem_int_insufficient (env : Env) (db : Db) (customerId shopDomain : String)
    (customer : Customer) (p : Int) (hwf : db.wf)
    (hf : Customer.findOne db customerId shopDomain = some customer)
    (h1 : 1 ≤ p) (h2 : customer.pointsBalance < p) :
    redeem env db ⟨some customerId, JsVal.num (JsNum.int p), some shopDomain⟩ =
      (⟨400, Body.insufficient "Insufficient points balance" customer.pointsBalance
        (JsVal.num (JsNum.int p))⟩, db) := by
  obtain ⟨_, _, _, hk, hs⟩ := wf_found hwf hf
  have hp0 : p ≠ 0 := by omega
  have hl1 : ¬ p < 1 := by omega
  simp only [redeem, hf, hk, hs, JsVal.truthy, Env.toNumber, JsNum.lt, hp0, hl1, h2, ne_eq,
    not_false_eq_true, decide_True, decide_False, or_self, if_false, if_true,
    Bool.true_eq_false, Bool.false_eq_true]

/-! ## Claims -/

/-- C3: a redeem or adjust request that is rejected (status 400 for a missing
field, an amount below 1, an insufficient balance or a negative resulting
balance; status 404 for an unknown customer) leaves the database as it was: no
field of any Customer changes and no Transaction is appended. -/
theorem rejected_no_side_effect (env : Env) (db : Db) (rb : RedeemBody) (ab : AdjustBody) :
    (((redeem env db rb).1.status = 400 ∨ (redeem env db rb).1.status = 404) →
      (redeem env db rb).2 = db) ∧
    (((adjust env db ab).1.status = 400 ∨ (adjust env db ab).1.status = 404) →
      (adjust env db ab).2 = db) := by
  constructor
  · intro h
    rcases redeem_cases env db rb with hc | ⟨_, _, _, _, _, _, _, _, _, _, _, _, _, _, _, _, _, he⟩
    · exact hc.1
    · rw [he] at h
      simp [redeemResponse] at h
  · intro h
    rcases adjust_cases env db ab with hc | ⟨_, _, _, _, _, _, _, _, _, _, _, _, _, _, he⟩
    · exact hc.1
    · rw [he] at h
      simp [adjustResponse] at h

/-- C4: for a stored customer and an integer `pointsToRedeem >= 1`, redeem
answers with the insufficient-balance error, reporting the current balance as
available and `pointsToRedeem` as requested, exactly when
`pointsBalance < pointsToRedeem`; it succeeds (status 200) exactly when
`pointsToRedeem <= pointsBalance`, the whole balance included. -/
theorem redeem_insufficient_iff (env : Env) (db : Db) (customerId shopDomain : String)
    (customer : Customer) (p : Int) (hwf : db.wf)
    (hf : Customer.findOne db customerId shopDomain = some customer) (hp : 1 ≤ p) :
    ((redeem env db ⟨some customerId, JsVal.num (JsNum.int p), some shopDomain⟩).1 =
        ⟨400, Body.insufficient "Insufficient points balance" customer.pointsBalance
          (JsVal.num (JsNum.int p))⟩ ↔ customer.pointsBalance < p) ∧
    ((redeem env db ⟨some customerId, JsVal.num (JsNum.int p), some shopDomain⟩).1.status = 200
        ↔ p ≤ customer.pointsBalance) := by
  by_cases h : customer.pointsBalance < p
  · rw [redeem_int_insufficient env db customerId shopDomain customer p hwf hf hp h]
    simp only [true_iff, h]
    constructor
    · trivial
    · constructor
      · intro h4; simp at h4
      · intro h4; omega
  · rw [redeem_int_success env db customerId shopDomain customer p hwf hf hp (by omega)]
    simp only [h, iff_false, redeemResponse]
    constructor
    · intro h4; simp at h4
    · constructor
      · intro _; omega
      · intro _; trivial

/-- C5: for a stored customer and an integer `pointsToRedeem` with
`1 <= pointsToRedeem <= pointsBalance`, redeem succeeds; afterwards the
customer's `pointsBalance` is lower by exactly `pointsToRedeem`,
`totalPointsRedeemed` is higher by exactly `pointsToRedeem`, `totalPointsEarned`,
`totalOrders` and `lastSpinDate` are unchanged, and the remaining balance in the
response is the new `pointsBalance`. -/
theorem redeem_success_effect (env : Env) (db : Db) (customerId shopDomain : String)
    (customer : Customer) (p : Int) (hwf : db.wf)
    (hf : Customer.findOne db customerId shopDomain = some customer)
    (h1 : 1 ≤ p) (h2 : p ≤ customer.pointsBalance) :
    ∃ c1 code amount msg,
      Customer.findOne
        (redeem env db ⟨some customerId, JsVal.num (JsNum.int p), some shopDomain⟩).2
        customerId shopDomain = some c1 ∧
      c1.pointsBalance = customer.pointsBalance - p ∧
      c1.totalPointsRedeemed = customer.totalPointsRedeemed + p ∧
      c1.totalPointsEarned = customer.totalPointsEarned ∧
      c1.totalOrders = customer.totalOrders ∧
      c1.lastSpinDate = customer.lastSpinDate ∧
      (redeem env db ⟨some customerId, JsVal.num (JsNum.int p), some shopDomain⟩).1 =
        ⟨200, Body.redeemed code amount (JsVal.num (JsNum.int p)) c1.pointsBalance msg⟩ := by
  rw [redeem_int_success env db customerId shopDomain customer p hwf hf h1 h2]
  exact ⟨_, _, _, _, findOne_replace _ hwf hf rfl rfl rfl, rfl, rfl, rfl, rfl, rfl, rfl⟩

/-- C5, on the example of the specification: balance 50, redeem 30 gives
balance 20. -/
theorem redeem_success_effect_witness :
    ∃ c1 code amount msg,
      Customer.findOne
        (redeem sampleEnv sampleDb
          ⟨some "7001", JsVal.num (JsNum.int 30), some "demo.myshopify.com"⟩).2
        "7001" "demo.myshopify.com" = some c1 ∧
      c1.pointsBalance = 50 - 30 ∧
      c1.totalPointsRedeemed = 0 + 30 ∧
      c1.totalPointsEarned = 50 ∧
      c1.totalOrders = 1 ∧
      c1.lastSpinDate = none ∧
      (redeem sampleEnv sampleDb
          ⟨some "7001", JsVal.num (JsNum.int 30), some "demo.myshopify.com"⟩).1 =
        ⟨200, Body.redeemed code amount (JsVal.num (JsNum.int 30)) c1.pointsBalance msg⟩ :=
  redeem_success_effect sampleEnv sampleDb "7001" "demo.myshopify.com" sampleCustomer 30
    (by decide) (by decide) (by decide) (by decide)

/-- C6: a redeem request that succeeds (status 200) appends exactly one
Transaction; it belongs to the customer, has type `redeemed`, `points` equal to
`-pointsToRedeem`, `balanceAfter` equal to the customer's `pointsBalance` after
the deduction, and `discountCode` equal to the code in the response. -/
theorem redeem_success_transaction (env : Env) (db : Db) (rb : RedeemBody) (hwf : db.wf)
    (h : (redeem env db rb).1.status = 200) :
    ∃ customerId shopDomain t c1 code amount msg,
      rb.customerId = some customerId ∧ rb.shopDomain = some shopDomain ∧
      (redeem env db rb).2.transactions = db.transactions ++ [t] ∧
      t.shopifyCustomerId = customerId ∧ t.shopDomain = shopDomain ∧
      t.type = TransactionType.redeemed ∧
      JsNum.int t.points = (env.toNumber rb.pointsToRedeem).neg ∧
      Customer.findOne (redeem env db rb).2 customerId shopDomain = some c1 ∧
      t.customerId = c1._id ∧
      t.balanceAfter = c1.pointsBalance ∧
      (redeem env db rb).1.body =
        Body.redeemed code amount rb.pointsToRedeem c1.pointsBalance msg ∧
      t.discountCode = some code := by
  rcases redeem_cases env db rb with hc |
    ⟨customerId, shopDomain, customer, n, redeemedTotal, hcid, hshop, _, _, hf, hn, _, _, _, c1,
      hc1, _, he⟩
  · exact absurd h hc.2
  · rw [he]
    subst hc1
    refine ⟨customerId, shopDomain, _, _, _, _, _, hcid, hshop, rfl, rfl, rfl, rfl, ?_,
      findOne_replace _ hwf hf rfl rfl rfl, rfl, rfl, rfl, rfl⟩
    rw [hn]
    rfl

/-- C6, on the example of the specification: redeeming 30 of 50 points. -/
theorem redeem_success_transaction_witness :
    ∃ customerId shopDomain t c1 code amount msg,
      (some "7001" : Option String) = some customerId ∧
      (some "demo.myshopify.com" : Option String) = some shopDomain ∧
      (redeem sampleEnv sampleDb
        ⟨some "7001", JsVal.num (JsNum.int 30), some "demo.myshopify.com"⟩).2.transactions
        = sampleDb.transactions ++ [t] ∧
      t.shopifyCustomerId = customerId ∧ t.shopDomain = shopDomain ∧
      t.type = TransactionType.redeemed ∧
      JsNum.int t.points = (sampleEnv.toNumber (JsVal.num (JsNum.int 30))).neg ∧
      Customer.findOne
        (redeem sampleEnv sampleDb
          ⟨some "7001", JsVal.num (JsNum.int 30), some "demo.myshopify.com"⟩).2
        customerId shopDomain = some c1 ∧
      t.customerId = c1._id ∧
      t.balanceAfter = c1.pointsBalance ∧
      (redeem sampleEnv sampleDb
        ⟨some "7001", JsVal.num (JsNum.int 30), some "demo.myshopify.com"⟩).1.body =
        Body.redeemed code amount (JsVal.num (JsNum.int 30)) c1.pointsBalance msg ∧
      t.discountCode = some code :=
  redeem_success_transaction sampleEnv sampleDb
    ⟨some "7001", JsVal.num (JsNum.int 30), some "demo.myshopify.com"⟩ (by decide) (by decide)

/-- An adjust request with an integer delta that keeps the balance of a stored
customer at or above zero goes through. -/
theorem adjust_int_success (env : Env) (db : Db) (customerId shopDomain : String)
    (reason : Option String) (customer : Customer) (d : Int) (hwf : db.wf)
    (hf : Customer.findOne db customerId shopDomain = some customer)
    (h : 0 ≤ customer.pointsBalance + d) :
    adjust env db ⟨some customerId, JsVal.num (JsNum.int d), reason, some shopDomain⟩ =
      (adjustResponse customerId (JsNum.int d) customer.pointsBalance
        { customer with
          pointsBalance := customer.pointsBalance + d
          totalPointsEarned :=
            if 0 < d then customer.totalPointsEarned + d else customer.totalPointsEarned },
       { customers := replaceById db.customers
          { customer with
            pointsBalance := customer.pointsBalance + d
            totalPointsEarned :=
              if 0 < d then customer.totalPointsEarned + d else customer.totalPointsEarned }
         transactions := db.transactions ++
          [adjustTransaction customerId shopDomain reason (JsNum.int d) customer.pointsBalance
            { customer with
              pointsBalance := customer.pointsBalance + d
              totalPointsEarned :=
                if 0 < d then customer.totalPointsEarned + d else customer.totalPointsEarned }
            d] }) := by
  obtain ⟨hv, _, _, hk, hs⟩ := wf_found hwf hf
  rcases adjust_cases env db ⟨some customerId, JsVal.num (JsNum.int d), reason, some shopDomain⟩
    with hc | ⟨cid, shop, c, d1, hcid, hshop, _, _, hf1, hd1, _, c1, hc1, _, he⟩
  · exfalso
    have hl : ¬ customer.pointsBalance + d < 0 := by omega
    have hne : ¬ (JsVal.num (JsNum.int d) = JsVal.undefined) := by simp
    have hv1 : ∀ e : Int, Customer.valid { customer with pointsBalance := customer.pointsBalance + d, totalPointsEarned := e } :=
      fun e => ⟨hv.1, hv.2.1, hv.2.2.1, h⟩
    have hs2 := hc.2
    by_cases hd : 0 < d
    · simp [adjust, hf, hk, hs, hne, JsVal.parseInt, JsNum.add, JsNum.lt, hl, hd,
        commit_update _ _ _ _ _ (hv1 _) (adjustTransaction_valid _ _ _ _ _ _ _ hk hs),
        adjustResponse] at hs2
    · simp [adjust, hf, hk, hs, hne, JsVal.parseInt, JsNum.add, JsNum.lt, hl, hd,
        commit_update _ _ _ _ _ (hv1 _) (adjustTransaction_valid _ _ _ _ _ _ _ hk hs),
        adjustResponse] at hs2
  · simp only [Option.some.injEq] at hcid hshop
    subst hcid hshop
    rw [hf] at hf1
    simp only [Option.some.injEq] at hf1
    subst hf1
    simp only [JsVal.parseInt, JsNum.int.injEq] at hd1
    subst hd1
    rw [he, hc1]

/-- An adjust request with an integer delta that would take the balance of a
stored customer below zero is refused. -/
theorem adjust_int_negative (env : Env) (db : Db) (customerId shopDomain : String)
    (reason : Option String) (customer : Customer) (d : Int) (hwf : db.wf)
    (hf : Customer.findOne db customerId shopDomain = some customer)
    (h : customer.pointsBalance + d < 0) :
    adjust env db ⟨some customerId, JsVal.num (JsNum.int d), reason, some shopDomain⟩ =
      (⟨400, Body.negative "Adjustment would result in negative balance" customer.pointsBalance
        (JsNum.int d)⟩, db) := by
  obtain ⟨_, _, _, hk, hs⟩ := wf_found hwf hf
  have hne : ¬ (JsVal.num (JsNum.int d) = JsVal.undefined) := by simp
  simp [adjust, hf, hk, hs, hne, JsVal.parseInt, JsNum.add, JsNum.lt, h]

/-- C3, on two refused requests: redeeming 80 of 50 points and adjusting 50
points by -80. -/
theorem rejected_no_side_effect_witness :
    (redeem sampleEnv sampleDb
      ⟨some "7001", JsVal.num (JsNum.int 80), some "demo.myshopify.com"⟩).2 = sampleDb ∧
    (adjust sampleEnv sampleDb
      ⟨some "7001", JsVal.num (JsNum.int (-80)), none, some "demo.myshopify.com"⟩).2
      = sampleDb :=
  ⟨(rejected_no_side_effect sampleEnv sampleDb
      ⟨some "7001", JsVal.num (JsNum.int 80), some "demo.myshopify.com"⟩
      ⟨some "7001", JsVal.num (JsNum.int (-80)), none, some "demo.myshopify.com"⟩).1
      (Or.inl (by decide)),
   (rejected_no_side_effect sampleEnv sampleDb
      ⟨some "7001", JsVal.num (JsNum.int 80), some "demo.myshopify.com"⟩
      ⟨some "7001", JsVal.num (JsNum.int (-80)), none, some "demo.myshopify.com"⟩).2
      (Or.inl (by decide))⟩

/-- C4, on the example of the specification: with balance 50, a request for 50
succeeds and the error is reported exactly when more than 50 is requested. -/
theorem redeem_insufficient_iff_witness :
    ((redeem sampleEnv sampleDb
        ⟨some "7001", JsVal.num (JsNum.int 50), some "demo.myshopify.com"⟩).1 =
        ⟨400, Body.insufficient "Insufficient points balance" sampleCustomer.pointsBalance
          (JsVal.num (JsNum.int 50))⟩ ↔ sampleCustomer.pointsBalance < 50) ∧
    ((redeem sampleEnv sampleDb
        ⟨some "7001", JsVal.num (JsNum.int 50), some "demo.myshopify.com"⟩).1.status = 200
        ↔ 50 ≤ sampleCustomer.pointsBalance) :=
  redeem_insufficient_iff sampleEnv sampleDb "7001" "demo.myshopify.com" sampleCustomer 50
    (by decide) (by decide) (by decide)

/-- C7: for a stored customer and an integer delta of any sign, adjust answers
with the negative-balance error, reporting the current balance and the requested
change, exactly when `pointsBalance + delta < 0`; it succeeds (status 200)
exactly when `pointsBalance + delta >= 0`, so a delta that brings the balance to
exactly 0 is accepted. -/
theorem adjust_negative_iff (env : Env) (db : Db) (customerId shopDomain : String)
    (reason : Option String) (customer : Customer) (d : Int) (hwf : db.wf)
    (hf : Customer.findOne db customerId shopDomain = some customer) :
    ((adjust env db ⟨some customerId, JsVal.num (JsNum.int d), reason, some shopDomain⟩).1 =
        ⟨400, Body.negative "Adjustment would result in negative balance" customer.pointsBalance
          (JsNum.int d)⟩ ↔ customer.pointsBalance + d < 0) ∧
    ((adjust env db ⟨some customerId, JsVal.num (JsNum.int d), reason, some shopDomain⟩).1.status
        = 200 ↔ 0 ≤ customer.pointsBalance + d) ∧
    (adjust env db ⟨some customerId, JsVal.num (JsNum.int (-customer.pointsBalance)), reason,
        some shopDomain⟩).1.status = 200 := by
  refine ⟨?_, ?_, ?_⟩
  · by_cases h : customer.pointsBalance + d < 0
    · rw [adjust_int_negative env db customerId shopDomain reason customer d hwf hf h]
      simp [h]
    · rw [adjust_int_success env db customerId shopDomain reason customer d hwf hf (by omega)]
      simp [h, adjustResponse]
  · by_cases h : customer.pointsBalance + d < 0
    · rw [adjust_int_negative env db customerId shopDomain reason customer d hwf hf h]
      simp only [false_iff, not_le]
      constructor
      · intro h4; simp at h4
      · intro h4; omega
    · rw [adjust_int_success env db customerId shopDomain reason customer d hwf hf (by omega)]
      simp only [adjustResponse, true_iff]
      omega
  · rw [adjust_int_success env db customerId shopDomain reason customer _ hwf hf (by omega)]
    rfl

/-- C7, on a customer with balance 50: a delta of -50 is accepted and the error
is reported exactly when the sum is negative. -/
theorem adjust_negative_iff_witness :
    ((adjust sampleEnv sampleDb
        ⟨some "7001", JsVal.num (JsNum.int (-50)), none, some "demo.myshopify.com"⟩).1 =
        ⟨400, Body.negative "Adjustment would result in negative balance"
          sampleCustomer.pointsBalance (JsNum.int (-50))⟩
        ↔ sampleCustomer.pointsBalance + (-50) < 0) ∧
    ((adjust sampleEnv sampleDb
        ⟨some "7001", JsVal.num (JsNum.int (-50)), none, some "demo.myshopify.com"⟩).1.status
        = 200 ↔ 0 ≤ sampleCustomer.pointsBalance + (-50)) ∧
    (adjust sampleEnv sampleDb
        ⟨some "7001", JsVal.num (JsNum.int (-sampleCustomer.pointsBalance)), none,
          some "demo.myshopify.com"⟩).1.status = 200 :=
  adjust_negative_iff sampleEnv sampleDb "7001" "demo.myshopify.com" none sampleCustomer (-50)
    (by decide) (by decide)

/-- C8: for a stored customer with balance `b` and an integer delta with
`b + delta >= 0`, adjust succeeds; afterwards `pointsBalance` is `b + delta`,
`totalPointsEarned` is higher by `delta` when `delta > 0` and unchanged when
`delta <= 0`, `totalPointsRedeemed` and `totalOrders` are unchanged, exactly one
Transaction is appended, of type `adjustment`, with `points = delta` and
`balanceAfter = b + delta`, and the response carries `previousBalance = b` and
`newBalance = b + delta`. -/
theorem adjust_success_effect (env : Env) (db : Db) (customerId shopDomain : String)
    (reason : Option String) (customer : Customer) (d : Int) (hwf : db.wf)
    (hf : Customer.findOne db customerId shopDomain = some customer)
    (h : 0 ≤ customer.pointsBalance + d) :
    ∃ c1 t msg,
      Customer.findOne
        (adjust env db ⟨some customerId, JsVal.num (JsNum.int d), reason, some shopDomain⟩).2
        customerId shopDomain = some c1 ∧
      c1.pointsBalance = customer.pointsBalance + d ∧
      (0 < d → c1.totalPointsEarned = customer.totalPointsEarned + d) ∧
      (d ≤ 0 → c1.totalPointsEarned = customer.totalPointsEarned) ∧
      c1.totalPointsRedeemed = customer.totalPointsRedeemed ∧
      c1.totalOrders = customer.totalOrders ∧
      (adjust env db
        ⟨some customerId, JsVal.num (JsNum.int d), reason, some shopDomain⟩).2.transactions
        = db.transactions ++ [t] ∧
      t.shopifyCustomerId = customerId ∧ t.shopDomain = shopDomain ∧
      t.type = TransactionType.adjustment ∧ t.points = d ∧
      t.balanceAfter = customer.pointsBalance + d ∧
      (adjust env db ⟨some customerId, JsVal.num (JsNum.int d), reason, some shopDomain⟩).1 =
        ⟨200, Body.adjusted customerId (JsNum.int d) customer.pointsBalance
          (customer.pointsBalance + d) msg⟩ := by
  rw [adjust_int_success env db customerId shopDomain reason customer d hwf hf h]
  refine ⟨_, _, _, findOne_replace _ hwf hf rfl rfl rfl, rfl, ?_, ?_, rfl, rfl, rfl, rfl, rfl,
    rfl, rfl, rfl, rfl⟩
  · intro hd; simp [hd]
  · intro hd
    have : ¬ 0 < d := by omega
    simp [this]

/-- C8, on a customer with balance 50 and a delta of 25. -/
theorem adjust_success_effect_witness :
    ∃ c1 t msg,
      Customer.findOne
        (adjust sampleEnv sampleDb
          ⟨some "7001", JsVal.num (JsNum.int 25), some "bonus", some "demo.myshopify.com"⟩).2
        "7001" "demo.myshopify.com" = some c1 ∧
      c1.pointsBalance = sampleCustomer.pointsBalance + 25 ∧
      ((0 : Int) < 25 → c1.totalPointsEarned = sampleCustomer.totalPointsEarned + 25) ∧
      ((25 : Int) ≤ 0 → c1.totalPointsEarned = sampleCustomer.totalPointsEarned) ∧
      c1.totalPointsRedeemed = sampleCustomer.totalPointsRedeemed ∧
      c1.totalOrders = sampleCustomer.totalOrders ∧
      (adjust sampleEnv sampleDb
        ⟨some "7001", JsVal.num (JsNum.int 25), some "bonus",
          some "demo.myshopify.com"⟩).2.transactions
        = sampleDb.transactions ++ [t] ∧
      t.shopifyCustomerId = "7001" ∧ t.shopDomain = "demo.myshopify.com" ∧
      t.type = TransactionType.adjustment ∧ t.points = 25 ∧
      t.balanceAfter = sampleCustomer.pointsBalance + 25 ∧
      (adjust sampleEnv sampleDb
        ⟨some "7001", JsVal.num (JsNum.int 25), some "bonus", some "demo.myshopify.com"⟩).1 =
        ⟨200, Body.adjusted "7001" (JsNum.int 25) sampleCustomer.pointsBalance
          (sampleCustomer.pointsBalance + 25) msg⟩ :=
  adjust_success_effect sampleEnv sampleDb "7001" "demo.myshopify.com" (some "bonus")
    sampleCustomer 25 (by decide) (by decide) (by decide)

theorem commit_shape (db : Db) (isNew : Bool) (c : Customer) (t : Transaction)
    (ok err : Response) (ht : c.valid → t.valid) :
    (commit db isNew c (some t) ok err).2 = db ∨
    (isNew = false ∧ c.valid ∧ (commit db isNew c (some t) ok err).2 =
      { customers := replaceById db.customers c, transactions := db.transactions ++ [t] }) ∨
    (isNew = true ∧ c.valid ∧ (commit db isNew c (some t) ok err).2 =
      { customers := db.customers ++ [c], transactions := db.transactions ++ [t] }) := by
  by_cases hc : c.valid
  · cases isNew with
    | false =>
      right; left
      rw [commit_update db c t ok err hc (ht hc)]
      exact ⟨rfl, hc, rfl⟩
    | true =>
      by_cases hu : ∀ d ∈ db.customers, d.shopifyCustomerId ≠ c.shopifyCustomerId
      · right; right
        rw [commit_insert db c t ok err hc (ht hc) hu]
        exact ⟨rfl, hc, rfl⟩
      · left
        push_neg at hu
        obtain ⟨d, hd, hk⟩ := hu
        rw [commit_duplicate db c (some t) ok err d hd hk]
  · left
    rw [commit_invalid db isNew c (some t) ok err hc]

theorem redeem_step (env : Env) (db : Db) (rb : RedeemBody) : Step db (redeem env db rb).2 := by
  rcases redeem_cases env db rb with hc |
    ⟨customerId, shopDomain, customer, n, redeemedTotal, _, _, _, _, hf, _, _, _, _, c1, hc1, hv,
      he⟩
  · exact Or.inl hc.1
  · right; left
    obtain ⟨hk, hs⟩ := findOne_key hf
    have h1 : c1._id = customer._id := by rw [hc1]
    have h2 : c1.shopifyCustomerId = customerId := by rw [hc1]; exact hk
    have h3 : c1.shopDomain = shopDomain := by rw [hc1]; exact hs
    have h4 : c1.pointsBalance = customer.pointsBalance + -n := by
      rw [hc1]; show customer.pointsBalance - n = customer.pointsBalance + -n; omega
    refine ⟨customer, c1, redeemTransaction env customerId shopDomain rb.pointsToRedeem c1 (-n),
      ?_, h1, hv, h2.symm, h3.symm, rfl, h4, ?_⟩
    · rw [h2, h3]; exact hf
    · rw [he]

theorem adjust_step (env : Env) (db : Db) (ab : AdjustBody) : Step db (adjust env db ab).2 := by
  rcases adjust_cases env db ab with hc |
    ⟨customerId, shopDomain, customer, d, _, _, _, _, hf, _, _, c1, hc1, hv, he⟩
  · exact Or.inl hc.1
  · right; left
    obtain ⟨hk, hs⟩ := findOne_key hf
    have h1 : c1._id = customer._id := by rw [hc1]
    have h2 : c1.shopifyCustomerId = customerId := by rw [hc1]; exact hk
    have h3 : c1.shopDomain = shopDomain := by rw [hc1]; exact hs
    have h4 : c1.pointsBalance = customer.pointsBalance + d := by rw [hc1]
    refine ⟨customer, c1,
      adjustTransaction customerId shopDomain ab.reason (JsNum.int d) customer.pointsBalance c1 d,
      ?_, h1, hv, h2.symm, h3.symm, rfl, h4, ?_⟩
    · rw [h2, h3]; exact hf
    · rw [he]

theorem handleOrderUpdate_step (env : Env) (db : Db) (req : WebhookRequest) :
    Step db (handleOrderUpdate env db req).2 := by
  rcases handleOrderUpdate_cases env db req with hc | ⟨oc, c, hv, hoc, hcan, hf, hb⟩
  · exact Or.inl hc
  · rw [handleOrderUpdate_reversed env db req oc c hv hoc hcan hf hb]
    obtain ⟨hk, hs⟩ := findOne_key hf
    generalize hc1 : ({ c with pointsBalance := c.pointsBalance - pointsPerOrder env
                               totalOrders := c.totalOrders - 1 } : Customer) = c1
    have h1 : c1._id = c._id := by rw [← hc1]
    have h2 : c1.shopifyCustomerId = toString oc.id := by rw [← hc1]; exact hk
    have h3 : c1.shopDomain = req.shopDomainHeader := by rw [← hc1]; exact hs
    have h4 : c1.pointsBalance = c.pointsBalance + -pointsPerOrder env := by
      rw [← hc1]
      show c.pointsBalance - pointsPerOrder env = c.pointsBalance + -pointsPerOrder env
      omega
    rcases commit_shape db false c1
      (reversalTransaction (toString oc.id) req.shopDomainHeader req.body (pointsPerOrder env) c1)
      ⟨200, Body.text "OK"⟩ webhookError
      (fun hv1 => reversalTransaction_valid _ _ _ _ _ (h2 ▸ hv1.1) (h3 ▸ hv1.2.1))
      with h | ⟨_, hv1, h⟩ | ⟨h, _⟩
    · exact Or.inl h
    · right; left
      refine ⟨c, c1, _, ?_, h1, hv1, h2.symm, h3.symm, rfl, h4, h⟩
      rw [h2, h3]; exact hf
    · exact absurd h (by decide)

theorem handleOrderCreate_step (env : Env) (db : Db) (req : WebhookRequest) :
    Step db (handleOrderCreate env db req).2 := by
  by_cases hv : verifyWebhook env req.rawBody req.hmacHeader (webhookSecret env) = some true
  · cases hoc : req.body.customer with
    | none => exact Or.inl (handleOrderCreate_skipped env db req (Or.inr hoc))
    | some oc =>
      cases hf : Customer.findOne db (toString oc.id) req.shopDomainHeader with
      | some c =>
        rw [handleOrderCreate_existing env db req oc c hv hoc hf]
        obtain ⟨hk, hs⟩ := findOne_key hf
        generalize hc1 : ({ c with pointsBalance := c.pointsBalance + pointsPerOrder env
                                   totalPointsEarned := c.totalPointsEarned + pointsPerOrder env
                                   totalOrders := c.totalOrders + 1 } : Customer) = c1
        have h1 : c1._id = c._id := by rw [← hc1]
        have h2 : c1.shopifyCustomerId = toString oc.id := by rw [← hc1]; exact hk
        have h3 : c1.shopDomain = req.shopDomainHeader := by rw [← hc1]; exact hs
        have h4 : c1.pointsBalance = c.pointsBalance + pointsPerOrder env := by rw [← hc1]
        rcases commit_shape db false c1
          (earnedTransaction (toString oc.id) req.shopDomainHeader req.body (pointsPerOrder env)
            c1)
          ⟨200, Body.text "OK"⟩ webhookError
          (fun hv1 => earnedTransaction_valid _ _ _ _ _ (h2 ▸ hv1.1) (h3 ▸ hv1.2.1))
          with h | ⟨_, hv1, h⟩ | ⟨h, _⟩
        · exact Or.inl h
        · right; left
          refine ⟨c, c1, _, ?_, h1, hv1, h2.symm, h3.symm, rfl, h4, h⟩
          rw [h2, h3]; exact hf
        · exact absurd h (by decide)
      | none =>
        rw [handleOrderCreate_new env db req oc hv hoc hf]
        generalize hc1 : ({ newCustomer db (toString oc.id) req.shopDomainHeader oc with
                            pointsBalance := 0 + pointsPerOrder env
                            totalPointsEarned := 0 + pointsPerOrder env
                            totalOrders := 0 + 1 } : Customer) = c1
        have h1 : c1._id = db.freshId := by rw [← hc1]; rfl
        have h2 : c1.shopifyCustomerId = toString oc.id := by rw [← hc1]; rfl
        have h3 : c1.shopDomain = req.shopDomainHeader := by rw [← hc1]; rfl
        have h4 : c1.pointsBalance = pointsPerOrder env := by
          rw [← hc1]; show 0 + pointsPerOrder env = pointsPerOrder env; omega
        rcases commit_shape db true c1
          (earnedTransaction (toString oc.id) req.shopDomainHeader req.body (pointsPerOrder env)
            c1)
          ⟨200, Body.text "OK"⟩ webhookError
          (fun hv1 => earnedTransaction_valid _ _ _ _ _ (h2 ▸ hv1.1) (h3 ▸ hv1.2.1))
          with h | ⟨h, _⟩ | ⟨_, hv1, h⟩
        · exact Or.inl h
        · exact absurd h (by decide)
        · right; right
          refine ⟨c1, _, ?_, h1, hv1, h2.symm, h3.symm, rfl, h4, h⟩
          rw [h2, h3]; exact hf
  · exact Or.inl (handleOrderCreate_skipped env db req (Or.inl hv))

theorem handle_step (db : Db) (r : Request) : Step db (handle db r).2 := by
  cases r with
  | redeem env body => exact redeem_step env db body
  | adjust env body => exact adjust_step env db body
  | orderCreate env req => exact handleOrderCreate_step env db req
  | orderUpdate env req => exact handleOrderUpdate_step env db req

theorem lt_freshId (db : Db) : ∀ c ∈ db.customers, c._id < db.freshId := by
  unfold Db.freshId
  induction db.customers with
  | nil => intro c hc; simp at hc
  | cons d ds ih =>
    intro c hc
    simp only [List.foldr_cons]
    rcases List.mem_cons.mp hc with h | h
    · subst h; omega
    · have := ih c h; omega

theorem replaceById_ids (l : List Customer) (c1 : Customer) :
    (replaceById l c1).map (fun c => c._id) = l.map (fun c => c._id) := by
  unfold replaceById
  induction l with
  | nil => rfl
  | cons d ds ih =>
    simp only [List.map_cons, List.cons.injEq]
    refine ⟨?_, ih⟩
    by_cases h : d._id = c1._id
    · simp [h]
    · simp [h]

theorem mem_replaceById {l : List Customer} {c1 d : Customer} (h : d ∈ replaceById l c1) :
    d = c1 ∨ d ∈ l := by
  unfold replaceById at h
  obtain ⟨e, he, hd⟩ := List.mem_map.mp h
  by_cases hid : e._id = c1._id
  · left; simpa [hid] using hd.symm
  · right; simp only [hid, if_false] at hd; exact hd ▸ he

theorem eq_of_same_id {l : List Customer} (hnd : (l.map (fun c => c._id)).Nodup)
    {c d : Customer} (hc : c ∈ l) (hd : d ∈ l) (h : d._id = c._id) : d = c :=
  List.inj_on_of_nodup_map hnd hd hc h

theorem find_replace_other (l : List Customer) (p : Customer → Bool) (c1 : Customer)
    (hp1 : p c1 = false) (h : ∀ d ∈ l, d._id = c1._id → p d = false) :
    (replaceById l c1).find? p = l.find? p := by
  unfold replaceById
  induction l with
  | nil => rfl
  | cons d ds ih =>
    have ih1 := ih (fun e he => h e (List.mem_cons_of_mem _ he))
    by_cases hid : d._id = c1._id
    · have hpd := h d (List.mem_cons_self _ _) hid
      simp only [List.map_cons, hid, if_true, List.find?_cons, hp1, hpd]
      exact ih1
    · simp only [List.map_cons, hid, if_false, List.find?_cons]
      rw [ih1]

theorem step_wf {db db1 : Db} (hwf : db.wf) (h : Step db db1) : db1.wf := by
  rcases h with h | ⟨c0, c1, t, _, _, hv, _, _, _, _, h⟩ | ⟨c1, t, _, hid, hv, _, _, _, _, h⟩
  · rw [h]; exact hwf
  · subst h
    refine ⟨?_, ?_⟩
    · intro d hd
      rcases mem_replaceById hd with h1 | h1
      · rw [h1]; exact hv
      · exact hwf.1 d h1
    · show ((replaceById db.customers c1).map (fun c => c._id)).Nodup
      rw [replaceById_ids]; exact hwf.2
  · subst h
    refine ⟨?_, ?_⟩
    · intro d hd
      rcases List.mem_append.mp hd with h1 | h1
      · exact hwf.1 d h1
      · simp only [List.mem_singleton] at h1
        rw [h1]; exact hv
    · show ((db.customers ++ [c1]).map (fun c => c._id)).Nodup
      rw [List.map_append, List.nodup_append]
      refine ⟨hwf.2, by simp, ?_⟩
      intro a ha hb
      simp only [List.map_cons, List.map_nil, List.mem_singleton] at hb
      obtain ⟨d, hd, hda⟩ := List.mem_map.mp ha
      have := lt_freshId db d hd
      rw [hid] at hb
      have hda1 : d._id = a := hda
      omega

theorem run_wf (db : Db) (reqs : List Request) (hwf : db.wf) : (run db reqs).wf := by
  induction reqs generalizing db with
  | nil => exact hwf
  | cons r rs ih => exact ih _ (step_wf hwf (handle_step db r))

theorem sumPoints_append (ts : List Transaction) (t : Transaction) :
    sumPoints (ts ++ [t]) = sumPoints ts + t.points := by
  simp [sumPoints]

theorem replayOk_append (a : Int) (ts : List Transaction) (t : Transaction) :
    replayOk a (ts ++ [t]) ↔ replayOk a ts ∧ t.balanceAfter = a + sumPoints ts + t.points := by
  induction ts generalizing a with
  | nil => simp [replayOk, sumPoints]
  | cons u us ih =>
    show (u.balanceAfter = a + u.points ∧ replayOk (a + u.points) (us ++ [t])) ↔ _
    rw [ih]
    simp only [replayOk, sumPoints, List.map_cons, List.sum_cons]
    constructor
    · rintro ⟨h1, h2, h3⟩
      exact ⟨⟨h1, h2⟩, by rw [h3]; ring⟩
    · rintro ⟨⟨h1, h2⟩, h3⟩
      exact ⟨h1, h2, by rw [h3]; ring⟩

theorem transactionsOf_append (cs : List Customer) (ts : List Transaction) (t : Transaction)
    (k s : String) :
    transactionsOf { customers := cs, transactions := ts ++ [t] } k s =
      if t.shopifyCustomerId = k ∧ t.shopDomain = s then
        transactionsOf { customers := cs, transactions := ts } k s ++ [t]
      else transactionsOf { customers := cs, transactions := ts } k s := by
  unfold transactionsOf
  by_cases h : t.shopifyCustomerId = k ∧ t.shopDomain = s
  · simp [List.filter_append, h]
  · simp [List.filter_append, h]

theorem findOne_replace_other {db : Db} {k s : String} {c0 c1 : Customer}
    (ts : List Transaction) (hwf : db.wf)
    (hf : Customer.findOne db c1.shopifyCustomerId c1.shopDomain = some c0)
    (hid : c1._id = c0._id) (hne : ¬ (c1.shopifyCustomerId = k ∧ c1.shopDomain = s)) :
    Customer.findOne { customers := replaceById db.customers c1, transactions := ts } k s
      = Customer.findOne db k s := by
  obtain ⟨hk0, hs0⟩ := findOne_key hf
  apply find_replace_other
  · simpa using hne
  · intro d hd hdid
    have hdc : d = c0 := eq_of_same_id hwf.2 (findOne_mem hf) hd (hdid.trans hid)
    rw [hdc, hk0, hs0]
    simpa using hne

theorem find_append_same (l : List Customer) (p : Customer → Bool) (c : Customer)
    (h : l.find? p = none) (hp : p c = true) : (l ++ [c]).find? p = some c := by
  rw [List.find?_append, h]
  simp [List.find?_cons, hp]

theorem find_append_other (l : List Customer) (p : Customer → Bool) (c : Customer)
    (hp : p c = false) : (l ++ [c]).find? p = l.find? p := by
  rw [List.find?_append]
  simp [List.find?_cons, hp]

theorem findOne_insert_same (db : Db) (c1 : Customer) (ts : List Transaction)
    (hf : Customer.findOne db c1.shopifyCustomerId c1.shopDomain = none) :
    Customer.findOne { customers := db.customers ++ [c1], transactions := ts }
      c1.shopifyCustomerId c1.shopDomain = some c1 :=
  find_append_same db.customers _ c1 hf (by simp)

theorem findOne_insert_other (db : Db) (k s : String) (c1 : Customer) (ts : List Transaction)
    (hne : ¬ (c1.shopifyCustomerId = k ∧ c1.shopDomain = s)) :
    Customer.findOne { customers := db.customers ++ [c1], transactions := ts } k s
      = Customer.findOne db k s :=
  find_append_other db.customers _ c1 (by simpa using hne)

theorem replay_step {db db1 : Db} (k s : String) (hwf : db.wf) (hr : Replay db k s)
    (h : Step db db1) : Replay db1 k s := by
  obtain ⟨hr1, hr2, hr3⟩ := hr
  rcases h with h | ⟨c0, c1, t, hf, hid, _, htk, hts, hta, hbal, h⟩ |
    ⟨c1, t, hf, _, _, htk, hts, hta, hbal, h⟩
  · rw [h]; exact ⟨hr1, hr2, hr3⟩
  · subst h
    by_cases hkey : c1.shopifyCustomerId = k ∧ c1.shopDomain = s
    · obtain ⟨hk, hs⟩ := hkey
      subst hk hs
      have hfind := findOne_replace (db.transactions ++ [t]) hwf hf hid
        (findOne_key hf).1.symm (findOne_key hf).2.symm
      have htx : transactionsOf
          { customers := replaceById db.customers c1, transactions := db.transactions ++ [t] }
          c1.shopifyCustomerId c1.shopDomain =
          transactionsOf db c1.shopifyCustomerId c1.shopDomain ++ [t] := by
        rw [transactionsOf_append, if_pos ⟨htk, hts⟩]
        rfl
      refine ⟨?_, ?_, ?_⟩
      · rw [htx, replayOk_append]
        refine ⟨hr1, ?_⟩
        rw [hta, hbal, hr2 c0 hf]; ring
      · intro c hc
        rw [hfind] at hc
        simp only [Option.some.injEq] at hc
        rw [← hc, htx, sumPoints_append, hbal, hr2 c0 hf]
      · intro hc
        rw [hfind] at hc
        exact absurd hc (by simp)
    · have hfind := findOne_replace_other (db.transactions ++ [t]) hwf hf hid hkey
      have htx : transactionsOf
          { customers := replaceById db.customers c1, transactions := db.transactions ++ [t] }
          k s = transactionsOf db k s := by
        rw [transactionsOf_append, if_neg (by rw [htk, hts]; exact hkey)]
        rfl
      rw [Replay, hfind, htx]
      exact ⟨hr1, hr2, hr3⟩
  · subst h
    by_cases hkey : c1.shopifyCustomerId = k ∧ c1.shopDomain = s
    · obtain ⟨hk, hs⟩ := hkey
      subst hk hs
      have hfind := findOne_insert_same db c1 (db.transactions ++ [t]) hf
      have hempty := hr3 hf
      have htx : transactionsOf
          { customers := db.customers ++ [c1], transactions := db.transactions ++ [t] }
          c1.shopifyCustomerId c1.shopDomain = [t] := by
        rw [transactionsOf_append, if_pos ⟨htk, hts⟩]
        have : transactionsOf { customers := db.customers ++ [c1], transactions := db.transactions }
            c1.shopifyCustomerId c1.shopDomain = [] := hempty
        rw [this]
        rfl
      refine ⟨?_, ?_, ?_⟩
      · rw [htx]
        exact ⟨by rw [hta, hbal]; ring, trivial⟩
      · intro c hc
        rw [hfind] at hc
        simp only [Option.some.injEq] at hc
        rw [← hc, htx, hbal]
        simp [sumPoints]
      · intro hc
        rw [hfind] at hc
        exact absurd hc (by simp)
    · have hfind := findOne_insert_other db k s c1 (db.transactions ++ [t]) hkey
      have htx : transactionsOf
          { customers := db.customers ++ [c1], transactions := db.transactions ++ [t] }
          k s = transactionsOf db k s := by
        rw [transactionsOf_append, if_neg (by rw [htk, hts]; exact hkey)]
        rfl
      rw [Replay, hfind, htx]
      exact ⟨hr1, hr2, hr3⟩

theorem run_replay (db : Db) (k s : String) (reqs : List Request) (hwf : db.wf)
    (hr : Replay db k s) : Replay (run db reqs) k s := by
  induction reqs generalizing db with
  | nil => exact hr
  | cons r rs ih =>
    exact ih _ (step_wf hwf (handle_step db r)) (replay_step k s hwf hr (handle_step db r))

theorem replayOk_get (a : Int) (ts : List Transaction) (h : replayOk a ts) (i : Nat)
    (hi : i < ts.length) : (ts.get ⟨i, hi⟩).balanceAfter = a + sumPoints (ts.take (i + 1)) := by
  induction ts generalizing a i with
  | nil => simp at hi
  | cons u us ih =>
    obtain ⟨h1, h2⟩ := h
    cases i with
    | zero => simp [sumPoints, h1]
    | succ j =>
      have hj : j < us.length := by simpa using hi
      have := ih (a + u.points) h2 j hj
      simp only [List.get_eq_getElem, List.getElem_cons_succ, List.take_succ_cons, sumPoints,
        List.map_cons, List.sum_cons] at this ⊢
      rw [this]; ring

theorem step_nonneg {db db1 : Db} (h : Step db db1)
    (h0 : ∀ c ∈ db.customers, 0 ≤ c.pointsBalance) : ∀ c ∈ db1.customers, 0 ≤ c.pointsBalance := by
  rcases h with h | ⟨c0, c1, t, _, _, hv, _, _, _, _, h⟩ | ⟨c1, t, _, _, hv, _, _, _, _, h⟩
  · rw [h]; exact h0
  · subst h
    intro d hd
    rcases mem_replaceById hd with h1 | h1
    · rw [h1]; exact hv.2.2.2
    · exact h0 d h1
  · subst h
    intro d hd
    rcases List.mem_append.mp hd with h1 | h1
    · exact h0 d h1
    · simp only [List.mem_singleton] at h1
      rw [h1]; exact hv.2.2.2

theorem run_nonneg (db : Db) (reqs : List Request)
    (h0 : ∀ c ∈ db.customers, 0 ≤ c.pointsBalance) :
    ∀ c ∈ (run db reqs).customers, 0 ≤ c.pointsBalance := by
  induction reqs generalizing db with
  | nil => exact h0
  | cons r rs ih => exact ih _ (step_nonneg (handle_step db r) h0)

/-- C1: from a database in which the customer `k` of shop `s` has no Transaction
and, if stored, has `pointsBalance` 0, after every finite sequence of ledger
requests (order awards, redeems, adjusts, cancellation reversals, accepted or
rejected) the customer's `pointsBalance` is the sum of the `points` of all
Transactions recorded for the customer, and the `balanceAfter` of each of these
Transactions is the sum of the `points` of the Transactions up to and including
it. -/
theorem replay_invariant (db : Db) (k s : String) (reqs : List Request) (hwf : db.wf)
    (hlog : transactionsOf db k s = [])
    (hbal : ∀ c, Customer.findOne db k s = some c → c.pointsBalance = 0) :
    (∀ c, Customer.findOne (run db reqs) k s = some c →
      c.pointsBalance = sumPoints (transactionsOf (run db reqs) k s)) ∧
    ∀ (i : Nat) (hi : i < (transactionsOf (run db reqs) k s).length),
      ((transactionsOf (run db reqs) k s).get ⟨i, hi⟩).balanceAfter =
        sumPoints ((transactionsOf (run db reqs) k s).take (i + 1)) := by
  have h0 : Replay db k s := by
    refine ⟨?_, ?_, fun _ => hlog⟩
    · rw [hlog]; trivial
    · intro c hc
      rw [hlog, hbal c hc]
      rfl
  obtain ⟨h1, h2, _⟩ := run_replay db k s reqs hwf h0
  refine ⟨h2, ?_⟩
  intro i hi
  rw [replayOk_get 0 _ h1 i hi]
  ring

/-- C1, on a newly created customer and a sequence of eight requests, three of
which are refused. -/
theorem replay_invariant_witness :
    (∀ c, Customer.findOne (run freshDb sampleRequests) "7001" "demo.myshopify.com" = some c →
      c.pointsBalance =
        sumPoints (transactionsOf (run freshDb sampleRequests) "7001" "demo.myshopify.com")) ∧
    ∀ (i : Nat)
      (hi : i < (transactionsOf (run freshDb sampleRequests) "7001"
        "demo.myshopify.com").length),
      ((transactionsOf (run freshDb sampleRequests) "7001" "demo.myshopify.com").get
        ⟨i, hi⟩).balanceAfter =
        sumPoints ((transactionsOf (run freshDb sampleRequests) "7001"
          "demo.myshopify.com").take (i + 1)) :=
  replay_invariant freshDb "7001" "demo.myshopify.com" sampleRequests (by decide) (by decide)
    (fun c hc => by
      have hf : Customer.findOne freshDb "7001" "demo.myshopify.com" = some freshCustomer := by
        decide
      rw [hf] at hc
      simp only [Option.some.injEq] at hc
      rw [← hc]
      rfl)

/-- C2: when every stored customer has `pointsBalance >= 0`, then after every
step of every finite sequence of requests, whatever the values they carry, every
stored `pointsBalance` is an integer `>= 0`.  This holds for sequences of redeem
and adjust requests in particular. -/
theorem balance_never_negative (db : Db) (reqs : List Request)
    (h0 : ∀ c ∈ db.customers, 0 ≤ c.pointsBalance) (n : Nat) :
    ∀ c ∈ (run db (reqs.take n)).customers, 0 ≤ c.pointsBalance :=
  run_nonneg db (reqs.take n) h0

/-- C2, on the sample customer and requests that carry a string, `null`, a
boolean and an array where a number is expected. -/
theorem balance_never_negative_witness :
    (∀ c ∈ sampleDb.customers, 0 ≤ c.pointsBalance) ∧
    ∀ c ∈ (run sampleDb
        ([ Request.redeem sampleEnv
            ⟨some "7001", JsVal.str "abc", some "demo.myshopify.com"⟩,
           Request.adjust sampleEnv
            ⟨some "7001", JsVal.null, none, some "demo.myshopify.com"⟩,
           Request.redeem sampleEnv
            ⟨some "7001", JsVal.bool true, some "demo.myshopify.com"⟩,
           Request.adjust sampleEnv
            ⟨some "7001", JsVal.obj "-49", none, some "demo.myshopify.com"⟩,
           Request.adjust sampleEnv
            ⟨some "7001", JsVal.num (JsNum.int (-1)), none, some "demo.myshopify.com"⟩ ].take
          5)).customers,
      0 ≤ c.pointsBalance :=
  ⟨by decide, balance_never_negative sampleDb _ (by decide) 5⟩

/-- C9 fails as stated: a verified order-create event that carries a customer
without an email address, for whom no Customer exists yet, is answered with
status 500; no Customer is created and no Transaction is appended. -/
theorem handleOrderCreate_without_email :
    verifyWebhook sampleEnv (sampleOrder none none).rawBody (sampleOrder none none).hmacHeader
      (webhookSecret sampleEnv) = some true ∧
    (sampleOrder none none).body.customer.isSome = true ∧
    handleOrderCreate sampleEnv emptyDb (sampleOrder none none) = (webhookError, emptyDb) := by
  decide

/-- C9, amended: for a verified order-create event that carries a customer,
provided that the balance after the award is not negative and that, when no
Customer exists for that shop and customer id, the event's customer has a
non-empty email, the shop domain is non-empty and no stored Customer has that
`shopifyCustomerId`, `handleOrderCreate` (starting from a new Customer with all
counters zero when none exists) raises `pointsBalance` and `totalPointsEarned` by
`pointsPerOrder` and `totalOrders` by 1, leaves `totalPointsRedeemed` unchanged,
appends exactly one `earned` Transaction with `points = pointsPerOrder`, the
order's id and `balanceAfter` equal to the new balance, and answers 200;
`pointsPerOrder` is 50 when the variable is not set. -/
theorem handleOrderCreate_award (env : Env) (db : Db) (req : WebhookRequest)
    (oc : OrderCustomer) (hwf : db.wf)
    (hv : verifyWebhook env req.rawBody req.hmacHeader (webhookSecret env) = some true)
    (hoc : req.body.customer = some oc)
    (hnew : Customer.findOne db (toString oc.id) req.shopDomainHeader = none →
      present oc.email ∧ req.shopDomainHeader ≠ "" ∧
      (∀ d ∈ db.customers, d.shopifyCustomerId ≠ toString oc.id) ∧ 0 ≤ pointsPerOrder env)
    (hold : ∀ c, Customer.findOne db (toString oc.id) req.shopDomainHeader = some c →
      0 ≤ c.pointsBalance + pointsPerOrder env) :
    ∃ c0 c1 t,
      (∀ c, Customer.findOne db (toString oc.id) req.shopDomainHeader = some c → c0 = c) ∧
      (Customer.findOne db (toString oc.id) req.shopDomainHeader = none →
        c0.pointsBalance = 0 ∧ c0.totalPointsEarned = 0 ∧ c0.totalPointsRedeemed = 0 ∧
        c0.totalOrders = 0) ∧
      Customer.findOne (handleOrderCreate env db req).2 (toString oc.id) req.shopDomainHeader
        = some c1 ∧
      c1.pointsBalance = c0.pointsBalance + pointsPerOrder env ∧
      c1.totalPointsEarned = c0.totalPointsEarned + pointsPerOrder env ∧
      c1.totalOrders = c0.totalOrders + 1 ∧
      c1.totalPointsRedeemed = c0.totalPointsRedeemed ∧
      (handleOrderCreate env db req).2.transactions = db.transactions ++ [t] ∧
      t.shopifyCustomerId = toString oc.id ∧ t.shopDomain = req.shopDomainHeader ∧
      t.type = TransactionType.earned ∧ t.points = pointsPerOrder env ∧
      t.orderId = some (toString req.body.id) ∧ t.balanceAfter = c1.pointsBalance ∧
      (handleOrderCreate env db req).1 = ⟨200, Body.text "OK"⟩ ∧
      (env.POINTS_PER_ORDER = none → pointsPerOrder env = 50) := by
  have hdef : env.POINTS_PER_ORDER = none → pointsPerOrder env = 50 := by
    intro h
    simp [pointsPerOrder, h, parseIntEnv, JsNum.orElse]
  cases hf : Customer.findOne db (toString oc.id) req.shopDomainHeader with
  | some c =>
    obtain ⟨hcv, _, _, hk, hs⟩ := wf_found hwf hf
    have hv1 : Customer.valid { c with pointsBalance := c.pointsBalance + pointsPerOrder env, totalPointsEarned := c.totalPointsEarned + pointsPerOrder env, totalOrders := c.totalOrders + 1 } :=
      ⟨hcv.1, hcv.2.1, hcv.2.2.1, hold c hf⟩
    rw [handleOrderCreate_existing env db req oc c hv hoc hf,
      commit_update _ _ _ _ _ hv1 (earnedTransaction_valid _ _ _ _ _ hk hs)]
    exact ⟨c, _, _, fun d hd => by simpa using hd, fun h => by simp at h,
      findOne_replace _ hwf hf rfl rfl rfl, rfl, rfl, rfl, rfl, rfl, rfl, rfl, rfl, rfl, rfl, rfl,
      rfl, hdef⟩
  | none =>
    obtain ⟨hemail, hshop, huniq, hpos⟩ := hnew hf
    have hv1 : Customer.valid { newCustomer db (toString oc.id) req.shopDomainHeader oc with pointsBalance := 0 + pointsPerOrder env, totalPointsEarned := 0 + pointsPerOrder env, totalOrders := 0 + 1 } :=
      ⟨int_toString_ne oc.id, hshop, hemail, by show 0 ≤ 0 + pointsPerOrder env; omega⟩
    rw [handleOrderCreate_new env db req oc hv hoc hf,
      commit_insert _ _ _ _ _ hv1 (earnedTransaction_valid _ _ _ _ _ (int_toString_ne oc.id) hshop)
        huniq]
    exact ⟨newCustomer db (toString oc.id) req.shopDomainHeader oc, _, _,
      fun d hd => by simp at hd, fun _ => ⟨rfl, rfl, rfl, rfl⟩,
      findOne_insert_same db { newCustomer db (toString oc.id) req.shopDomainHeader oc with pointsBalance := 0 + pointsPerOrder env, totalPointsEarned := 0 + pointsPerOrder env, totalOrders := 0 + 1 } _ hf,
      rfl, rfl, rfl, rfl, rfl, rfl, rfl, rfl, rfl, rfl, rfl, rfl, hdef⟩

/-- C9, amended, on the example of the specification: a new customer under the
default setting ends with `pointsBalance` 50, `totalPointsEarned` 50,
`totalOrders` 1 and one Transaction with `balanceAfter` 50. -/
theorem handleOrderCreate_award_witness :
    ∃ c1 t,
      Customer.findOne
        (handleOrderCreate sampleEnv emptyDb (sampleOrder (some "ada@example.com") none)).2
        "7001" "demo.myshopify.com" = some c1 ∧
      c1.pointsBalance = 50 ∧ c1.totalPointsEarned = 50 ∧ c1.totalOrders = 1 ∧
      c1.totalPointsRedeemed = 0 ∧
      (handleOrderCreate sampleEnv emptyDb
        (sampleOrder (some "ada@example.com") none)).2.transactions = [t] ∧
      t.type = TransactionType.earned ∧ t.points = 50 ∧ t.orderId = some "9001" ∧
      t.balanceAfter = 50 := by
  obtain ⟨c0, c1, t, _, hz, hf, h1, h2, h3, h4, h5, _, _, h6, h7, h8, h9, _, hd⟩ :=
    handleOrderCreate_award sampleEnv emptyDb (sampleOrder (some "ada@example.com") none)
      { id := 7001, email := some "ada@example.com", first_name := some "Ada", last_name := none }
      (by decide) (by decide) rfl
      (fun _ => ⟨by decide, by decide, by intro d hd; simp [emptyDb] at hd, by decide⟩)
      (fun c hc => by simp [Customer.findOne, emptyDb] at hc)
  obtain ⟨z1, z2, z3, z4⟩ := hz (by decide)
  have hp : pointsPerOrder sampleEnv = 50 := hd rfl
  refine ⟨c1, t, hf, ?_, ?_, ?_, ?_, h5, h6, ?_, h8, ?_⟩
  · rw [h1, z1, hp]; rfl
  · rw [h2, z2, hp]; rfl
  · rw [h3, z4]; rfl
  · rw [h4, z3]
  · rw [h7, hp]
  · rw [h9, h1, z1, hp]; rfl

/-- C10: for a verified order-update event that signals cancellation and carries
a customer whose Customer record exists with `pointsBalance >= pointsPerOrder`,
`handleOrderUpdate` lowers `pointsBalance` by `pointsPerOrder` and `totalOrders`
by 1, leaves `totalPointsEarned` and `totalPointsRedeemed` unchanged, appends
exactly one `adjustment` Transaction with `points = -pointsPerOrder` and
`balanceAfter` equal to the new balance, and answers 200. -/
theorem handleOrderUpdate_reversal (env : Env) (db : Db) (req : WebhookRequest)
    (oc : OrderCustomer) (c : Customer) (hwf : db.wf)
    (hv : verifyWebhook env req.rawBody req.hmacHeader (webhookSecret env) = some true)
    (hoc : req.body.customer = some oc) (hcan : present req.body.cancelled_at)
    (hf : Customer.findOne db (toString oc.id) req.shopDomainHeader = some c)
    (hb : pointsPerOrder env ≤ c.pointsBalance) :
    ∃ c1 t,
      Customer.findOne (handleOrderUpdate env db req).2 (toString oc.id) req.shopDomainHeader
        = some c1 ∧
      c1.pointsBalance = c.pointsBalance - pointsPerOrder env ∧
      c1.totalOrders = c.totalOrders - 1 ∧
      c1.totalPointsEarned = c.totalPointsEarned ∧
      c1.totalPointsRedeemed = c.totalPointsRedeemed ∧
      (handleOrderUpdate env db req).2.transactions = db.transactions ++ [t] ∧
      t.shopifyCustomerId = toString oc.id ∧ t.shopDomain = req.shopDomainHeader ∧
      t.type = TransactionType.adjustment ∧ t.points = -pointsPerOrder env ∧
      t.balanceAfter = c1.pointsBalance ∧
      (handleOrderUpdate env db req).1 = ⟨200, Body.text "OK"⟩ := by
  obtain ⟨hcv, _, _, hk, hs⟩ := wf_found hwf hf
  have hv1 : Customer.valid { c with pointsBalance := c.pointsBalance - pointsPerOrder env, totalOrders := c.totalOrders - 1 } :=
    ⟨hcv.1, hcv.2.1, hcv.2.2.1, by show 0 ≤ c.pointsBalance - pointsPerOrder env; omega⟩
  rw [handleOrderUpdate_reversed env db req oc c hv hoc hcan hf hb,
    commit_update _ _ _ _ _ hv1 (reversalTransaction_valid _ _ _ _ _ hk hs)]
  exact ⟨_, _, findOne_replace _ hwf hf rfl rfl rfl, rfl, rfl, rfl, rfl, rfl, rfl, rfl, rfl, rfl,
    rfl, rfl⟩

/-- C10, on the example of the specification: a customer with balance 50 from
one order ends with balance 0 and `totalOrders` 0. -/
theorem handleOrderUpdate_reversal_witness :
    ∃ c1 t,
      Customer.findOne
        (handleOrderUpdate sampleEnv sampleDb
          (sampleOrder (some "ada@example.com") (some "2024-05-01"))).2
        "7001" "demo.myshopify.com" = some c1 ∧
      c1.pointsBalance = 0 ∧
      c1.totalOrders = 0 ∧
      c1.totalPointsEarned = 50 ∧
      c1.totalPointsRedeemed = 0 ∧
      (handleOrderUpdate sampleEnv sampleDb
        (sampleOrder (some "ada@example.com") (some "2024-05-01"))).2.transactions
        = sampleDb.transactions ++ [t] ∧
      t.shopifyCustomerId = "7001" ∧ t.shopDomain = "demo.myshopify.com" ∧
      t.type = TransactionType.adjustment ∧ t.points = -50 ∧
      t.balanceAfter = c1.pointsBalance ∧
      (handleOrderUpdate sampleEnv sampleDb
        (sampleOrder (some "ada@example.com") (some "2024-05-01"))).1 = ⟨200, Body.text "OK"⟩ :=
  handleOrderUpdate_reversal sampleEnv sampleDb
    (sampleOrder (some "ada@example.com") (some "2024-05-01"))
    { id := 7001, email := some "ada@example.com", first_name := some "Ada", last_name := none }
    sampleCustomer (by decide) (by decide) rfl (by decide) (by decide) (by decide)

theorem handleOrderUpdate_unverified (env : Env) (db : Db) (req : WebhookRequest)
    (h : verifyWebhook env req.rawBody req.hmacHeader (webhookSecret env) ≠ some true) :
    (handleOrderUpdate env db req).2 = db := by
  unfold handleOrderUpdate
  cases hv : verifyWebhook env req.rawBody req.hmacHeader (webhookSecret env) with
  | none => rfl
  | some b =>
    cases b with
    | false => rfl
    | true => exact absurd hv h

/-- C11: a verified order-update event that does not signal cancellation, or
carries no customer, or names a customer with no Customer record, or whose
customer has `pointsBalance < pointsPerOrder`, is answered with 200 `OK` and
leaves the database as it was: no Customer field changes and no Transaction is
appended. -/
theorem handleOrderUpdate_noop (env : Env) (db : Db) (req : WebhookRequest)
    (hv : verifyWebhook env req.rawBody req.hmacHeader (webhookSecret env) = some true)
    (h : ¬ present req.body.cancelled_at ∨ req.body.customer = none ∨
      (∃ oc, req.body.customer = some oc ∧
        Customer.findOne db (toString oc.id) req.shopDomainHeader = none) ∨
      (∃ oc c, req.body.customer = some oc ∧
        Customer.findOne db (toString oc.id) req.shopDomainHeader = some c ∧
        c.pointsBalance < pointsPerOrder env)) :
    handleOrderUpdate env db req = (⟨200, Body.text "OK"⟩, db) := by
  rcases h with h | h | ⟨oc, hoc, hf⟩ | ⟨oc, c, hoc, hf, hb⟩
  · cases hoc : req.body.customer with
    | none => simp [handleOrderUpdate, hv, hoc]
    | some oc => simp [handleOrderUpdate, hv, hoc, h]
  · simp [handleOrderUpdate, hv, h]
  · by_cases hcan : present req.body.cancelled_at
    · simp [handleOrderUpdate, hv, hoc, hcan, hf]
    · simp [handleOrderUpdate, hv, hoc, hcan]
  · by_cases hcan : present req.body.cancelled_at
    · have hnb : ¬ pointsPerOrder env ≤ c.pointsBalance := by omega
      simp [handleOrderUpdate, hv, hoc, hcan, hf, hnb]
    · simp [handleOrderUpdate, hv, hoc, hcan]

/-- C11, on the example of the specification: a second cancellation, with the
balance already at 0, is skipped and the balance stays 0. -/
theorem handleOrderUpdate_noop_witness :
    freshCustomer.pointsBalance = 0 ∧
    handleOrderUpdate sampleEnv freshDb
      (sampleOrder (some "ada@example.com") (some "2024-05-01"))
      = (⟨200, Body.text "OK"⟩, freshDb) :=
  ⟨rfl, handleOrderUpdate_noop sampleEnv freshDb
    (sampleOrder (some "ada@example.com") (some "2024-05-01")) (by decide)
    (Or.inr (Or.inr (Or.inr
      ⟨{ id := 7001, email := some "ada@example.com", first_name := some "Ada",
         last_name := none }, freshCustomer, rfl, by decide, by decide⟩)))⟩

/-- C12, the signatures that the handlers do not answer with 401: without the
signature header, and with a signature that decodes to fewer bytes than the
digest, `verifyWebhook` throws and both handlers answer 500 from their `catch`
block; a signature of the right length that differs is answered with 401. -/
theorem unverified_status :
    (handleOrderCreate sampleEnv sampleDb (unsignedOrder none)).1
      = ⟨500, Body.text "Internal Server Error"⟩ ∧
    (handleOrderUpdate sampleEnv sampleDb (unsignedOrder (some "2024-05-01"))).1
      = ⟨500, Body.text "Internal Server Error"⟩ ∧
    (handleOrderCreate shortSignatureEnv sampleDb (forgedOrder none)).1
      = ⟨500, Body.text "Internal Server Error"⟩ ∧
    (handleOrderUpdate shortSignatureEnv sampleDb (forgedOrder (some "2024-05-01"))).1
      = ⟨500, Body.text "Internal Server Error"⟩ ∧
    (handleOrderCreate sampleEnv sampleDb (forgedOrder none)).1
      = ⟨401, Body.text "Unauthorized"⟩ ∧
    (handleOrderUpdate sampleEnv sampleDb (forgedOrder (some "2024-05-01"))).1
      = ⟨401, Body.text "Unauthorized"⟩ := by
  decide

/-- C13: an order event that does not pass signature verification (the handler
finds a mismatch, or `verifyWebhook` throws on a missing or wrong-length
signature) leaves the database as it was under both handlers: no Customer is
created or changed and no Transaction is appended. -/
theorem unverified_no_side_effect (env : Env) (db : Db) (req : WebhookRequest)
    (h : verifyWebhook env req.rawBody req.hmacHeader (webhookSecret env) ≠ some true) :
    (handleOrderCreate env db req).2 = db ∧ (handleOrderUpdate env db req).2 = db :=
  ⟨handleOrderCreate_skipped env db req (Or.inl h), handleOrderUpdate_unverified env db req h⟩

/-- C13, on an order without the signature header, on a forged signature of the
right length and on one of the wrong length. -/
theorem unverified_no_side_effect_witness :
    ((handleOrderCreate sampleEnv sampleDb (unsignedOrder none)).2 = sampleDb ∧
      (handleOrderUpdate sampleEnv sampleDb (unsignedOrder none)).2 = sampleDb) ∧
    ((handleOrderCreate sampleEnv sampleDb (forgedOrder (some "2024-05-01"))).2 = sampleDb ∧
      (handleOrderUpdate sampleEnv sampleDb (forgedOrder (some "2024-05-01"))).2 = sampleDb) ∧
    ((handleOrderCreate shortSignatureEnv sampleDb (forgedOrder (some "2024-05-01"))).2
        = sampleDb ∧
      (handleOrderUpdate shortSignatureEnv sampleDb (forgedOrder (some "2024-05-01"))).2
        = sampleDb) :=
  ⟨unverified_no_side_effect sampleEnv sampleDb (unsignedOrder none) (by decide),
   unverified_no_side_effect sampleEnv sampleDb (forgedOrder (some "2024-05-01")) (by decide),
   unverified_no_side_effect shortSignatureEnv sampleDb (forgedOrder (some "2024-05-01"))
    (by decide)⟩

theorem orElse_int (n d : Int) (h : n ≠ 0) : (JsNum.int n).orElse d = n := by
  simp [JsNum.orElse, h]

theorem orElse_default (x : JsNum) (d : Int) (h : x = JsNum.int 0 ∨ x = JsNum.nan) :
    x.orElse d = d := by
  rcases h with h | h <;> simp [JsNum.orElse, h]

/-- C18 fails as stated: with the ratio configured as `0`, a redeem of 30 points
succeeds with a `discountAmount` of 30 (the ratio falls back to 1), not of
`30 * 0`. -/
theorem redeem_zero_ratio :
    zeroRatioEnv.POINTS_TO_RUPEES_RATIO = some "0" ∧
    (redeem zeroRatioEnv sampleDb
      ⟨some "7001", JsVal.num (JsNum.int 30), some "demo.myshopify.com"⟩).1 =
      ⟨200, Body.redeemed "LOYALTY1700000000000K3ZQ" (JsNum.int 30) (JsVal.num (JsNum.int 30)) 20
        "Successfully redeemed 30 points for ₹30 discount"⟩ ∧
    JsNum.int 30 ≠ (JsNum.int 30).mul (JsNum.int 0) := by
  decide

/-- C18, amended: for every redeem that succeeds, the `discountAmount` in the
response and the one recorded in the Transaction are both `pointsToRedeem`
multiplied by the ratio, where the ratio is the integer that `parseInt` reads
from `POINTS_TO_RUPEES_RATIO` when that integer is not zero, and is 1 (so that
`discountAmount` equals `pointsToRedeem`) when the variable is not set, is not a
number, or reads as zero. -/
theorem redeem_discountAmount (env : Env) (db : Db) (rb : RedeemBody)
    (h : (redeem env db rb).1.status = 200) :
    ∃ t code rem msg n,
      env.toNumber rb.pointsToRedeem = JsNum.int n ∧
      (redeem env db rb).2.transactions = db.transactions ++ [t] ∧
      (redeem env db rb).1.body =
        Body.redeemed code (JsNum.int (n * pointsToRupeesRatio env)) rb.pointsToRedeem rem msg ∧
      t.metadata = Metadata.redemption (JsNum.int (n * pointsToRupeesRatio env)) "fixed_amount" ∧
      (∀ r, parseIntEnv env.POINTS_TO_RUPEES_RATIO = JsNum.int r → r ≠ 0 →
        pointsToRupeesRatio env = r) ∧
      ((env.POINTS_TO_RUPEES_RATIO = none ∨
          parseIntEnv env.POINTS_TO_RUPEES_RATIO = JsNum.int 0 ∨
          parseIntEnv env.POINTS_TO_RUPEES_RATIO = JsNum.nan) →
        pointsToRupeesRatio env = 1 ∧ n * pointsToRupeesRatio env = n) := by
  rcases redeem_cases env db rb with hc |
    ⟨customerId, shopDomain, customer, n, redeemedTotal, _, _, _, _, _, hn, _, _, _, c1, _, _,
      he⟩
  · exact absurd h hc.2
  · rw [he]
    refine ⟨redeemTransaction env customerId shopDomain rb.pointsToRedeem c1 (-n),
      discountCode env, c1.pointsBalance,
      "Successfully redeemed " ++ (rb.pointsToRedeem.toStr ++ (" points for ₹"
        ++ ((discountAmount env rb.pointsToRedeem).toStr ++ " discount"))),
      n, hn, rfl, ?_, ?_, ?_, ?_⟩
    · simp [redeemResponse, discountAmount, hn, JsNum.mul]
    · simp [redeemTransaction, discountAmount, hn, JsNum.mul]
    · intro r hr hr0
      rw [pointsToRupeesRatio, hr]
      exact orElse_int r 1 hr0
    · intro hd
      have h1 : pointsToRupeesRatio env = 1 := by
        rw [pointsToRupeesRatio]
        apply orElse_default
        rcases hd with hd | hd | hd
        · right; rw [hd]; rfl
        · left; exact hd
        · right; exact hd
      rw [h1]
      exact ⟨rfl, by ring⟩

/-- C18, amended, on a redeem of 30 points with the ratio configured as `3`. -/
theorem redeem_discountAmount_witness :
    ∃ t code rem msg n,
      tripleRatioEnv.toNumber (JsVal.num (JsNum.int 30)) = JsNum.int n ∧
      (redeem tripleRatioEnv sampleDb
        ⟨some "7001", JsVal.num (JsNum.int 30), some "demo.myshopify.com"⟩).2.transactions
        = sampleDb.transactions ++ [t] ∧
      (redeem tripleRatioEnv sampleDb
        ⟨some "7001", JsVal.num (JsNum.int 30), some "demo.myshopify.com"⟩).1.body =
        Body.redeemed code (JsNum.int (n * pointsToRupeesRatio tripleRatioEnv))
          (JsVal.num (JsNum.int 30)) rem msg ∧
      t.metadata =
        Metadata.redemption (JsNum.int (n * pointsToRupeesRatio tripleRatioEnv)) "fixed_amount" ∧
      (∀ r, parseIntEnv tripleRatioEnv.POINTS_TO_RUPEES_RATIO = JsNum.int r → r ≠ 0 →
        pointsToRupeesRatio tripleRatioEnv = r) ∧
      ((tripleRatioEnv.POINTS_TO_RUPEES_RATIO = none ∨
          parseIntEnv tripleRatioEnv.POINTS_TO_RUPEES_RATIO = JsNum.int 0 ∨
          parseIntEnv tripleRatioEnv.POINTS_TO_RUPEES_RATIO = JsNum.nan) →
        pointsToRupeesRatio tripleRatioEnv = 1 ∧ n * pointsToRupeesRatio tripleRatioEnv = n) :=
  redeem_discountAmount tripleRatioEnv sampleDb
    ⟨some "7001", JsVal.num (JsNum.int 30), some "demo.myshopify.com"⟩ (by decide)

/-- C20 fails as stated: an adjust with the empty text as reason succeeds and
records the default description, not the empty text. -/
theorem adjust_empty_reason :
    ∃ t,
      (adjust sampleEnv sampleDb
        ⟨some "7001", JsVal.num (JsNum.int 5), some "", some "demo.myshopify.com"⟩).1.status
        = 200 ∧
      (adjust sampleEnv sampleDb
        ⟨some "7001", JsVal.num (JsNum.int 5), some "", some "demo.myshopify.com"⟩).2.transactions
        = sampleDb.transactions ++ [t] ∧
      t.description = "Admin adjustment: added 5 points" ∧ t.description ≠ "" :=
  ⟨adjustTransaction "7001" "demo.myshopify.com" (some "") (JsNum.int 5) 50
      { sampleCustomer with pointsBalance := 55, totalPointsEarned := 55 } 5,
    by decide, by decide, by decide, by decide⟩

/-- C20, amended: for every adjust that succeeds and every non-empty reason text
supplied by the caller, the description of the appended Transaction is exactly
that text. -/
theorem adjust_reason_verbatim (env : Env) (db : Db) (ab : AdjustBody) (reason : String)
    (hr : ab.reason = some reason) (hne : reason ≠ "")
    (h : (adjust env db ab).1.status = 200) :
    ∃ t, (adjust env db ab).2.transactions = db.transactions ++ [t] ∧
      t.type = TransactionType.adjustment ∧ t.description = reason := by
  rcases adjust_cases env db ab with hc |
    ⟨customerId, shopDomain, customer, d, _, _, _, _, _, _, _, c1, _, _, he⟩
  · exact absurd h hc.2
  · rw [he]
    refine ⟨_, rfl, rfl, ?_⟩
    simp [adjustTransaction, adjustDescription, hr, hne]

/-- C20, amended, on an adjust of 25 points with the reason `bonus`. -/
theorem adjust_reason_verbatim_witness :
    ∃ t,
      (adjust sampleEnv sampleDb
        ⟨some "7001", JsVal.num (JsNum.int 25), some "bonus",
          some "demo.myshopify.com"⟩).2.transactions = sampleDb.transactions ++ [t] ∧
      t.type = TransactionType.adjustment ∧ t.description = "bonus" :=
  adjust_reason_verbatim sampleEnv sampleDb
    ⟨some "7001", JsVal.num (JsNum.int 25), some "bonus", some "demo.myshopify.com"⟩ "bonus"
    rfl (by decide) (by decide)

theorem handleOrderCreate_transaction (env : Env) (db : Db) (req : WebhookRequest)
    (h : (handleOrderCreate env db req).2 ≠ db) :
    ∃ t, (handleOrderCreate env db req).2.transactions = db.transactions ++ [t] ∧
      t.type = TransactionType.earned ∧ t.points = pointsPerOrder env := by
  by_cases hv : verifyWebhook env req.rawBody req.hmacHeader (webhookSecret env) = some true
  · cases hoc : req.body.customer with
    | none => exact absurd (handleOrderCreate_skipped env db req (Or.inr hoc)) h
    | some oc =>
      cases hf : Customer.findOne db (toString oc.id) req.shopDomainHeader with
      | some c =>
        rw [handleOrderCreate_existing env db req oc c hv hoc hf] at h ⊢
        obtain ⟨hk, hs⟩ := findOne_key hf
        generalize hc1 : ({ c with pointsBalance := c.pointsBalance + pointsPerOrder env
                                   totalPointsEarned := c.totalPointsEarned + pointsPerOrder env
                                   totalOrders := c.totalOrders + 1 } : Customer) = c1 at h ⊢
        have h2 : c1.shopifyCustomerId = toString oc.id := by rw [← hc1]; exact hk
        have h3 : c1.shopDomain = req.shopDomainHeader := by rw [← hc1]; exact hs
        rcases commit_shape db false c1
          (earnedTransaction (toString oc.id) req.shopDomainHeader req.body (pointsPerOrder env)
            c1)
          ⟨200, Body.text "OK"⟩ webhookError
          (fun hv1 => earnedTransaction_valid _ _ _ _ _ (h2 ▸ hv1.1) (h3 ▸ hv1.2.1))
          with h4 | ⟨_, _, h4⟩ | ⟨_, _, h4⟩
        · exact absurd h4 h
        · rw [h4]; exact ⟨_, rfl, rfl, rfl⟩
        · rw [h4]; exact ⟨_, rfl, rfl, rfl⟩
      | none =>
        rw [handleOrderCreate_new env db req oc hv hoc hf] at h ⊢
        generalize hc1 : ({ newCustomer db (toString oc.id) req.shopDomainHeader oc with
                            pointsBalance := 0 + pointsPerOrder env
                            totalPointsEarned := 0 + pointsPerOrder env
                            totalOrders := 0 + 1 } : Customer) = c1 at h ⊢
        have h2 : c1.shopifyCustomerId = toString oc.id := by rw [← hc1]; rfl
        have h3 : c1.shopDomain = req.shopDomainHeader := by rw [← hc1]; rfl
        rcases commit_shape db true c1
          (earnedTransaction (toString oc.id) req.shopDomainHeader req.body (pointsPerOrder env)
            c1)
          ⟨200, Body.text "OK"⟩ webhookError
          (fun hv1 => earnedTransaction_valid _ _ _ _ _ (h2 ▸ hv1.1) (h3 ▸ hv1.2.1))
          with h4 | ⟨_, _, h4⟩ | ⟨_, _, h4⟩
        · exact absurd h4 h
        · rw [h4]; exact ⟨_, rfl, rfl, rfl⟩
        · rw [h4]; exact ⟨_, rfl, rfl, rfl⟩
  · exact absurd (handleOrderCreate_skipped env db req (Or.inl hv)) h

theorem handleOrderUpdate_transaction (env : Env) (db : Db) (req : WebhookRequest)
    (h : (handleOrderUpdate env db req).2 ≠ db) :
    ∃ t, (handleOrderUpdate env db req).2.transactions = db.transactions ++ [t] ∧
      t.type = TransactionType.adjustment ∧ t.points = -pointsPerOrder env := by
  rcases handleOrderUpdate_cases env db req with hc | ⟨oc, c, hv, hoc, hcan, hf, hb⟩
  · exact absurd hc h
  · rw [handleOrderUpdate_reversed env db req oc c hv hoc hcan hf hb] at h ⊢
    obtain ⟨hk, hs⟩ := findOne_key hf
    generalize hc1 : ({ c with pointsBalance := c.pointsBalance - pointsPerOrder env
                               totalOrders := c.totalOrders - 1 } : Customer) = c1 at h ⊢
    have h2 : c1.shopifyCustomerId = toString oc.id := by rw [← hc1]; exact hk
    have h3 : c1.shopDomain = req.shopDomainHeader := by rw [← hc1]; exact hs
    rcases commit_shape db false c1
      (reversalTransaction (toString oc.id) req.shopDomainHeader req.body (pointsPerOrder env) c1)
      ⟨200, Body.text "OK"⟩ webhookError
      (fun hv1 => reversalTransaction_valid _ _ _ _ _ (h2 ▸ hv1.1) (h3 ▸ hv1.2.1))
      with h4 | ⟨_, _, h4⟩ | ⟨_, _, h4⟩
    · exact absurd h4 h
    · rw [h4]; exact ⟨_, rfl, rfl, rfl⟩
    · rw [h4]; exact ⟨_, rfl, rfl, rfl⟩

/-- C19 fails as stated: with `POINTS_PER_ORDER` configured as `0`, an order
awards 50 points and a cancellation reverses 50 points, not 0; so 50 is also the
amount under a configured value. -/
theorem pointsPerOrder_zero_configured :
    zeroPointsEnv.POINTS_PER_ORDER = some "0" ∧
    (handleOrderCreate zeroPointsEnv emptyDb
      (sampleOrder (some "ada@example.com") none)).2.transactions.map (fun t => t.points)
      = [50] ∧
    (handleOrderUpdate zeroPointsEnv sampleDb
      (sampleOrder (some "ada@example.com") (some "2024-05-01"))).2.transactions.map
        (fun t => t.points) = [50, -50] := by
  decide

/-- C19, amended: whenever `handleOrderCreate` writes, it records an `earned`
Transaction of `pointsPerOrder` points, and whenever `handleOrderUpdate` writes,
it records an `adjustment` Transaction of `-pointsPerOrder` points, where
`pointsPerOrder` is the integer that `parseInt` reads from `POINTS_PER_ORDER`
when that integer is not zero, and is 50 when the variable is not set, is not a
number, or reads as zero. -/
theorem pointsPerOrder_configured (env : Env) (db : Db) (req : WebhookRequest) :
    ((handleOrderCreate env db req).2 ≠ db →
      ∃ t, (handleOrderCreate env db req).2.transactions = db.transactions ++ [t] ∧
        t.type = TransactionType.earned ∧ t.points = pointsPerOrder env) ∧
    ((handleOrderUpdate env db req).2 ≠ db →
      ∃ t, (handleOrderUpdate env db req).2.transactions = db.transactions ++ [t] ∧
        t.type = TransactionType.adjustment ∧ t.points = -pointsPerOrder env) ∧
    (∀ n, parseIntEnv env.POINTS_PER_ORDER = JsNum.int n → n ≠ 0 → pointsPerOrder env = n) ∧
    ((env.POINTS_PER_ORDER = none ∨ parseIntEnv env.POINTS_PER_ORDER = JsNum.int 0 ∨
        parseIntEnv env.POINTS_PER_ORDER = JsNum.nan) → pointsPerOrder env = 50) := by
  refine ⟨handleOrderCreate_transaction env db req, handleOrderUpdate_transaction env db req,
    ?_, ?_⟩
  · intro n hn hn0
    rw [pointsPerOrder, hn]
    exact orElse_int n 50 hn0
  · intro hd
    rw [pointsPerOrder]
    apply orElse_default
    rcases hd with hd | hd | hd
    · right; rw [hd]; rfl
    · left; exact hd
    · right; exact hd

/-- C19, amended, with `POINTS_PER_ORDER` configured as `75`: an order awards 75
points and a cancellation reverses 75 points. -/
theorem pointsPerOrder_configured_witness :
    (∃ t, (handleOrderCreate seventyFiveEnv sampleDb
        (sampleOrder (some "ada@example.com") none)).2.transactions
        = sampleDb.transactions ++ [t] ∧
      t.type = TransactionType.earned ∧ t.points = pointsPerOrder seventyFiveEnv) ∧
    pointsPerOrder seventyFiveEnv = 75 ∧
    pointsPerOrder sampleEnv = 50 :=
  ⟨(pointsPerOrder_configured seventyFiveEnv sampleDb
      (sampleOrder (some "ada@example.com") none)).1 (by decide),
   (pointsPerOrder_configured seventyFiveEnv sampleDb
      (sampleOrder (some "ada@example.com") none)).2.2.1 75 (by decide) (by decide),
   (pointsPerOrder_configured sampleEnv sampleDb
      (sampleOrder (some "ada@example.com") none)).2.2.2 (Or.inl rfl)⟩

theorem replaceById_customerIds (l : List Customer) (c0 c1 : Customer)
    (hnd : (l.map (fun c => c._id)).Nodup) (hc0 : c0 ∈ l) (hid : c1._id = c0._id)
    (hs : c1.shopifyCustomerId = c0.shopifyCustomerId) :
    (replaceById l c1).map (fun c => c.shopifyCustomerId)
      = l.map (fun c => c.shopifyCustomerId) := by
  unfold replaceById
  rw [List.map_map]
  apply List.map_congr_left
  intro d hd
  by_cases h : d._id = c1._id
  · have hdc : d = c0 := eq_of_same_id hnd hc0 hd (h.trans hid)
    show (if d._id = c1._id then c1 else d).shopifyCustomerId = d.shopifyCustomerId
    rw [if_pos h, hs, hdc]
  · show (if d._id = c1._id then c1 else d).shopifyCustomerId = d.shopifyCustomerId
    rw [if_neg h]

theorem commit_customers (db : Db) (isNew : Bool) (c : Customer) (t : Option Transaction)
    (ok err : Response) :
    (commit db isNew c t ok err).2.customers = db.customers ∨
    (isNew = false ∧ (commit db isNew c t ok err).2.customers = replaceById db.customers c) ∨
    (isNew = true ∧ (∀ d ∈ db.customers, d.shopifyCustomerId ≠ c.shopifyCustomerId) ∧
      (commit db isNew c t ok err).2.customers = db.customers ++ [c]) := by
  by_cases hc : c.valid
  · cases isNew with
    | false =>
      right; left
      refine ⟨rfl, ?_⟩
      cases t with
      | none => simp [commit, Customer.save, hc]
      | some t =>
        by_cases ht : t.valid <;> simp [commit, Customer.save, Transaction.save, hc, ht]
    | true =>
      by_cases hu : ∀ d ∈ db.customers, d.shopifyCustomerId ≠ c.shopifyCustomerId
      · right; right
        refine ⟨rfl, hu, ?_⟩
        have hany : db.customers.any (fun d => decide (d.shopifyCustomerId = c.shopifyCustomerId))
            = false := by
          simpa [List.any_eq_false] using hu
        cases t with
        | none => simp [commit, Customer.save, hc, hany]
        | some t =>
          by_cases ht : t.valid <;>
            simp [commit, Customer.save, Transaction.save, hc, ht, hany]
      · left
        push_neg at hu
        obtain ⟨d, hd, hk⟩ := hu
        rw [commit_duplicate db c t ok err d hd hk]
  · left
    rw [commit_invalid db isNew c t ok err hc]

theorem unique_append (db : Db) (c : Customer) (hu : db.uniqueCustomerIds)
    (hn : ∀ d ∈ db.customers, d.shopifyCustomerId ≠ c.shopifyCustomerId) :
    ((db.customers ++ [c]).map (fun c => c.shopifyCustomerId)).Nodup := by
  rw [List.map_append, List.nodup_append]
  refine ⟨hu, by simp, ?_⟩
  intro a ha hb
  simp only [List.map_cons, List.map_nil, List.mem_singleton] at hb
  obtain ⟨d, hd, hda⟩ := List.mem_map.mp ha
  exact hn d hd (hda.trans hb)

theorem commit_unique (db : Db) (isNew : Bool) (c : Customer) (t : Option Transaction)
    (ok err : Response) (hu : db.uniqueCustomerIds)
    (hupd : isNew = false →
      (replaceById db.customers c).map (fun c => c.shopifyCustomerId)
        = db.customers.map (fun c => c.shopifyCustomerId)) :
    (commit db isNew c t ok err).2.uniqueCustomerIds := by
  unfold Db.uniqueCustomerIds
  rcases commit_customers db isNew c t ok err with h | ⟨h1, h⟩ | ⟨_, hn, h⟩
  · rw [h]; exact hu
  · rw [h, hupd h1]; exact hu
  · rw [h]; exact unique_append db c hu hn

theorem handle_unique (db : Db) (r : Request) (hwf : db.wf) (hu : db.uniqueCustomerIds) :
    (handle db r).2.uniqueCustomerIds := by
  cases r with
  | redeem env body =>
    show (redeem env db body).2.uniqueCustomerIds
    rcases redeem_cases env db body with hc |
      ⟨_, _, customer, _, _, _, _, _, _, hf, _, _, _, _, c1, hc1, _, he⟩
    · rw [hc.1]; exact hu
    · rw [he]
      unfold Db.uniqueCustomerIds
      show ((replaceById db.customers c1).map (fun c => c.shopifyCustomerId)).Nodup
      rw [replaceById_customerIds db.customers customer c1 hwf.2 (findOne_mem hf)
        (by rw [hc1]) (by rw [hc1])]
      exact hu
  | adjust env body =>
    show (adjust env db body).2.uniqueCustomerIds
    rcases adjust_cases env db body with hc |
      ⟨_, _, customer, _, _, _, _, _, hf, _, _, c1, hc1, _, he⟩
    · rw [hc.1]; exact hu
    · rw [he]
      unfold Db.uniqueCustomerIds
      show ((replaceById db.customers c1).map (fun c => c.shopifyCustomerId)).Nodup
      rw [replaceById_customerIds db.customers customer c1 hwf.2 (findOne_mem hf)
        (by rw [hc1]) (by rw [hc1])]
      exact hu
  | orderCreate env req =>
    show (handleOrderCreate env db req).2.uniqueCustomerIds
    by_cases hv : verifyWebhook env req.rawBody req.hmacHeader (webhookSecret env) = some true
    · cases hoc : req.body.customer with
      | none => rw [handleOrderCreate_skipped env db req (Or.inr hoc)]; exact hu
      | some oc =>
        cases hf : Customer.findOne db (toString oc.id) req.shopDomainHeader with
        | some c =>
          rw [handleOrderCreate_existing env db req oc c hv hoc hf]
          exact commit_unique _ _ _ _ _ _ hu
            (fun _ => replaceById_customerIds db.customers c _ hwf.2 (findOne_mem hf) rfl rfl)
        | none =>
          rw [handleOrderCreate_new env db req oc hv hoc hf]
          exact commit_unique _ _ _ _ _ _ hu (fun h => absurd h (by decide))
    · rw [handleOrderCreate_skipped env db req (Or.inl hv)]; exact hu
  | orderUpdate env req =>
    show (handleOrderUpdate env db req).2.uniqueCustomerIds
    rcases handleOrderUpdate_cases env db req with hc | ⟨oc, c, hv, hoc, hcan, hf, hb⟩
    · rw [hc]; exact hu
    · rw [handleOrderUpdate_reversed env db req oc c hv hoc hcan hf hb]
      exact commit_unique _ _ _ _ _ _ hu
        (fun _ => replaceById_customerIds db.customers c _ hwf.2 (findOne_mem hf) rfl rfl)

theorem run_unique (db : Db) (reqs : List Request) (hwf : db.wf) (hu : db.uniqueCustomerIds) :
    (run db reqs).uniqueCustomerIds := by
  induction reqs generalizing db with
  | nil => exact hu
  | cons r rs ih =>
    exact ih _ (step_wf hwf (handle_step db r)) (handle_unique db r hwf hu)

/-- C15 fails as stated: customer 7001 exists under `demo.myshopify.com` and has
no Customer under `other.myshopify.com`; a verified order for customer 7001
delivered for `other.myshopify.com` is answered with 500, and no Customer is
created and no points are awarded. -/
theorem handleOrderCreate_other_shop :
    Customer.findOne sampleDb "7001" "demo.myshopify.com" = some sampleCustomer ∧
    Customer.findOne sampleDb "7001" "other.myshopify.com" = none ∧
    verifyWebhook sampleEnv otherShopOrder.rawBody otherShopOrder.hmacHeader
      (webhookSecret sampleEnv) = some true ∧
    handleOrderCreate sampleEnv sampleDb otherShopOrder = (webhookError, sampleDb) := by
  decide

/-- C15, amended: Customer uniqueness is keyed on `shopifyCustomerId` alone.
From a database that satisfies the unique index, after every sequence of
requests no two Customer records share a `shopifyCustomerId`, hence no two share
both `shopDomain` and `shopifyCustomerId`; and a verified order-create event for
a `shopifyCustomerId` that is stored under another shop creates no Customer and
awards no points: it is answered with 500 and the database is unchanged. -/
theorem customer_unique_by_id (db : Db) (reqs : List Request) (hwf : db.wf)
    (hu : db.uniqueCustomerIds) :
    (run db reqs).uniqueCustomerIds ∧
    (∀ c ∈ (run db reqs).customers, ∀ d ∈ (run db reqs).customers,
      c.shopifyCustomerId = d.shopifyCustomerId → c = d) ∧
    (∀ (env : Env) (req : WebhookRequest) (oc : OrderCustomer) (d : Customer),
      verifyWebhook env req.rawBody req.hmacHeader (webhookSecret env) = some true →
      req.body.customer = some oc → d ∈ db.customers →
      d.shopifyCustomerId = toString oc.id → d.shopDomain ≠ req.shopDomainHeader →
      handleOrderCreate env db req = (webhookError, db)) := by
  have hrun := run_unique db reqs hwf hu
  refine ⟨hrun, ?_, ?_⟩
  · intro c hc d hd hcd
    exact List.inj_on_of_nodup_map hrun hc hd hcd
  · intro env req oc d hv hoc hd hk hs
    have hf : Customer.findOne db (toString oc.id) req.shopDomainHeader = none := by
      unfold Customer.findOne
      rw [List.find?_eq_none]
      intro e he
      simp only [decide_eq_true_eq, not_and]
      intro hek
      have hed : e = d := List.inj_on_of_nodup_map hu he hd (hek.trans hk.symm)
      rw [hed]; exact hs
    rw [handleOrderCreate_new env db req oc hv hoc hf]
    exact commit_duplicate db _ _ _ _ d hd hk

/-- C15, amended, on the sample database and the order for customer 7001
delivered for another shop. -/
theorem customer_unique_by_id_witness :
    sampleDb.uniqueCustomerIds ∧
    (run sampleDb sampleRequests).uniqueCustomerIds ∧
    handleOrderCreate sampleEnv sampleDb otherShopOrder = (webhookError, sampleDb) :=
  ⟨by decide,
   (customer_unique_by_id sampleDb sampleRequests (by decide) (by decide)).1,
   (customer_unique_by_id sampleDb sampleRequests (by decide) (by decide)).2.2 sampleEnv
      otherShopOrder
      { id := 7001, email := some "ada@example.com", first_name := some "Ada", last_name := none }
      sampleCustomer (by decide) rfl (by decide) (by decide) (by decide)⟩

theorem commitOn_accepting (db : Db) (isNew : Bool) (c : Customer) (t : Option Transaction)
    (ok err : Response) : commitOn false db isNew c t ok err = commit db isNew c t ok err := by
  unfold commitOn commit
  cases Customer.save db isNew c with
  | none => rfl
  | some db1 =>
    cases t with
    | none => rfl
    | some t => simp

/-- C14 fails as stated: a redeem of 30 points by the sample customer runs the
write sequence on the updated Customer and the new Transaction; when the
database rejects the Transaction insert, the answer is 500, the stored
`pointsBalance` is 20 instead of 50, `totalPointsRedeemed` is 30 instead of 0,
and no Transaction has been appended. -/
theorem redeem_transaction_rejected :
    redeem sampleEnv sampleDb
        ⟨some "7001", JsVal.num (JsNum.int 30), some "demo.myshopify.com"⟩ =
      commitOn false sampleDb false
        { sampleCustomer with pointsBalance := 20, totalPointsRedeemed := 30 }
        (some (redeemTransaction sampleEnv "7001" "demo.myshopify.com" (JsVal.num (JsNum.int 30))
          { sampleCustomer with pointsBalance := 20, totalPointsRedeemed := 30 } (-30)))
        (redeemResponse sampleEnv (JsVal.num (JsNum.int 30))
          { sampleCustomer with pointsBalance := 20, totalPointsRedeemed := 30 })
        internalError ∧
    commitOn true sampleDb false
        { sampleCustomer with pointsBalance := 20, totalPointsRedeemed := 30 }
        (some (redeemTransaction sampleEnv "7001" "demo.myshopify.com" (JsVal.num (JsNum.int 30))
          { sampleCustomer with pointsBalance := 20, totalPointsRedeemed := 30 } (-30)))
        (redeemResponse sampleEnv (JsVal.num (JsNum.int 30))
          { sampleCustomer with pointsBalance := 20, totalPointsRedeemed := 30 })
        internalError =
      (internalError,
        { customers := [{ sampleCustomer with pointsBalance := 20, totalPointsRedeemed := 30 }],
          transactions := sampleDb.transactions }) ∧
    Customer.findOne sampleDb "7001" "demo.myshopify.com" = some sampleCustomer ∧
    sampleCustomer.pointsBalance = 50 ∧ sampleCustomer.totalPointsRedeemed = 0 := by
  decide

/-- C14, amended: each ledger operation ends in the same write sequence, which
writes the Customer first and the Transaction second and has no rollback.  When
the Customer write is rejected, nothing is written.  When the Customer write is
accepted and the Transaction write is rejected, the answer is the error
response, the Customer update stays stored and no Transaction is appended.  When
both writes are accepted, both are stored; this is the sequence that the four
handlers run. -/
theorem commitOn_writes (rejected : Bool) (db : Db) (isNew : Bool) (c : Customer)
    (t : Transaction) (ok err : Response) :
    (Customer.save db isNew c = none →
      commitOn rejected db isNew c (some t) ok err = (err, db)) ∧
    (∀ db1, Customer.save db isNew c = some db1 →
      commitOn true db isNew c (some t) ok err = (err, db1) ∧
      db1.transactions = db.transactions) ∧
    (∀ db1, Customer.save db isNew c = some db1 → t.valid →
      commitOn false db isNew c (some t) ok err =
        (ok, { customers := db1.customers, transactions := db.transactions ++ [t] })) ∧
    commitOn false db isNew c (some t) ok err = commit db isNew c (some t) ok err := by
  refine ⟨?_, ?_, ?_, commitOn_accepting db isNew c (some t) ok err⟩
  · intro h
    simp [commitOn, h]
  · intro db1 h
    refine ⟨by simp [commitOn, h], ?_⟩
    unfold Customer.save at h
    split at h
    · exact absurd h (by simp)
    · split at h
      · split at h
        · exact absurd h (by simp)
        · simp only [Option.some.injEq] at h
          rw [← h]
      · simp only [Option.some.injEq] at h
        rw [← h]
  · intro db1 h ht
    have htx : db1.transactions = db.transactions := by
      unfold Customer.save at h
      split at h
      · exact absurd h (by simp)
      · split at h
        · split at h
          · exact absurd h (by simp)
          · simp only [Option.some.injEq] at h
            rw [← h]
        · simp only [Option.some.injEq] at h
          rw [← h]
    simp [commitOn, h, Transaction.save, ht, htx]

/-- C14, amended, on the redeem of 30 points by the sample customer. -/
theorem commitOn_writes_witness :
    Customer.save sampleDb false
        { sampleCustomer with pointsBalance := 20, totalPointsRedeemed := 30 } =
      some { customers := [{ sampleCustomer with pointsBalance := 20, totalPointsRedeemed := 30 }],
             transactions := sampleDb.transactions } ∧
    commitOn true sampleDb false
        { sampleCustomer with pointsBalance := 20, totalPointsRedeemed := 30 }
        (some (redeemTransaction sampleEnv "7001" "demo.myshopify.com" (JsVal.num (JsNum.int 30))
          { sampleCustomer with pointsBalance := 20, totalPointsRedeemed := 30 } (-30)))
        (redeemResponse sampleEnv (JsVal.num (JsNum.int 30))
          { sampleCustomer with pointsBalance := 20, totalPointsRedeemed := 30 })
        internalError =
      (internalError,
        { customers := [{ sampleCustomer with pointsBalance := 20, totalPointsRedeemed := 30 }],
          transactions := sampleDb.transactions }) :=
  ⟨by decide,
   ((commitOn_writes true sampleDb false
      { sampleCustomer with pointsBalance := 20, totalPointsRedeemed := 30 }
      (redeemTransaction sampleEnv "7001" "demo.myshopify.com" (JsVal.num (JsNum.int 30))
        { sampleCustomer with pointsBalance := 20, totalPointsRedeemed := 30 } (-30))
      (redeemResponse sampleEnv (JsVal.num (JsNum.int 30))
        { sampleCustomer with pointsBalance := 20, totalPointsRedeemed := 30 })
      internalError).2.1 _ (by decide)).1⟩

theorem cumulativeTable_mem (acc : ℚ) (rs : List Reward) :
    ∀ e ∈ cumulativeTable acc rs, e.1 ∈ rs ∧ e.1.isActive = true := by
  induction rs generalizing acc with
  | nil => intro e he; simp [cumulativeTable] at he
  | cons r rs ih =>
    intro e he
    by_cases ha : r.isActive = true
    · simp only [cumulativeTable, ha, if_true, List.mem_cons] at he
      rcases he with he | he
      · rw [he]; exact ⟨List.mem_cons_self _ _, ha⟩
      · exact ⟨List.mem_cons_of_mem _ (ih _ e he).1, (ih _ e he).2⟩
    · simp only [cumulativeTable, ha] at he
      exact ⟨List.mem_cons_of_mem _ (ih _ e he).1, (ih _ e he).2⟩

theorem cumulativeTable_active (acc : ℚ) (rs : List Reward) :
    (cumulativeTable acc rs).map (fun e => e.1) = rs.filter (fun r => r.isActive) := by
  induction rs generalizing acc with
  | nil => rfl
  | cons r rs ih =>
    by_cases ha : r.isActive = true
    · simp [cumulativeTable, ha, ih]
    · simp [cumulativeTable, ha, ih]

theorem cumulativeTable_lower (acc : ℚ) (rs : List Reward)
    (hp : ∀ r ∈ rs, 0 ≤ r.probability) :
    ∀ e ∈ cumulativeTable acc rs, acc ≤ e.2 - e.1.probability := by
  induction rs generalizing acc with
  | nil => intro e he; simp [cumulativeTable] at he
  | cons r rs ih =>
    have hp1 : ∀ r ∈ rs, 0 ≤ r.probability := fun x hx => hp x (List.mem_cons_of_mem _ hx)
    have hr : 0 ≤ r.probability := hp r (List.mem_cons_self _ _)
    intro e he
    by_cases ha : r.isActive = true
    · simp only [cumulativeTable, ha, if_true, List.mem_cons] at he
      rcases he with he | he
      · rw [he]; simp
      · have := ih (acc + r.probability) hp1 e he
        linarith
    · simp only [cumulativeTable, ha] at he
      exact ih acc hp1 e he

theorem find_cumulativeTable_iff (acc : ℚ) (rs : List Reward) (draw : ℚ)
    (hp : ∀ r ∈ rs, 0 ≤ r.probability) (hacc : acc ≤ draw) :
    ∀ e ∈ cumulativeTable acc rs,
      ((cumulativeTable acc rs).find? (fun e => decide (draw < e.2)) = some e ↔
        e.2 - e.1.probability ≤ draw ∧ draw < e.2) := by
  induction rs generalizing acc with
  | nil => intro e he; simp [cumulativeTable] at he
  | cons r rs ih =>
    have hp1 : ∀ r ∈ rs, 0 ≤ r.probability := fun x hx => hp x (List.mem_cons_of_mem _ hx)
    intro e he
    by_cases ha : r.isActive = true
    · simp only [cumulativeTable, ha, if_true, List.mem_cons] at he ⊢
      by_cases hd : draw < acc + r.probability
      · have hfind : List.find? (fun e => decide (draw < e.2))
            ((r, acc + r.probability) :: cumulativeTable (acc + r.probability) rs)
            = some (r, acc + r.probability) := by
          simp [List.find?_cons, hd]
        rw [hfind]
        constructor
        · intro h
          simp only [Option.some.injEq] at h
          rw [← h]
          exact ⟨by simp; exact hacc, hd⟩
        · intro h
          rcases he with he | he
          · rw [he]
          · have := cumulativeTable_lower (acc + r.probability) rs hp1 e he
            linarith [h.1]
      · have hfind : List.find? (fun e => decide (draw < e.2))
            ((r, acc + r.probability) :: cumulativeTable (acc + r.probability) rs)
            = List.find? (fun e => decide (draw < e.2))
                (cumulativeTable (acc + r.probability) rs) := by
          simp [List.find?_cons, hd]
        rw [hfind]
        rcases he with he | he
        · rw [he]
          constructor
          · intro h
            have := List.find?_some h
            simp only [decide_eq_true_eq] at this
            exact absurd this hd
          · intro h
            exact absurd h.2 hd
        · exact ih (acc + r.probability) hp1 (by linarith) e he
    · simp only [cumulativeTable, ha] at he ⊢
      exact ih acc hp1 hacc e he

theorem totalWeight_cons (r : Reward) (rs : List Reward) :
    totalWeight (r :: rs) = (if r.isActive then r.probability else 0) + totalWeight rs := by
  by_cases ha : r.isActive = true
  · simp [totalWeight, ha, List.filter_cons]
  · simp [totalWeight, ha, List.filter_cons]

theorem find_cumulativeTable_some (acc : ℚ) (rs : List Reward) (draw : ℚ)
    (hacc : acc ≤ draw) (h : draw < acc + totalWeight rs) :
    ∃ e, (cumulativeTable acc rs).find? (fun e => decide (draw < e.2)) = some e := by
  induction rs generalizing acc with
  | nil =>
    simp only [totalWeight, List.filter_nil, List.map_nil, List.sum_nil, add_zero] at h
    linarith
  | cons r rs ih =>
    rw [totalWeight_cons] at h
    by_cases ha : r.isActive = true
    · simp only [ha, if_true] at h
      by_cases hd : draw < acc + r.probability
      · exact ⟨(r, acc + r.probability), by simp [cumulativeTable, ha, List.find?_cons, hd]⟩
      · obtain ⟨e, he⟩ := ih (acc + r.probability) (by linarith) (by linarith)
        exact ⟨e, by simp [cumulativeTable, ha, List.find?_cons, hd, he]⟩
    · simp only [ha] at h
      obtain ⟨e, he⟩ := ih acc hacc (by simpa using h)
      exact ⟨e, by simp [cumulativeTable, ha, he]⟩

/-- C16: for a catalog whose probabilities are not negative and a customer who is
eligible, `resolveSpin` fails with `NoRewardsConfigured` when `totalWeight` is 0;
for a draw in `[0, totalWeight)` it selects an entry of the cumulative table,
which lists the active rewards in catalog order: the first entry whose
cumulative bound exceeds the draw.  That entry is an active reward of the
catalog, and an entry with probability `p` and cumulative bound `b` is the
selected one exactly for the draws in `[b - p, b)`, an interval of length `p`. -/
theorem spin_weighted_draw (dayOf : Nat → Nat) (now : Nat) (catalog : SpinWheel) (draw : ℚ)
    (customer : Customer) (hp : ∀ r ∈ catalog.rewards, 0 ≤ r.probability)
    (he : checkEligibility dayOf now catalog.settings.minimumOrdersRequired customer = true) :
    (totalWeight catalog.rewards = 0 →
      resolveSpin dayOf now catalog draw customer = SpinResult.noRewardsConfigured) ∧
    (cumulativeTable 0 catalog.rewards).map (fun e => e.1)
      = catalog.rewards.filter (fun r => r.isActive) ∧
    selectEntry catalog.rewards draw
      = (cumulativeTable 0 catalog.rewards).find? (fun e => decide (draw < e.2)) ∧
    (0 ≤ draw → draw < totalWeight catalog.rewards →
      ∃ e, selectEntry catalog.rewards draw = some e ∧
        e ∈ cumulativeTable 0 catalog.rewards ∧ e.1 ∈ catalog.rewards ∧ e.1.isActive = true ∧
        e.2 - e.1.probability ≤ draw ∧ draw < e.2 ∧
        resolveSpin dayOf now catalog draw customer =
          SpinResult.resolved (some e.1) { customer with lastSpinDate := some now }) ∧
    (0 ≤ draw → ∀ e ∈ cumulativeTable 0 catalog.rewards,
      (selectEntry catalog.rewards draw = some e ↔ e.2 - e.1.probability ≤ draw ∧ draw < e.2)) := by
  refine ⟨?_, cumulativeTable_active 0 catalog.rewards, rfl, ?_, ?_⟩
  · intro h0
    simp [resolveSpin, he, h0]
  · intro hd0 hd1
    obtain ⟨e, hfind⟩ := find_cumulativeTable_some 0 catalog.rewards draw hd0 (by linarith)
    have hmem : e ∈ cumulativeTable 0 catalog.rewards := List.mem_of_find?_eq_some hfind
    obtain ⟨hlow, hup⟩ :=
      (find_cumulativeTable_iff 0 catalog.rewards draw hp hd0 e hmem).mp hfind
    have hne : totalWeight catalog.rewards ≠ 0 := by
      intro h0; rw [h0] at hd1; linarith
    refine ⟨e, hfind, hmem, (cumulativeTable_mem 0 _ e hmem).1, (cumulativeTable_mem 0 _ e hmem).2,
      hlow, hup, ?_⟩
    have hsel : selectEntry catalog.rewards draw = some e := hfind
    simp [resolveSpin, he, hne, hsel]
  · intro hd0 e hmem
    exact find_cumulativeTable_iff 0 catalog.rewards draw hp hd0 e hmem

theorem totalWeight_default : totalWeight defaultRewards = 100 := by
  simp [totalWeight, defaultRewards]; norm_num

/-- C16, on the default catalog and a draw of 35: an active reward whose
interval holds 35 is selected. -/
theorem spin_weighted_draw_witness :
    totalWeight sampleCatalog.rewards = 100 ∧
    ∃ e, selectEntry sampleCatalog.rewards 35 = some e ∧
      e ∈ cumulativeTable 0 sampleCatalog.rewards ∧ e.1 ∈ sampleCatalog.rewards ∧
      e.1.isActive = true ∧ e.2 - e.1.probability ≤ 35 ∧ (35 : ℚ) < e.2 ∧
      resolveSpin utcDay 1700000000000 sampleCatalog 35 freshCustomer =
        SpinResult.resolved (some e.1) { freshCustomer with lastSpinDate := some 1700000000000 } :=
  ⟨totalWeight_default,
   (spin_weighted_draw utcDay 1700000000000 sampleCatalog 35 freshCustomer
      (by
        intro r hr
        simp only [sampleCatalog, defaultRewards, List.mem_cons, List.mem_singleton,
          List.mem_nil_iff, or_false] at hr
        rcases hr with h | h | h | h | h | h <;> rw [h] <;> norm_num)
      (by decide)).2.2.2.1 (by norm_num)
      (by
        have h : totalWeight sampleCatalog.rewards = 100 := totalWeight_default
        rw [h]; norm_num)⟩

theorem checkEligibility_after_spin (dayOf : Nat → Nat) (now later : Nat) (m : Int)
    (customer : Customer) (h : dayOf later = dayOf now) :
    checkEligibility dayOf later m { customer with lastSpinDate := some now } = false := by
  simp [checkEligibility, h]

/-- C17: `checkEligibility` reports a customer eligible exactly when
`lastSpinDate` is null or falls on a calendar day strictly before the current
day, and `totalOrders` is at least `minimumOrdersRequired`; `resolveSpin` fails
with `NotEligible` for a customer who is not eligible; and a spin that succeeds
sets `lastSpinDate` to the current time, so that at every later time of the same
calendar day the customer is not eligible and a second spin fails with
`NotEligible`. -/
theorem spin_eligibility (dayOf : Nat → Nat) (now : Nat) (catalog : SpinWheel) (draw : ℚ)
    (customer : Customer) :
    (checkEligibility dayOf now catalog.settings.minimumOrdersRequired customer = true ↔
      (customer.lastSpinDate = none ∨
        ∃ d, customer.lastSpinDate = some d ∧ dayOf d < dayOf now) ∧
      catalog.settings.minimumOrdersRequired ≤ customer.totalOrders) ∧
    (checkEligibility dayOf now catalog.settings.minimumOrdersRequired customer = false →
      resolveSpin dayOf now catalog draw customer = SpinResult.notEligible) ∧
    (∀ reward c1, resolveSpin dayOf now catalog draw customer = SpinResult.resolved reward c1 →
      checkEligibility dayOf now catalog.settings.minimumOrdersRequired customer = true ∧
      c1.lastSpinDate = some now ∧
      ∀ later draw2, dayOf later = dayOf now →
        checkEligibility dayOf later catalog.settings.minimumOrdersRequired c1 = false ∧
        resolveSpin dayOf later catalog draw2 c1 = SpinResult.notEligible) := by
  refine ⟨?_, ?_, ?_⟩
  · cases hl : customer.lastSpinDate with
    | none => simp [checkEligibility, hl]
    | some d => simp [checkEligibility, hl]
  · intro h
    simp [resolveSpin, h]
  · intro reward c1 hres
    by_cases he : checkEligibility dayOf now catalog.settings.minimumOrdersRequired customer
        = false
    · simp [resolveSpin, he] at hres
    · by_cases h0 : totalWeight catalog.rewards = 0
      · simp [resolveSpin, he, h0] at hres
      · simp only [resolveSpin, he, h0, if_false, SpinResult.resolved.injEq] at hres
        obtain ⟨_, rfl⟩ := hres
        refine ⟨by simpa using he, rfl, ?_⟩
        intro later draw2 hday
        have hnot := checkEligibility_after_spin dayOf now later
          catalog.settings.minimumOrdersRequired customer hday
        exact ⟨hnot, by simp only [resolveSpin, hnot, if_true]⟩

/-- C17, on the default catalog: a newly created customer spins at a time of day
19675 and is not eligible one hour later on the same day. -/
theorem spin_eligibility_witness :
    checkEligibility utcDay 1700000000000 sampleCatalog.settings.minimumOrdersRequired
      freshCustomer = true ∧
    utcDay 1700003600000 = utcDay 1700000000000 ∧
    ∀ reward c1,
      resolveSpin utcDay 1700000000000 sampleCatalog 35 freshCustomer
        = SpinResult.resolved reward c1 →
      checkEligibility utcDay 1700000000000 sampleCatalog.settings.minimumOrdersRequired
        freshCustomer = true ∧
      c1.lastSpinDate = some 1700000000000 ∧
      ∀ later draw2, utcDay later = utcDay 1700000000000 →
        checkEligibility utcDay later sampleCatalog.settings.minimumOrdersRequired c1 = false ∧
        resolveSpin utcDay later sampleCatalog draw2 c1 = SpinResult.notEligible :=
  ⟨by decide, by decide,
   (spin_eligibility utcDay 1700000000000 sampleCatalog 35 freshCustomer).2.2⟩

/-! ## Balance snapshot, amount checks and guest orders -/

/-- C24: for every shop (a non-empty `shop` parameter) and customer id,
`getBalance` answers 200 and writes nothing; when no Customer record exists the
snapshot has `pointsBalance` 0, `totalPointsEarned` 0, `totalOrders` 0 and
`isNew` set; when one exists the snapshot carries its stored `pointsBalance`,
`totalPointsEarned`, `totalPointsRedeemed` and `totalOrders`, with `isNew`
cleared. -/
theorem getBalance_snapshot (db : Db) (customerId shopDomain : String) (hs : shopDomain ≠ "") :
    (Customer.findOne db customerId shopDomain = none →
      getBalance db customerId (some shopDomain) =
        ((200, BalanceBody.unknown customerId 0 0 0 true), db)) ∧
    (∀ c, Customer.findOne db customerId shopDomain = some c →
      getBalance db customerId (some shopDomain) =
        ((200, BalanceBody.known c.shopifyCustomerId c.pointsBalance c.totalPointsEarned
          c.totalPointsRedeemed c.totalOrders c.lastSpinDate false), db)) := by
  constructor
  · intro hf
    simp only [getBalance, hs, if_false, hf]
  · intro c hf
    simp only [getBalance, hs, if_false, hf]

/-- C24, on the sample database: customer 7001 is stored, customer 7002 is not. -/
theorem getBalance_snapshot_witness :
    getBalance sampleDb "7002" (some "demo.myshopify.com") =
      ((200, BalanceBody.unknown "7002" 0 0 0 true), sampleDb) ∧
    getBalance sampleDb "7001" (some "demo.myshopify.com") =
      ((200, BalanceBody.known "7001" 50 50 0 1 none false), sampleDb) :=
  ⟨(getBalance_snapshot sampleDb "7002" "demo.myshopify.com" (by decide)).1 (by decide),
   (getBalance_snapshot sampleDb "7001" "demo.myshopify.com" (by decide)).2 sampleCustomer
     (by decide)⟩

/-- C25: a redeem request whose `pointsToRedeem` has a numeric value below 1 is
answered with status 400 and writes nothing, whatever the customer and the
balance: this holds for every request value whose numeric value is an integer
below 1 (zero and the negative integers), and the two checks in front of the
lookup answer 400 for every rational amount below 1, fractions included; on
integer amounts the answer of these checks is the answer of the route. -/
theorem redeem_below_one (env : Env) (db : Db) (body : RedeemBody) (n : Int) (q : ℚ)
    (hn : env.toNumber body.pointsToRedeem = JsNum.int n) (h1 : n < 1) (hq : q < 1) :
    ((redeem env db body).1.status = 400 ∧ (redeem env db body).2 = db) ∧
    (∃ r, redeemAmountCheck body.customerId q body.shopDomain = some r ∧ r.status = 400) ∧
    (∀ r, redeemAmountCheck body.customerId n body.shopDomain = some r →
      redeem env db ⟨body.customerId, JsVal.num (JsNum.int n), body.shopDomain⟩ = (r, db)) := by
  obtain ⟨cid, p, shop⟩ := body
  have hlt : (n : ℚ) < 1 := by exact_mod_cast h1
  refine ⟨?_, ?_, ?_⟩
  · cases cid with
    | none => simp [redeem]
    | some customerId =>
    cases shop with
    | none => simp [redeem]
    | some shopDomain =>
    by_cases hreq : customerId = "" ∨ p.truthy = false ∨ shopDomain = ""
    · simp [redeem, hreq]
    · have hn1 : env.toNumber p = JsNum.int n := hn
      simp [redeem, hreq, hn1, JsNum.lt, h1]
  · by_cases hreq : cid = none ∨ cid = some "" ∨ q = 0 ∨ shop = none ∨ shop = some ""
    · refine ⟨⟨400, Body.error "Customer ID, points to redeem, and shop domain required"⟩, ?_, rfl⟩
      unfold redeemAmountCheck
      rw [if_pos hreq]
    · refine ⟨⟨400, Body.error "Must redeem at least 1 point"⟩, ?_, rfl⟩
      unfold redeemAmountCheck
      rw [if_neg hreq, if_pos hq]
  · intro r hr
    cases cid with
    | none =>
      simp [redeemAmountCheck] at hr
      simp [redeem, hr]
    | some customerId =>
    cases shop with
    | none =>
      simp [redeemAmountCheck] at hr
      simp [redeem, hr]
    | some shopDomain =>
    by_cases hreq : customerId = "" ∨ n = 0 ∨ shopDomain = ""
    · have hreq1 : some customerId = none ∨ some customerId = some "" ∨ (n : ℚ) = 0 ∨
          some shopDomain = none ∨ some shopDomain = some "" := by
        rcases hreq with h | h | h
        · exact Or.inr (Or.inl (by rw [h]))
        · exact Or.inr (Or.inr (Or.inl (by exact_mod_cast h)))
        · exact Or.inr (Or.inr (Or.inr (Or.inr (by rw [h]))))
      unfold redeemAmountCheck at hr
      rw [if_pos hreq1] at hr
      simp only [Option.some.injEq] at hr
      have hreq2 : customerId = "" ∨ (JsVal.num (JsNum.int n)).truthy = false ∨ shopDomain = "" := by
        rcases hreq with h | h | h
        · exact Or.inl h
        · exact Or.inr (Or.inl (by simp [JsVal.truthy, h]))
        · exact Or.inr (Or.inr h)
      simp only [redeem, hreq2, if_true]
      rw [hr]
    · push_neg at hreq
      have hreq1 : ¬ (some customerId = none ∨ some customerId = some "" ∨ (n : ℚ) = 0 ∨
          some shopDomain = none ∨ some shopDomain = some "") := by
        intro h
        rcases h with h | h | h | h | h
        · exact absurd h (by simp)
        · exact hreq.1 (by simpa using h)
        · exact hreq.2.1 (by exact_mod_cast h)
        · exact absurd h (by simp)
        · exact hreq.2.2 (by simpa using h)
      unfold redeemAmountCheck at hr
      rw [if_neg hreq1, if_pos hlt] at hr
      simp only [Option.some.injEq] at hr
      have hreq2 : ¬ (customerId = "" ∨ (JsVal.num (JsNum.int n)).truthy = false ∨
          shopDomain = "") := by
        intro h
        rcases h with h | h | h
        · exact hreq.1 h
        · simp [JsVal.truthy, hreq.2.1] at h
        · exact hreq.2.2 h
      simp only [redeem, hreq2, if_false, Env.toNumber, JsNum.lt, h1, decide_True, if_true]
      rw [hr]

/-- C25, on the sample customer (balance 50): a redeem of -3 points is answered
400, and the checks answer 400 for one half of a point. -/
theorem redeem_below_one_witness :
    ((redeem sampleEnv sampleDb
        ⟨some "7001", JsVal.num (JsNum.int (-3)), some "demo.myshopify.com"⟩).1.status = 400 ∧
      (redeem sampleEnv sampleDb
        ⟨some "7001", JsVal.num (JsNum.int (-3)), some "demo.myshopify.com"⟩).2 = sampleDb) ∧
    (∃ r, redeemAmountCheck (some "7001") (1 / 2) (some "demo.myshopify.com") = some r ∧
      r.status = 400) ∧
    (∀ r, redeemAmountCheck (some "7001") ((-3 : Int) : ℚ) (some "demo.myshopify.com") = some r →
      redeem sampleEnv sampleDb
        ⟨some "7001", JsVal.num (JsNum.int (-3)), some "demo.myshopify.com"⟩ = (r, sampleDb)) :=
  redeem_below_one sampleEnv sampleDb
    ⟨some "7001", JsVal.num (JsNum.int (-3)), some "demo.myshopify.com"⟩ (-3) (1 / 2) rfl
    (by decide) (by norm_num)

/-- C26: a verified order-create event that carries no customer (a guest
checkout) is answered 200 with `OK - Guest order`, and the database is as it was:
no Customer is created or changed and no Transaction is appended. -/
theorem handleOrderCreate_guest (env : Env) (db : Db) (req : WebhookRequest)
    (hv : verifyWebhook env req.rawBody req.hmacHeader (webhookSecret env) = some true)
    (hoc : req.body.customer = none) :
    handleOrderCreate env db req = (⟨200, Body.text "OK - Guest order"⟩, db) := by
  simp only [handleOrderCreate, hv, hoc]

/-- C26, on a guest order delivered to the sample database. -/
theorem handleOrderCreate_guest_witness :
    verifyWebhook sampleEnv guestOrder.rawBody guestOrder.hmacHeader (webhookSecret sampleEnv)
      = some true ∧
    guestOrder.body.customer = none ∧
    handleOrderCreate sampleEnv sampleDb guestOrder =
      (⟨200, Body.text "OK - Guest order"⟩, sampleDb) :=
  ⟨by decide, rfl, handleOrderCreate_guest sampleEnv sampleDb guestOrder (by decide) rfl⟩

/-! ## An accepted award, followed by a cancellation or by a second delivery -/

/-- An order-create event that is answered 200 for an order with a customer has
written the Customer found (or the new one) with the award added, and has
appended the `earned` Transaction. -/
theorem handleOrderCreate_accepted (env : Env) (db : Db) (req : WebhookRequest)
    (oc : OrderCustomer) (hwf : db.wf)
    (hv : verifyWebhook env req.rawBody req.hmacHeader (webhookSecret env) = some true)
    (hoc : req.body.customer = some oc)
    (hok : (handleOrderCreate env db req).1.status = 200) :
    ∃ c1 : Customer,
      c1.valid ∧
      c1.pointsBalance =
        ((Customer.findOne db (toString oc.id) req.shopDomainHeader).getD
          (newCustomer db (toString oc.id) req.shopDomainHeader oc)).pointsBalance
          + pointsPerOrder env ∧
      c1.totalPointsEarned =
        ((Customer.findOne db (toString oc.id) req.shopDomainHeader).getD
          (newCustomer db (toString oc.id) req.shopDomainHeader oc)).totalPointsEarned
          + pointsPerOrder env ∧
      c1.totalOrders =
        ((Customer.findOne db (toString oc.id) req.shopDomainHeader).getD
          (newCustomer db (toString oc.id) req.shopDomainHeader oc)).totalOrders + 1 ∧
      Customer.findOne (handleOrderCreate env db req).2 (toString oc.id) req.shopDomainHeader
        = some c1 ∧
      (handleOrderCreate env db req).2.transactions = db.transactions ++
        [earnedTransaction (toString oc.id) req.shopDomainHeader req.body (pointsPerOrder env)
          c1] := by
  cases hf : Customer.findOne db (toString oc.id) req.shopDomainHeader with
  | some c =>
    obtain ⟨_, _, _, hk, hs⟩ := wf_found hwf hf
    rw [handleOrderCreate_existing env db req oc c hv hoc hf] at hok ⊢
    generalize hc1 : ({ c with pointsBalance := c.pointsBalance + pointsPerOrder env
                               totalPointsEarned := c.totalPointsEarned + pointsPerOrder env
                               totalOrders := c.totalOrders + 1 } : Customer) = c1 at hok ⊢
    by_cases hv1 : c1.valid
    · rw [commit_update db c1 _ _ _ hv1 (earnedTransaction_valid _ _ _ _ _ hk hs)]
      refine ⟨c1, hv1, by rw [← hc1]; rfl, by rw [← hc1]; rfl, by rw [← hc1]; rfl,
        findOne_replace _ hwf hf (by rw [← hc1]) (by rw [← hc1]) (by rw [← hc1]), rfl⟩
    · rw [commit_invalid _ _ _ _ _ _ hv1] at hok
      simp [webhookError] at hok
  | none =>
    rw [handleOrderCreate_new env db req oc hv hoc hf] at hok ⊢
    generalize hc1 : ({ newCustomer db (toString oc.id) req.shopDomainHeader oc with
                        pointsBalance := 0 + pointsPerOrder env
                        totalPointsEarned := 0 + pointsPerOrder env
                        totalOrders := 0 + 1 } : Customer) = c1 at hok ⊢
    have hk1 : c1.shopifyCustomerId = toString oc.id := by rw [← hc1]; rfl
    have hs1 : c1.shopDomain = req.shopDomainHeader := by rw [← hc1]; rfl
    by_cases hv1 : c1.valid
    · by_cases hu : ∀ d ∈ db.customers, d.shopifyCustomerId ≠ c1.shopifyCustomerId
      · rw [commit_insert db c1 _ _ _ hv1
          (earnedTransaction_valid _ _ _ _ _ (int_toString_ne oc.id) (hs1 ▸ hv1.2.1)) hu]
        have hfind := findOne_insert_same db c1
          (db.transactions ++ [earnedTransaction (toString oc.id) req.shopDomainHeader req.body
            (pointsPerOrder env) c1]) (by rw [hk1, hs1]; exact hf)
        rw [hk1, hs1] at hfind
        refine ⟨c1, hv1, ?_, ?_, ?_, hfind, rfl⟩
        · rw [← hc1]; show 0 + pointsPerOrder env = 0 + pointsPerOrder env; rfl
        · rw [← hc1]; show 0 + pointsPerOrder env = 0 + pointsPerOrder env; rfl
        · rw [← hc1]; show (0 : Int) + 1 = 0 + 1; rfl
      · push_neg at hu
        obtain ⟨d, hd, hk⟩ := hu
        rw [commit_duplicate _ _ _ _ _ d hd hk] at hok
        simp [webhookError] at hok
    · rw [commit_invalid _ _ _ _ _ _ hv1] at hok
      simp [webhookError] at hok

/-- An order-update event for a cancelled order of a stored customer whose
balance covers `pointsPerOrder` writes the Customer with the points and one
order removed, and appends the reversal Transaction. -/
theorem handleOrderUpdate_applied (env : Env) (db : Db) (req : WebhookRequest)
    (oc : OrderCustomer) (c : Customer) (hwf : db.wf)
    (hv : verifyWebhook env req.rawBody req.hmacHeader (webhookSecret env) = some true)
    (hoc : req.body.customer = some oc) (hcan : present req.body.cancelled_at)
    (hf : Customer.findOne db (toString oc.id) req.shopDomainHeader = some c)
    (hb : pointsPerOrder env ≤ c.pointsBalance) :
    ∃ c2 : Customer,
      c2.pointsBalance = c.pointsBalance - pointsPerOrder env ∧
      c2.totalOrders = c.totalOrders - 1 ∧
      c2.totalPointsEarned = c.totalPointsEarned ∧
      Customer.findOne (handleOrderUpdate env db req).2 (toString oc.id) req.shopDomainHeader
        = some c2 ∧
      (handleOrderUpdate env db req).2.transactions = db.transactions ++
        [reversalTransaction (toString oc.id) req.shopDomainHeader req.body (pointsPerOrder env)
          c2] ∧
      (handleOrderUpdate env db req).1.status = 200 := by
  obtain ⟨hcv, _, _, hk, hs⟩ := wf_found hwf hf
  have hv1 : Customer.valid { c with pointsBalance := c.pointsBalance - pointsPerOrder env, totalOrders := c.totalOrders - 1 } :=
    ⟨hcv.1, hcv.2.1, hcv.2.2.1, by show 0 ≤ c.pointsBalance - pointsPerOrder env; omega⟩
  rw [handleOrderUpdate_reversed env db req oc c hv hoc hcan hf hb,
    commit_update _ _ _ _ _ hv1 (reversalTransaction_valid _ _ _ _ _ hk hs)]
  generalize hc2 : ({ c with pointsBalance := c.pointsBalance - pointsPerOrder env
                             totalOrders := c.totalOrders - 1 } : Customer) = c2
  exact ⟨c2, by rw [← hc2], by rw [← hc2], by rw [← hc2],
    findOne_replace _ hwf hf (by rw [← hc2]) (by rw [← hc2]) (by rw [← hc2]), rfl, rfl⟩

/-- C27: when `handleOrderCreate` has awarded the points of an order (a verified
event with a customer, answered 200) and `handleOrderUpdate` then receives the
order as cancelled, for the same customer and shop and under the same setting,
the reversal removes `pointsPerOrder`, the amount that was awarded: the two
Transactions appended carry `points` of `pointsPerOrder` and `-pointsPerOrder`,
and the customer's `pointsBalance` and `totalOrders` are back at their values
from before the order (0 and 0 for a customer created by the order). -/
theorem award_then_reversal (env : Env) (db : Db) (req1 req2 : WebhookRequest)
    (oc : OrderCustomer) (hwf : db.wf)
    (hv1 : verifyWebhook env req1.rawBody req1.hmacHeader (webhookSecret env) = some true)
    (hv2 : verifyWebhook env req2.rawBody req2.hmacHeader (webhookSecret env) = some true)
    (hoc1 : req1.body.customer = some oc) (hoc2 : req2.body.customer = some oc)
    (hshop : req2.shopDomainHeader = req1.shopDomainHeader)
    (hcan : present req2.body.cancelled_at)
    (hok : (handleOrderCreate env db req1).1.status = 200) :
    ∃ c2 t1 t2,
      Customer.findOne (handleOrderUpdate env (handleOrderCreate env db req1).2 req2).2
        (toString oc.id) req1.shopDomainHeader = some c2 ∧
      (handleOrderUpdate env (handleOrderCreate env db req1).2 req2).2.transactions
        = db.transactions ++ [t1, t2] ∧
      t1.type = TransactionType.earned ∧ t1.points = pointsPerOrder env ∧
      t2.type = TransactionType.adjustment ∧ t2.points = -pointsPerOrder env ∧
      (∀ c, Customer.findOne db (toString oc.id) req1.shopDomainHeader = some c →
        c2.pointsBalance = c.pointsBalance ∧ c2.totalOrders = c.totalOrders) ∧
      (Customer.findOne db (toString oc.id) req1.shopDomainHeader = none →
        c2.pointsBalance = 0 ∧ c2.totalOrders = 0) := by
  obtain ⟨c1, hc1v, hb1, _, ho1, hf1, ht1⟩ :=
    handleOrderCreate_accepted env db req1 oc hwf hv1 hoc1 hok
  have hwf1 : (handleOrderCreate env db req1).2.wf :=
    step_wf hwf (handleOrderCreate_step env db req1)
  have h0 : 0 ≤ ((Customer.findOne db (toString oc.id) req1.shopDomainHeader).getD
      (newCustomer db (toString oc.id) req1.shopDomainHeader oc)).pointsBalance := by
    cases hf : Customer.findOne db (toString oc.id) req1.shopDomainHeader with
    | some c => exact (hwf.1 c (findOne_mem hf)).2.2.2
    | none => exact le_refl 0
  rw [← hshop] at hf1
  obtain ⟨c2, hb2, ho2, _, hf2, ht2, _⟩ :=
    handleOrderUpdate_applied env _ req2 oc c1 hwf1 hv2 hoc2 hcan hf1 (by rw [hb1]; omega)
  rw [hshop] at hf2
  refine ⟨c2,
    earnedTransaction (toString oc.id) req1.shopDomainHeader req1.body (pointsPerOrder env) c1,
    reversalTransaction (toString oc.id) req2.shopDomainHeader req2.body (pointsPerOrder env) c2,
    hf2, ?_, ?_, ?_, ?_, ?_, ?_, ?_⟩
  · rw [ht2, ht1, List.append_assoc]
    rfl
  · rfl
  · rfl
  · rfl
  · rfl
  · intro c hf
    rw [hf] at hb1 ho1
    simp only [Option.getD_some] at hb1 ho1
    exact ⟨by rw [hb2, hb1]; omega, by rw [ho2, ho1]; omega⟩
  · intro hf
    rw [hf] at hb1 ho1
    simp only [Option.getD_none] at hb1 ho1
    have e1 : (newCustomer db (toString oc.id) req1.shopDomainHeader oc).pointsBalance = 0 := rfl
    have e2 : (newCustomer db (toString oc.id) req1.shopDomainHeader oc).totalOrders = 0 := rfl
    exact ⟨by rw [hb2, hb1, e1]; omega, by rw [ho2, ho1, e2]; omega⟩

/-- C27, on the example of the specification: a customer with balance 50 and one
order places an order and cancels it, and is back at balance 50 and one order. -/
theorem award_then_reversal_witness :
    (handleOrderCreate sampleEnv sampleDb (sampleOrder (some "ada@example.com") none)).1.status
      = 200 ∧
    ∃ c2 t1 t2,
      Customer.findOne
        (handleOrderUpdate sampleEnv
          (handleOrderCreate sampleEnv sampleDb (sampleOrder (some "ada@example.com") none)).2
          (sampleOrder (some "ada@example.com") (some "2024-05-01"))).2
        (toString (7001 : Int)) "demo.myshopify.com" = some c2 ∧
      (handleOrderUpdate sampleEnv
          (handleOrderCreate sampleEnv sampleDb (sampleOrder (some "ada@example.com") none)).2
          (sampleOrder (some "ada@example.com") (some "2024-05-01"))).2.transactions
        = sampleDb.transactions ++ [t1, t2] ∧
      t1.type = TransactionType.earned ∧ t1.points = pointsPerOrder sampleEnv ∧
      t2.type = TransactionType.adjustment ∧ t2.points = -pointsPerOrder sampleEnv ∧
      (∀ c, Customer.findOne sampleDb (toString (7001 : Int)) "demo.myshopify.com" = some c →
        c2.pointsBalance = c.pointsBalance ∧ c2.totalOrders = c.totalOrders) ∧
      (Customer.findOne sampleDb (toString (7001 : Int)) "demo.myshopify.com" = none →
        c2.pointsBalance = 0 ∧ c2.totalOrders = 0) :=
  ⟨by decide,
   award_then_reversal sampleEnv sampleDb (sampleOrder (some "ada@example.com") none)
    (sampleOrder (some "ada@example.com") (some "2024-05-01"))
    { id := 7001, email := some "ada@example.com", first_name := some "Ada", last_name := none }
    (by decide) (by decide) (by decide) rfl rfl rfl (by decide) (by decide)⟩

/-- C28: `handleOrderCreate` does not deduplicate on the order id.  When the same
verified order-create event is delivered twice and answered 200 both times, the
customer's `pointsBalance` and `totalPointsEarned` end `2 * pointsPerOrder`
higher and `totalOrders` 2 higher than before the first delivery (counted from 0
for a customer created by it), and two `earned` Transactions with the same
`orderId` are appended. -/
theorem handleOrderCreate_twice (env : Env) (db : Db) (req : WebhookRequest)
    (oc : OrderCustomer) (hwf : db.wf)
    (hv : verifyWebhook env req.rawBody req.hmacHeader (webhookSecret env) = some true)
    (hoc : req.body.customer = some oc)
    (hok1 : (handleOrderCreate env db req).1.status = 200)
    (hok2 : (handleOrderCreate env (handleOrderCreate env db req).2 req).1.status = 200) :
    ∃ c2 t1 t2,
      Customer.findOne (run db [Request.orderCreate env req, Request.orderCreate env req])
        (toString oc.id) req.shopDomainHeader = some c2 ∧
      c2.pointsBalance =
        ((Customer.findOne db (toString oc.id) req.shopDomainHeader).getD
          (newCustomer db (toString oc.id) req.shopDomainHeader oc)).pointsBalance
          + 2 * pointsPerOrder env ∧
      c2.totalPointsEarned =
        ((Customer.findOne db (toString oc.id) req.shopDomainHeader).getD
          (newCustomer db (toString oc.id) req.shopDomainHeader oc)).totalPointsEarned
          + 2 * pointsPerOrder env ∧
      c2.totalOrders =
        ((Customer.findOne db (toString oc.id) req.shopDomainHeader).getD
          (newCustomer db (toString oc.id) req.shopDomainHeader oc)).totalOrders + 2 ∧
      (run db [Request.orderCreate env req, Request.orderCreate env req]).transactions
        = db.transactions ++ [t1, t2] ∧
      t1.type = TransactionType.earned ∧ t2.type = TransactionType.earned ∧
      t1.points = pointsPerOrder env ∧ t2.points = pointsPerOrder env ∧
      t1.orderId = some (toString req.body.id) ∧ t2.orderId = t1.orderId := by
  obtain ⟨c1, _, hb1, he1, ho1, hf1, ht1⟩ :=
    handleOrderCreate_accepted env db req oc hwf hv hoc hok1
  have hwf1 : (handleOrderCreate env db req).2.wf :=
    step_wf hwf (handleOrderCreate_step env db req)
  obtain ⟨c2, _, hb2, he2, ho2, hf2, ht2⟩ :=
    handleOrderCreate_accepted env _ req oc hwf1 hv hoc hok2
  rw [hf1] at hb2 he2 ho2
  simp only [Option.getD_some] at hb2 he2 ho2
  refine ⟨c2,
    earnedTransaction (toString oc.id) req.shopDomainHeader req.body (pointsPerOrder env) c1,
    earnedTransaction (toString oc.id) req.shopDomainHeader req.body (pointsPerOrder env) c2,
    hf2, by rw [hb2, hb1]; omega, by rw [he2, he1]; omega,
    by rw [ho2, ho1]; omega, ?_, ?_, ?_, ?_, ?_, ?_, ?_⟩
  · show (handleOrderCreate env (handleOrderCreate env db req).2 req).2.transactions = _
    rw [ht2, ht1, List.append_assoc]
    rfl
  · rfl
  · rfl
  · rfl
  · rfl
  · rfl
  · rfl

/-- C28, on the sample customer (balance 50, one order): two deliveries of order
9001 leave balance 150 and three orders. -/
theorem handleOrderCreate_twice_witness :
    (handleOrderCreate sampleEnv sampleDb (sampleOrder (some "ada@example.com") none)).1.status
      = 200 ∧
    ∃ c2 t1 t2,
      Customer.findOne
        (run sampleDb
          [Request.orderCreate sampleEnv (sampleOrder (some "ada@example.com") none),
           Request.orderCreate sampleEnv (sampleOrder (some "ada@example.com") none)])
        (toString (7001 : Int)) "demo.myshopify.com" = some c2 ∧
      c2.pointsBalance =
        ((Customer.findOne sampleDb (toString (7001 : Int)) "demo.myshopify.com").getD
          (newCustomer sampleDb (toString (7001 : Int)) "demo.myshopify.com"
            { id := 7001, email := some "ada@example.com", first_name := some "Ada",
              last_name := none })).pointsBalance
          + 2 * pointsPerOrder sampleEnv ∧
      c2.totalPointsEarned =
        ((Customer.findOne sampleDb (toString (7001 : Int)) "demo.myshopify.com").getD
          (newCustomer sampleDb (toString (7001 : Int)) "demo.myshopify.com"
            { id := 7001, email := some "ada@example.com", first_name := some "Ada",
              last_name := none })).totalPointsEarned
          + 2 * pointsPerOrder sampleEnv ∧
      c2.totalOrders =
        ((Customer.findOne sampleDb (toString (7001 : Int)) "demo.myshopify.com").getD
          (newCustomer sampleDb (toString (7001 : Int)) "demo.myshopify.com"
            { id := 7001, email := some "ada@example.com", first_name := some "Ada",
              last_name := none })).totalOrders + 2 ∧
      (run sampleDb
          [Request.orderCreate sampleEnv (sampleOrder (some "ada@example.com") none),
           Request.orderCreate sampleEnv (sampleOrder (some "ada@example.com") none)]).transactions
        = sampleDb.transactions ++ [t1, t2] ∧
      t1.type = TransactionType.earned ∧ t2.type = TransactionType.earned ∧
      t1.points = pointsPerOrder sampleEnv ∧ t2.points = pointsPerOrder sampleEnv ∧
      t1.orderId = some (toString (sampleOrder (some "ada@example.com") none).body.id) ∧
      t2.orderId = t1.orderId :=
  ⟨by decide,
   handleOrderCreate_twice sampleEnv sampleDb (sampleOrder (some "ada@example.com") none)
    { id := 7001, email := some "ada@example.com", first_name := some "Ada", last_name := none }
    (by decide) (by decide) rfl (by decide) (by decide)⟩

/-! ## Properties of the stored Customers that every request preserves -/

theorem commit_preserves (Q : Customer → Prop) (db : Db) (isNew : Bool) (c : Customer)
    (t : Option Transaction) (ok err : Response) (h0 : ∀ d ∈ db.customers, Q d)
    (hc : c.valid → Q c) : ∀ d ∈ (commit db isNew c t ok err).2.customers, Q d := by
  by_cases hv : c.valid
  · rcases commit_customers db isNew c t ok err with h | ⟨_, h⟩ | ⟨_, _, h⟩
    · rw [h]; exact h0
    · rw [h]
      intro d hd
      rcases mem_replaceById hd with h1 | h1
      · rw [h1]; exact hc hv
      · exact h0 d h1
    · rw [h]
      intro d hd
      rcases List.mem_append.mp hd with h1 | h1
      · exact h0 d h1
      · simp only [List.mem_singleton] at h1
        rw [h1]; exact hc hv
  · rw [commit_invalid db isNew c t ok err hv]; exact h0

/-- A property of Customers holds for every stored Customer after a request when
it holds before and each of the five writes keeps it: the redeem, the adjust, the
award to a stored customer, the award to a new customer and the reversal. -/
theorem handle_preserves (Q : Customer → Prop) (db : Db) (r : Request)
    (h0 : ∀ d ∈ db.customers, Q d)
    (hredeem : ∀ env body c n total, r = Request.redeem env body → Q c →
      env.toNumber body.pointsToRedeem = JsNum.int n → 1 ≤ n → n ≤ c.pointsBalance →
      env.castNumber (env.plus c.totalPointsRedeemed body.pointsToRedeem) = some total →
      Q { c with pointsBalance := c.pointsBalance - n, totalPointsRedeemed := total })
    (hadjust : ∀ env body c d, r = Request.adjust env body → Q c →
      body.points.parseInt = JsNum.int d → 0 ≤ c.pointsBalance + d →
      Q { c with pointsBalance := c.pointsBalance + d,
                 totalPointsEarned :=
                  if 0 < d then c.totalPointsEarned + d else c.totalPointsEarned })
    (hcreate : ∀ env req c, r = Request.orderCreate env req → Q c →
      0 ≤ c.pointsBalance + pointsPerOrder env →
      Q { c with pointsBalance := c.pointsBalance + pointsPerOrder env,
                 totalPointsEarned := c.totalPointsEarned + pointsPerOrder env,
                 totalOrders := c.totalOrders + 1 })
    (hnew : ∀ env req k s oc, r = Request.orderCreate env req → 0 ≤ 0 + pointsPerOrder env →
      Q { newCustomer db k s oc with pointsBalance := 0 + pointsPerOrder env,
                                     totalPointsEarned := 0 + pointsPerOrder env,
                                     totalOrders := 0 + 1 })
    (hupdate : ∀ env req c, r = Request.orderUpdate env req → Q c →
      pointsPerOrder env ≤ c.pointsBalance →
      Q { c with pointsBalance := c.pointsBalance - pointsPerOrder env,
                 totalOrders := c.totalOrders - 1 }) :
    ∀ d ∈ (handle db r).2.customers, Q d := by
  cases r with
  | redeem env body =>
    show ∀ d ∈ (redeem env db body).2.customers, Q d
    rcases redeem_cases env db body with hc |
      ⟨_, _, customer, n, total, _, _, _, _, hf, hn, h1, h2, hcast, c1, hc1, _, he⟩
    · rw [hc.1]; exact h0
    · rw [he]
      intro d hd
      rcases mem_replaceById hd with h3 | h3
      · rw [h3, hc1]
        exact hredeem env body customer n total rfl (h0 _ (findOne_mem hf)) hn h1 h2 hcast
      · exact h0 d h3
  | adjust env body =>
    show ∀ d ∈ (adjust env db body).2.customers, Q d
    rcases adjust_cases env db body with hc |
      ⟨_, _, customer, d, _, _, _, _, hf, hd, hb, c1, hc1, _, he⟩
    · rw [hc.1]; exact h0
    · rw [he]
      intro e he1
      rcases mem_replaceById he1 with h3 | h3
      · rw [h3, hc1]
        exact hadjust env body customer d rfl (h0 _ (findOne_mem hf)) hd hb
      · exact h0 e h3
  | orderCreate env req =>
    show ∀ d ∈ (handleOrderCreate env db req).2.customers, Q d
    by_cases hv : verifyWebhook env req.rawBody req.hmacHeader (webhookSecret env) = some true
    · cases hoc : req.body.customer with
      | none => rw [handleOrderCreate_skipped env db req (Or.inr hoc)]; exact h0
      | some oc =>
        cases hf : Customer.findOne db (toString oc.id) req.shopDomainHeader with
        | some c =>
          rw [handleOrderCreate_existing env db req oc c hv hoc hf]
          exact commit_preserves Q _ _ _ _ _ _ h0
            (fun hv1 => hcreate env req c rfl (h0 _ (findOne_mem hf)) hv1.2.2.2)
        | none =>
          rw [handleOrderCreate_new env db req oc hv hoc hf]
          exact commit_preserves Q _ _ _ _ _ _ h0
            (fun hv1 => hnew env req _ _ oc rfl hv1.2.2.2)
    · rw [handleOrderCreate_skipped env db req (Or.inl hv)]; exact h0
  | orderUpdate env req =>
    show ∀ d ∈ (handleOrderUpdate env db req).2.customers, Q d
    rcases handleOrderUpdate_cases env db req with hc | ⟨oc, c, hv, hoc, hcan, hf, hb⟩
    · rw [hc]; exact h0
    · rw [handleOrderUpdate_reversed env db req oc c hv hoc hcan hf hb]
      exact commit_preserves Q _ _ _ _ _ _ h0
        (fun _ => hupdate env req c rfl (h0 _ (findOne_mem hf)) hb)

/-- Counter consistency is kept by every typed request, accepted or rejected. -/
theorem consistent_preserved (db : Db) (r : Request)
    (h0 : ∀ c ∈ db.customers, c.consistent) (hr : r.typed) :
    ∀ c ∈ (handle db r).2.customers, c.consistent := by
  apply handle_preserves Customer.consistent db r h0
  · intro env body c n total hreq hc hn _ _ hcast
    subst hreq
    obtain ⟨x, hx⟩ := hr
    rw [hx] at hn hcast
    have hxn : x = JsNum.int n := hn
    subst hxn
    have ht : total = c.totalPointsRedeemed + n := by
      simp only [Env.plus, Env.toNumber, JsNum.add, castNumber_int, Option.some.injEq] at hcast
      exact hcast.symm
    unfold Customer.consistent at hc ⊢
    show c.pointsBalance - n + total ≤ c.totalPointsEarned
    omega
  · intro env body c d _ hc _ _
    unfold Customer.consistent at hc ⊢
    by_cases hd : 0 < d
    · show c.pointsBalance + d + c.totalPointsRedeemed ≤
        (if 0 < d then c.totalPointsEarned + d else c.totalPointsEarned)
      rw [if_pos hd]; omega
    · show c.pointsBalance + d + c.totalPointsRedeemed ≤
        (if 0 < d then c.totalPointsEarned + d else c.totalPointsEarned)
      rw [if_neg hd]; omega
  · intro env req c _ hc _
    unfold Customer.consistent at hc ⊢
    show c.pointsBalance + pointsPerOrder env + c.totalPointsRedeemed ≤
      c.totalPointsEarned + pointsPerOrder env
    omega
  · intro env req k s oc _ _
    unfold Customer.consistent
    show 0 + pointsPerOrder env + 0 ≤ 0 + pointsPerOrder env
    omega
  · intro env req c hreq hc _
    subst hreq
    have hp : 0 < pointsPerOrder env := hr
    unfold Customer.consistent at hc ⊢
    show c.pointsBalance - pointsPerOrder env + c.totalPointsRedeemed ≤ c.totalPointsEarned
    omega

/-- C29 fails on a redeem whose `pointsToRedeem` arrives as a string.  The
customer has balance 50, 10 points redeemed and 60 earned, which is consistent;
the redeem of `"5"` is answered 200 and stores balance 45 and
`totalPointsRedeemed` 105 (the text `10` followed by the text `5`), so that
`pointsBalance + totalPointsRedeemed` exceeds `totalPointsEarned`.  The same
redeem with the number 5 stores `totalPointsRedeemed` 15. -/
theorem redeem_string_amount :
    returningCustomer.consistent ∧
    (redeem decimalEnv returningDb
      ⟨some "7001", JsVal.str "5", some "demo.myshopify.com"⟩).1.status = 200 ∧
    (redeem decimalEnv returningDb
      ⟨some "7001", JsVal.str "5", some "demo.myshopify.com"⟩).2.customers =
      [{ returningCustomer with pointsBalance := 45, totalPointsRedeemed := 105 }] ∧
    ¬ ({ returningCustomer with pointsBalance := 45, totalPointsRedeemed := 105 } :
      Customer).consistent ∧
    (redeem decimalEnv returningDb
      ⟨some "7001", JsVal.num (JsNum.int 5), some "demo.myshopify.com"⟩).2.customers =
      [{ returningCustomer with pointsBalance := 45, totalPointsRedeemed := 15 }] := by
  decide

/-- The order count of a customer whose balance is covered by its orders, under
a positive `pointsPerOrder`, is not negative. -/
theorem orders_nonneg_of_bound (p : Int) (hp : 0 < p) (c : Customer)
    (h : 0 ≤ c.pointsBalance ∧ c.pointsBalance ≤ p * c.totalOrders) : 0 ≤ c.totalOrders := by
  by_contra hneg
  push_neg at hneg
  have h1 : p * c.totalOrders ≤ p * (-1) :=
    mul_le_mul_of_nonneg_left (by omega) (le_of_lt hp)
  have h2 : p * (-1) = -p := by ring
  omega

/-- A request that credits no points outside an order keeps every balance within
`p` points per counted order. -/
theorem orderBound_preserved (p : Int) (db : Db) (r : Request)
    (h0 : ∀ c ∈ db.customers, 0 ≤ c.pointsBalance ∧ c.pointsBalance ≤ p * c.totalOrders)
    (hr : r.orderBound p) :
    ∀ c ∈ (handle db r).2.customers, 0 ≤ c.pointsBalance ∧ c.pointsBalance ≤ p * c.totalOrders := by
  apply handle_preserves
    (fun c => 0 ≤ c.pointsBalance ∧ c.pointsBalance ≤ p * c.totalOrders) db r h0
  · intro env body c n total _ hc _ h1 h2 _
    obtain ⟨hc1, hc2⟩ := hc
    refine ⟨?_, ?_⟩
    · show 0 ≤ c.pointsBalance - n
      omega
    · show c.pointsBalance - n ≤ p * c.totalOrders
      omega
  · intro env body c d hreq hc hd hb
    subst hreq
    have hd0 : d ≤ 0 := hr d hd
    obtain ⟨hc1, hc2⟩ := hc
    refine ⟨hb, ?_⟩
    show c.pointsBalance + d ≤ p * c.totalOrders
    omega
  · intro env req c hreq hc hb
    subst hreq
    have hp : pointsPerOrder env = p := hr
    obtain ⟨hc1, hc2⟩ := hc
    refine ⟨hb, ?_⟩
    show c.pointsBalance + pointsPerOrder env ≤ p * (c.totalOrders + 1)
    have h2 : p * (c.totalOrders + 1) = p * c.totalOrders + p := by ring
    omega
  · intro env req k s oc hreq hb
    subst hreq
    have hp : pointsPerOrder env = p := hr
    refine ⟨hb, ?_⟩
    show 0 + pointsPerOrder env ≤ p * (0 + 1)
    have h2 : p * (0 + 1) = p := by ring
    omega
  · intro env req c hreq hc hb
    subst hreq
    have hp : pointsPerOrder env = p := hr
    obtain ⟨hc1, hc2⟩ := hc
    refine ⟨?_, ?_⟩
    · show 0 ≤ c.pointsBalance - pointsPerOrder env
      omega
    · show c.pointsBalance - pointsPerOrder env ≤ p * (c.totalOrders - 1)
      have h2 : p * (c.totalOrders - 1) = p * c.totalOrders - p := by ring
      omega

theorem run_orderBound (p : Int) (db : Db) (reqs : List Request)
    (h0 : ∀ c ∈ db.customers, 0 ≤ c.pointsBalance ∧ c.pointsBalance ≤ p * c.totalOrders)
    (hr : ∀ r ∈ reqs, r.orderBound p) :
    ∀ c ∈ (run db reqs).customers, 0 ≤ c.pointsBalance ∧ c.pointsBalance ≤ p * c.totalOrders := by
  induction reqs generalizing db with
  | nil => exact h0
  | cons r rs ih =>
    exact ih _ (orderBound_preserved p db r h0 (hr r (List.mem_cons_self r rs)))
      (fun q hq => hr q (List.mem_cons_of_mem r hq))

/-- C30 fails as stated: a newly created customer (balance 0, no order) receives
an adjustment of +50 points; the cancellation of an order that was never awarded
then passes the balance guard, and `totalOrders` is stored as -1. -/
theorem totalOrders_negative :
    freshCustomer.pointsBalance = 0 ∧ freshCustomer.totalOrders = 0 ∧
    (run freshDb
      [ Request.adjust sampleEnv
          ⟨some "7001", JsVal.num (JsNum.int 50), none, some "demo.myshopify.com"⟩,
        Request.orderUpdate sampleEnv
          (sampleOrder (some "ada@example.com") (some "2024-05-01")) ]).customers =
      [{ freshCustomer with totalPointsEarned := 50, totalOrders := -1 }] := by
  decide

/-- C30, amended: under one positive setting `p` of `pointsPerOrder`, starting
from stored customers whose balance is within `p` points per counted order (a
newly created customer has balance 0 and no order), after every step of every
finite sequence of order awards, redeems, adjusts that add no points and
order-update events (cancellations of orders never awarded or already reversed
included), `totalOrders` is not negative. -/
theorem totalOrders_nonneg (p : Int) (hp : 0 < p) (db : Db) (reqs : List Request)
    (h0 : ∀ c ∈ db.customers, 0 ≤ c.pointsBalance ∧ c.pointsBalance ≤ p * c.totalOrders)
    (hr : ∀ r ∈ reqs, r.orderBound p) (n : Nat) :
    ∀ c ∈ (run db (reqs.take n)).customers, 0 ≤ c.totalOrders := by
  intro c hc
  exact orders_nonneg_of_bound p hp c
    (run_orderBound p db (reqs.take n) h0 (fun r h => hr r (List.mem_of_mem_take h)) c hc)

/-- C30, amended, on a newly created customer and the sample sequence: awards,
redeems, two adjustments that remove points and two cancellations. -/
theorem totalOrders_nonneg_witness :
    (∀ c ∈ freshDb.customers, 0 ≤ c.pointsBalance ∧ c.pointsBalance ≤ 50 * c.totalOrders) ∧
    ∀ c ∈ (run freshDb (sampleRequests.take 8)).customers, 0 ≤ c.totalOrders :=
  ⟨by decide,
   totalOrders_nonneg 50 (by decide) freshDb sampleRequests (by decide)
    (by
      intro r hr
      simp only [sampleRequests, List.mem_cons, List.mem_singleton, List.not_mem_nil,
        or_false] at hr
      rcases hr with h | h | h | h | h | h | h | h <;> subst h
      · show pointsPerOrder sampleEnv = 50
        decide
      · trivial
      · trivial
      · intro d hd
        have h1 : JsNum.int (-5) = JsNum.int d := hd
        simp only [JsNum.int.injEq] at h1
        omega
      · intro d hd
        have h1 : parseIntStr "-100" = JsNum.int d := hd
        have h2 : parseIntStr "-100" = JsNum.int (-100) := by decide
        rw [h2] at h1
        simp only [JsNum.int.injEq] at h1
        omega
      · show pointsPerOrder sampleEnv = 50
        decide
      · show pointsPerOrder sampleEnv = 50
        decide
      · show pointsPerOrder sampleEnv = 50
        decide)
    8⟩

/-! ## The catalog routes -/

theorem wheel_findOne_mem {store : List SpinWheel} {s : String} {w : SpinWheel}
    (h : SpinWheel.findOne store s = some w) : w ∈ store ∧ w.shopDomain = s := by
  unfold SpinWheel.findOne at h
  exact ⟨List.mem_of_find?_eq_some h, by simpa using List.find?_some h⟩

theorem findOne_replaceWheel (store : List SpinWheel) (s : String) (w w1 : SpinWheel)
    (h : SpinWheel.findOne store s = some w) (h1 : w1.shopDomain = s) :
    SpinWheel.findOne (replaceWheel store w1) s = some w1 := by
  induction store with
  | nil => simp [SpinWheel.findOne] at h
  | cons v vs ih =>
    unfold SpinWheel.findOne at h ih ⊢
    by_cases hv : v.shopDomain = s
    · have hv1 : v.shopDomain = w1.shopDomain := by rw [hv, h1]
      simp only [replaceWheel, hv1, if_true, List.find?_cons, h1, decide_True]
    · have hv1 : ¬ v.shopDomain = w1.shopDomain := by rw [h1]; exact hv
      simp only [List.find?_cons, hv, decide_False] at h
      simp only [replaceWheel, hv1, if_false, List.find?_cons, hv, decide_False]
      exact ih h

theorem findOne_append_wheel (store : List SpinWheel) (s : String) (w1 : SpinWheel)
    (h : SpinWheel.findOne store s = none) (h1 : w1.shopDomain = s) :
    SpinWheel.findOne (store ++ [w1]) s = some w1 := by
  unfold SpinWheel.findOne at h ⊢
  rw [List.find?_append, h]
  simp [List.find?_cons, h1]

theorem ofString_ne_empty {t : String} {ty : RewardType} (h : RewardType.ofString t = some ty) :
    t ≠ "" := by
  intro ht
  rw [ht] at h
  simp [RewardType.ofString] at h

theorem defaultRewards_valid : ∀ r ∈ defaultRewards, r.valid := by
  intro r hr
  simp only [defaultRewards, List.mem_cons, List.mem_singleton, List.not_mem_nil, or_false] at hr
  rcases hr with h | h | h | h | h | h <;> subst h <;>
    exact ⟨by decide, by decide, by norm_num, by norm_num⟩

/-- An add request whose fields are present, whose type is a member of the enum,
whose value is a number and whose probability is a truthy number in `[0, 100]`
is accepted: the reward is stored in the catalog of the shop. -/
theorem addReward_accepted (env : CatalogEnv) (store : List SpinWheel) (body : RewardBody)
    (s t l : String) (ty : RewardType) (v p : ℚ) (hst : ∀ w ∈ store, w.valid)
    (hs : body.shopDomain = some s) (hs0 : s ≠ "") (ht : body.type = some t)
    (hty : RewardType.ofString t = some ty) (hl : body.label = some l) (hl0 : l ≠ "")
    (hv : env.parseFloat body.value = some v) (hp : env.parseFloat body.probability = some p)
    (htr : body.probability.truthy = true) (h0 : 0 ≤ p) (h100 : p ≤ 100) :
    ∃ w1 : SpinWheel,
      (addReward env store body).1 =
        (200, CatalogBody.saved
          { id := t ++ ("_" ++ toString env.now), type := ty, value := v, label := l,
            probability := p, color := colorOr body.color "#3b82f6", isActive := true }) ∧
      SpinWheel.findOne (addReward env store body).2 s = some w1 ∧
      ({ id := t ++ ("_" ++ toString env.now), type := ty, value := v, label := l,
         probability := p, color := colorOr body.color "#3b82f6", isActive := true } : Reward)
        ∈ w1.rewards := by
  have ht0 : t ≠ "" := ofString_ne_empty hty
  have hvu : body.value ≠ FieldVal.undefined := by
    intro h
    rw [h] at hv
    simp [CatalogEnv.parseFloat] at hv
  have hreq : ¬ (s = "" ∨ t = "" ∨ body.value = FieldVal.undefined ∨ l = ""
      ∨ body.probability.truthy = false) := by
    rw [htr]
    simp [hs0, ht0, hvu, hl0]
  generalize hr : (Reward.mk (t ++ ("_" ++ toString env.now)) ty v l p (colorOr body.color "#3b82f6") true) = r
  have hrv : r.valid := by
    rw [← hr]
    exact ⟨append_ne_empty _ _ ht0, hl0, h0, h100⟩
  have hcast : castReward (some (t ++ ("_" ++ toString env.now))) (some t)
      (env.parseFloat body.value) (some l) (env.parseFloat body.probability)
      (colorOr body.color "#3b82f6") true = some r := by
    rw [hv, hp, ← hr]
    simp [castReward, hty]
  cases hf : SpinWheel.findOne store s with
  | some w =>
    obtain ⟨hw, hws⟩ := wheel_findOne_mem hf
    have hwv : SpinWheel.valid { w with rewards := w.rewards ++ [r] } := by
      refine ⟨(hst w hw).1, ?_⟩
      intro q hq
      rcases List.mem_append.mp hq with h | h
      · exact (hst w hw).2 q h
      · simp only [List.mem_singleton] at h
        rw [h]; exact hrv
    refine ⟨{ w with rewards := w.rewards ++ [r] }, ?_, ?_, ?_⟩
    · simp [addReward, hs, ht, hl, hreq, hf, hcast, SpinWheel.save, hwv]
    · simp only [addReward, hs, ht, hl, hreq, if_false, hf, hcast, SpinWheel.save, hwv,
        not_true_eq_false, Option.isNone_some, Bool.false_eq_true]
      exact findOne_replaceWheel store s w _ hf hws
    · simp
  | none =>
    have hwv : SpinWheel.valid { shopDomain := s, rewards := [r], settings := defaultSettings } := by
      refine ⟨hs0, ?_⟩
      intro q hq
      simp only [List.mem_singleton] at hq
      rw [hq]; exact hrv
    refine ⟨{ shopDomain := s, rewards := [r], settings := defaultSettings }, ?_, ?_, ?_⟩
    · simp [addReward, hs, ht, hl, hreq, hf, hcast, SpinWheel.save, hwv]
    · simp only [addReward, hs, ht, hl, hreq, if_false, hf, hcast, SpinWheel.save, hwv,
        not_true_eq_false, Option.isNone_none, if_true, List.nil_append]
      exact findOne_append_wheel store s _ hf rfl
    · simp

/-- A reward whose `value` is not a number is not stored by the add route. -/
theorem addReward_value_nan (env : CatalogEnv) (store : List SpinWheel) (body : RewardBody)
    (hv : env.parseFloat body.value = none) :
    (addReward env store body).1.1 ≠ 200 ∧ (addReward env store body).2 = store := by
  cases hs : body.shopDomain with
  | none => simp [addReward, hs]
  | some s =>
  cases ht : body.type with
  | none => simp [addReward, hs, ht]
  | some t =>
  cases hl : body.label with
  | none => simp [addReward, hs, ht, hl]
  | some l =>
  by_cases hreq : s = "" ∨ t = "" ∨ body.value = FieldVal.undefined ∨ l = ""
      ∨ body.probability.truthy = false
  · simp [addReward, hs, ht, hl, hreq]
  · have hcast : castReward (some (t ++ ("_" ++ toString env.now))) (some t)
        (env.parseFloat body.value) (some l) (env.parseFloat body.probability)
        (colorOr body.color "#3b82f6") true = none := by
      rw [hv]
      simp [castReward]
    simp [addReward, hs, ht, hl, hreq, hcast, catalogError]

/-- The update route stores nothing and never answers 200: the object it assigns
has no `id`, so that `save()` rejects it whenever the reward is found. -/
theorem updateReward_rejects (env : CatalogEnv) (store : List SpinWheel) (rewardId : String)
    (body : RewardBody) :
    (updateReward env store rewardId body).1.1 ≠ 200 ∧
      (updateReward env store rewardId body).2 = store := by
  cases hf : body.shopDomain.bind (SpinWheel.findOne store) with
  | none => simp [updateReward, hf]
  | some w =>
  cases hold : w.rewards.find? (fun r => decide (r.id = rewardId)) with
  | none => simp [updateReward, hf, hold]
  | some old => simp [updateReward, hf, hold, castReward, catalogError]

theorem sampleCatalog_valid : ∀ w ∈ [sampleCatalog], w.valid := by
  intro w hw
  simp only [List.mem_singleton] at hw
  rw [hw]
  exact ⟨by decide, defaultRewards_valid⟩

/-- C21 fails on both routes.  On the add route, with every other field
acceptable, a request with the probability sent as the number 0 is answered 400
`All fields are required` and the catalog stays as it was, although 0 lies in
`[0, 100]`; the same request with the probability sent as the string `0` is
accepted.  On the update route, a request for the stored reward `better_luck`
with the probability 25 and every other field acceptable is answered 500 and the
catalog stays as it was. -/
theorem addReward_zero_probability :
    addReward sampleCatalogEnv [sampleCatalog]
        (sampleRewardBody (FieldVal.num 5) (FieldVal.num 0)) =
      ((400, CatalogBody.error "All fields are required"), [sampleCatalog]) ∧
    (∃ r, (addReward sampleCatalogEnv [sampleCatalog]
        (sampleRewardBody (FieldVal.num 5) (FieldVal.str "0"))).1 = (200, CatalogBody.saved r) ∧
      r.probability = 0) ∧
    (SpinWheel.findOne [sampleCatalog] "demo.myshopify.com" = some sampleCatalog ∧
      (∃ old, sampleCatalog.rewards.find? (fun r => decide (r.id = "better_luck")) = some old) ∧
      updateReward sampleCatalogEnv [sampleCatalog] "better_luck"
          (sampleRewardBody (FieldVal.num 5) (FieldVal.num 25)) =
        ((500, CatalogBody.error "Internal server error"), [sampleCatalog])) := by
  refine ⟨?_, ?_, ?_, ?_, ?_⟩
  · simp [addReward, sampleRewardBody, FieldVal.truthy]
  · obtain ⟨_, h, _⟩ := addReward_accepted sampleCatalogEnv [sampleCatalog]
      (sampleRewardBody (FieldVal.num 5) (FieldVal.str "0")) "demo.myshopify.com" "points"
      "Bonus" RewardType.points 5 0 sampleCatalog_valid rfl (by decide) rfl (by decide) rfl
      (by decide) rfl rfl (by decide) (le_refl 0) (by norm_num)
    exact ⟨_, h, rfl⟩
  · decide
  · exact ⟨{ id := "better_luck", type := RewardType.points, value := 0,
             label := "Better Luck Next Time", probability := 2, color := "#6b7280",
             isActive := true }, by decide⟩
  · have hf : (sampleRewardBody (FieldVal.num 5) (FieldVal.num 25)).shopDomain.bind
        (SpinWheel.findOne [sampleCatalog]) = some sampleCatalog := by decide
    have hold : sampleCatalog.rewards.find? (fun r => decide (r.id = "better_luck")) =
        some { id := "better_luck", type := RewardType.points, value := 0,
               label := "Better Luck Next Time", probability := 2, color := "#6b7280",
               isActive := true } := by decide
    simp only [updateReward, hf, hold, castReward, catalogError]

/-- C22 fails as stated: a reward with the value -5 (and a probability of 25) is
accepted by the add route and is stored in the catalog of the shop with the
value -5. -/
theorem addReward_negative_value :
    ∃ r w1, (addReward sampleCatalogEnv [sampleCatalog]
        (sampleRewardBody (FieldVal.num (-5)) (FieldVal.num 25))).1 = (200, CatalogBody.saved r) ∧
      r.value = -5 ∧
      SpinWheel.findOne (addReward sampleCatalogEnv [sampleCatalog]
        (sampleRewardBody (FieldVal.num (-5)) (FieldVal.num 25))).2 "demo.myshopify.com"
        = some w1 ∧ r ∈ w1.rewards := by
  obtain ⟨w1, h, hf, hm⟩ := addReward_accepted sampleCatalogEnv [sampleCatalog]
    (sampleRewardBody (FieldVal.num (-5)) (FieldVal.num 25)) "demo.myshopify.com" "points"
    "Bonus" RewardType.points (-5) 25 sampleCatalog_valid rfl (by decide) rfl (by decide) rfl
    (by decide) rfl rfl (by simp [sampleRewardBody, FieldVal.truthy]) (by norm_num)
    (by norm_num)
  exact ⟨_, w1, h, rfl, hf, hm⟩

/-- C22, amended: the update route rejects every reward whose `value` is
negative and leaves the stored catalogs unchanged.  The add route rejects every
reward whose `value` is not a number and leaves the stored catalogs unchanged,
but does not check the sign of the value: when the other fields are acceptable
(shop, label and a type of the enum present, a truthy probability that is a
number in `[0, 100]`), the reward is accepted and stored with the value given,
negative values included. -/
theorem reward_value_check (env : CatalogEnv) (store : List SpinWheel) (rewardId : String)
    (body : RewardBody) :
    (∀ v, env.parseFloat body.value = some v → v < 0 →
      (updateReward env store rewardId body).1.1 ≠ 200 ∧
        (updateReward env store rewardId body).2 = store) ∧
    (env.parseFloat body.value = none →
      (addReward env store body).1.1 ≠ 200 ∧ (addReward env store body).2 = store) ∧
    (∀ (s t l : String) (ty : RewardType) (v p : ℚ), (∀ w ∈ store, w.valid) →
      body.shopDomain = some s → s ≠ "" → body.type = some t →
      RewardType.ofString t = some ty → body.label = some l → l ≠ "" →
      env.parseFloat body.value = some v → env.parseFloat body.probability = some p →
      body.probability.truthy = true → 0 ≤ p → p ≤ 100 →
      ∃ r w1, (addReward env store body).1 = (200, CatalogBody.saved r) ∧ r.value = v ∧
        SpinWheel.findOne (addReward env store body).2 s = some w1 ∧ r ∈ w1.rewards) := by
  refine ⟨fun _ _ _ => updateReward_rejects env store rewardId body,
    addReward_value_nan env store body, ?_⟩
  intro s t l ty v p hst hs hs0 ht hty hl hl0 hv hp htr h0 h100
  obtain ⟨w1, h, hf, hm⟩ :=
    addReward_accepted env store body s t l ty v p hst hs hs0 ht hty hl hl0 hv hp htr h0 h100
  exact ⟨_, w1, h, rfl, hf, hm⟩

/-- C22, amended, on the sample catalog: the update of `better_luck` to the value
-5 is refused and stores nothing, the add of a reward without a numeric value is
refused, and the add of a reward of value -5 is accepted. -/
theorem reward_value_check_witness :
    ((updateReward sampleCatalogEnv [sampleCatalog] "better_luck"
        (sampleRewardBody (FieldVal.num (-5)) (FieldVal.num 25))).1.1 ≠ 200 ∧
      (updateReward sampleCatalogEnv [sampleCatalog] "better_luck"
        (sampleRewardBody (FieldVal.num (-5)) (FieldVal.num 25))).2 = [sampleCatalog]) ∧
    ((addReward sampleCatalogEnv [sampleCatalog]
        (sampleRewardBody (FieldVal.str "many") (FieldVal.num 25))).1.1 ≠ 200 ∧
      (addReward sampleCatalogEnv [sampleCatalog]
        (sampleRewardBody (FieldVal.str "many") (FieldVal.num 25))).2 = [sampleCatalog]) ∧
    ∃ r w1, (addReward sampleCatalogEnv [sampleCatalog]
        (sampleRewardBody (FieldVal.num (-5)) (FieldVal.num 25))).1 = (200, CatalogBody.saved r) ∧
      r.value = -5 ∧
      SpinWheel.findOne (addReward sampleCatalogEnv [sampleCatalog]
        (sampleRewardBody (FieldVal.num (-5)) (FieldVal.num 25))).2 "demo.myshopify.com"
        = some w1 ∧ r ∈ w1.rewards :=
  ⟨(reward_value_check sampleCatalogEnv [sampleCatalog] "better_luck"
      (sampleRewardBody (FieldVal.num (-5)) (FieldVal.num 25))).1 (-5) rfl (by norm_num),
   (reward_value_check sampleCatalogEnv [sampleCatalog] "better_luck"
      (sampleRewardBody (FieldVal.str "many") (FieldVal.num 25))).2.1 rfl,
   (reward_value_check sampleCatalogEnv [sampleCatalog] "better_luck"
      (sampleRewardBody (FieldVal.num (-5)) (FieldVal.num 25))).2.2 "demo.myshopify.com" "points"
      "Bonus" RewardType.points (-5) 25 sampleCatalog_valid rfl (by decide) rfl (by decide) rfl
      (by decide) rfl rfl (by simp [sampleRewardBody, FieldVal.truthy]) (by norm_num)
      (by norm_num)⟩

/-- C23: for a shop (a non-empty `shop` parameter) without a catalog, the config
route creates one and returns it: the six rewards of `defaultRewards`, all
active, with pairwise distinct ids and the probabilities 30, 20, 25, 15, 8, 2 in
that order, which sum to 100; the next access returns the same catalog and leaves
the store as it is, as does every access for a shop that has a catalog. -/
theorem getConfig_default (store : List SpinWheel) (shopDomain : String)
    (hs : shopDomain ≠ "") :
    (SpinWheel.findOne store shopDomain = none →
      getConfig store (some shopDomain) =
        ((200, CatalogBody.config defaultRewards defaultSettings),
          store ++ [{ shopDomain := shopDomain, rewards := defaultRewards,
                      settings := defaultSettings }]) ∧
      getConfig (getConfig store (some shopDomain)).2 (some shopDomain) =
        ((200, CatalogBody.config defaultRewards defaultSettings),
          (getConfig store (some shopDomain)).2)) ∧
    (∀ w, SpinWheel.findOne store shopDomain = some w →
      getConfig store (some shopDomain) =
        ((200, CatalogBody.config w.rewards w.settings), store)) ∧
    defaultRewards.length = 6 ∧ (∀ r ∈ defaultRewards, r.isActive = true) ∧
    (defaultRewards.map (fun r => r.id)).Nodup ∧
    defaultRewards.map (fun r => r.probability) = [30, 20, 25, 15, 8, 2] ∧
    (defaultRewards.map (fun r => r.probability)).sum = 100 := by
  have hstored : ∀ (st : List SpinWheel) (w : SpinWheel),
      SpinWheel.findOne st shopDomain = some w →
      getConfig st (some shopDomain) = ((200, CatalogBody.config w.rewards w.settings), st) := by
    intro st w hf
    simp only [getConfig, hs, if_false, hf]
  have hvalid : SpinWheel.valid
      { shopDomain := shopDomain, rewards := defaultRewards, settings := defaultSettings } :=
    ⟨hs, defaultRewards_valid⟩
  refine ⟨?_, hstored store, rfl, ?_, ?_, rfl, ?_⟩
  · intro hf
    have h1 : getConfig store (some shopDomain) =
        ((200, CatalogBody.config defaultRewards defaultSettings),
          store ++ [{ shopDomain := shopDomain, rewards := defaultRewards,
                      settings := defaultSettings }]) := by
      simp only [getConfig, hs, if_false, hf, SpinWheel.save, hvalid, not_true_eq_false, if_true]
    refine ⟨h1, ?_⟩
    rw [h1]
    exact hstored _ _ (findOne_append_wheel store shopDomain _ hf rfl)
  · intro r hr
    simp only [defaultRewards, List.mem_cons, List.mem_singleton, List.not_mem_nil, or_false] at hr
    rcases hr with h | h | h | h | h | h <;> subst h <;> rfl
  · decide
  · simp [defaultRewards]
    norm_num

/-- C23, on the first and the second access of the sample shop to an empty
store. -/
theorem getConfig_default_witness :
    SpinWheel.findOne [] "demo.myshopify.com" = none ∧
    getConfig [] (some "demo.myshopify.com") =
      ((200, CatalogBody.config defaultRewards defaultSettings),
        [] ++ [{ shopDomain := "demo.myshopify.com", rewards := defaultRewards,
                 settings := defaultSettings }]) ∧
    getConfig (getConfig [] (some "demo.myshopify.com")).2 (some "demo.myshopify.com") =
      ((200, CatalogBody.config defaultRewards defaultSettings),
        (getConfig [] (some "demo.myshopify.com")).2) :=
  ⟨rfl, (getConfig_default [] "demo.myshopify.com" (by decide)).1 rfl⟩

end Loyalty
